import Mathlib

/-!
Verification of edge-gw-trace-service: trace store and identifier generator.

A shallow embedding of the parts of the repository that the specification's
testable properties talk about:

* `vendor/github.com/armPelionEdge/muuid-go/muuid.go` : the time-ordered
  identifier generator (`MUUIDGenerator`);
* `routes/logs.go` : `timestampFromUUID` and the record the POST handler builds;
* `storage/logs_controller.go` : `Date`, `buildESBoolQuery`, `AddDeviceTrace`
  and `SearchDeviceTrace`.

Machine integers are `Nat`/`Int` with the truncation written out where the
source truncates.  The wall clock, the search client library and the JSON
decoder are inputs of the model.
-/

namespace Muuid

/-! ## muuid.go -/

/-- Go `[6]byte`: the types `Timestamp` and `MACAddress` of muuid.go. -/
structure Bytes6 where
  b0 : Nat
  b1 : Nat
  b2 : Nat
  b3 : Nat
  b4 : Nat
  b5 : Nat
deriving DecidableEq

/-- The six cells of a `[6]byte`, in index order. -/
def Bytes6.toList (b : Bytes6) : List Nat := [b.b0, b.b1, b.b2, b.b3, b.b4, b.b5]

/-- The zero value of `[6]byte`. -/
def Bytes6.zero : Bytes6 := ⟨0, 0, 0, 0, 0, 0⟩

/-- Go `type Timestamp [6]byte`. -/
abbrev Timestamp := Bytes6

/-- Go `type MACAddress [6]byte`. -/
abbrev MACAddress := Bytes6

/-- Go `type MUUID [16]byte`: the list of its cells (every identifier the
generator returns has 16 of them, see `UUID_length`). -/
abbrev MUUID := List Nat

/-- Go `type MUUIDGenerator struct` without its mutex: `lastTimestampMs` is a
`time.Duration` (int64), `InstanceId` a uint16, `SequenceNumber` a uint32. -/
structure MUUIDGenerator where
  lastTimestamp : Timestamp
  lastTimestampMs : Int
  MAC : MACAddress
  InstanceId : Nat
  SequenceNumber : Nat
deriving DecidableEq

/-- Go conversion `uint8(x)` of an unsigned value: the low eight bits. -/
def uint8 (x : Nat) : Nat := x % 256

/-- Go conversion `uint8(x)` of a signed 64-bit value: the low eight bits of
its two's complement form. -/
def uint8OfInt (x : Int) : Nat := (x % 256).toNat

/-- Truncation of a result to uint16. -/
def uint16 (x : Nat) : Nat := x % 65536

/-- Truncation of a result to uint32. -/
def uint32 (x : Nat) : Nat := x % 4294967296

/-- The expression of muuid.go:68,
`time.Nanosecond * time.Duration(time.Now().UnixNano()) / time.Millisecond`,
as a function of the clock's `UnixNano()` reading: division truncates. -/
def nowMsOfUnixNano (unixNano : Int) : Int := Int.tdiv (1 * unixNano) 1000000

/-- The six bytes `now[0..5]` that `timestampMilliseconds` writes for a new
millisecond (muuid.go:76-81); `>>>` on the signed `nowMs` is the arithmetic
shift. -/
def encodeMs (nowMs : Int) : Timestamp :=
  { b0 := uint8OfInt (nowMs >>> (40 : Nat)) &&& 0xFF
    b1 := uint8OfInt (nowMs >>> (32 : Nat)) &&& 0xFF
    b2 := uint8OfInt (nowMs >>> (24 : Nat)) &&& 0xFF
    b3 := uint8OfInt (nowMs >>> (16 : Nat)) &&& 0xFF
    b4 := uint8OfInt (nowMs >>> (8 : Nat)) &&& 0xFF
    b5 := uint8OfInt nowMs &&& 0xFF }

/-- Go `MUUIDGenerator.timestampMilliseconds` (muuid.go:65-88).  `nowMs` is the
value the source computes from the clock on line 68; the generator after the
call is returned next to the timestamp. -/
def timestampMilliseconds (generator : MUUIDGenerator) (nowMs : Int) :
    Timestamp × MUUIDGenerator :=
  if nowMs = generator.lastTimestampMs then
    (generator.lastTimestamp,
      { generator with SequenceNumber := uint32 (generator.SequenceNumber + 1) })
  else
    let now : Timestamp := encodeMs nowMs
    (now, { generator with SequenceNumber := 0, lastTimestampMs := nowMs, lastTimestamp := now })

/-- Bytes 12 to 15 of an identifier as `UUID` writes them (muuid.go:39-42). -/
def tagBytes (InstanceId SequenceNumber : Nat) : List Nat :=
  [ uint8 (InstanceId >>> 4) &&& 0xFF,
    (uint8 (uint16 (InstanceId <<< 4)) &&& 0xF0) ||| (uint8 (SequenceNumber >>> 16) &&& 0x0F),
    uint8 (SequenceNumber >>> 8) &&& 0xFF,
    uint8 SequenceNumber &&& 0xFF ]

/-- Go `MUUIDGenerator.UUID` (muuid.go:29-45) at clock reading `nowMs`: the
identifier and the generator after the call. -/
def UUID (generator : MUUIDGenerator) (nowMs : Int) : MUUID × MUUIDGenerator :=
  let r := timestampMilliseconds generator nowMs
  (r.1.toList ++ r.2.MAC.toList ++ tagBytes r.2.InstanceId r.2.SequenceNumber, r.2)

/-- Successive `UUID()` calls on one generator, one per clock reading, in call
order. -/
def UUIDs (generator : MUUIDGenerator) : List Int → List MUUID
  | [] => []
  | nowMs :: rest => (UUID generator nowMs).1 :: UUIDs (UUID generator nowMs).2 rest

/-- A network interface as `net.Interfaces()` reports it. -/
structure NetInterface where
  Name : String
  HardwareAddr : List Nat

/-- Go `type MUUIDGeneratorBuilder struct`. -/
structure MUUIDGeneratorBuilder where
  NetworkInterface : String
  InstanceId : Nat

/-- Construction errors of `Build`. -/
inductive BuildError where
  | interfaces (msg : String)
  | ENetworkInterfaceNotFound
deriving DecidableEq

/-- Go `copy(macAddress[:], networkInterface.HardwareAddr)`: the first six bytes,
cells beyond the source's length keep their zero. -/
def copyMAC (hw : List Nat) : MACAddress :=
  ⟨hw.getD 0 0, hw.getD 1 0, hw.getD 2 0, hw.getD 3 0, hw.getD 4 0, hw.getD 5 0⟩

/-- Go `MUUIDGeneratorBuilder.getMACAddress` (muuid.go:109-127); `interfaces` is
the result of `net.Interfaces()`. -/
def getMACAddress (builder : MUUIDGeneratorBuilder)
    (interfaces : Except String (List NetInterface)) : Except BuildError MACAddress :=
  match interfaces with
  | .error e => .error (.interfaces e)
  | .ok l =>
    match l.find? (fun i => i.Name == builder.NetworkInterface) with
    | some i => .ok (copyMAC i.HardwareAddr)
    | none => .error .ENetworkInterfaceNotFound

/-- Go `MUUIDGeneratorBuilder.Build` (muuid.go:96-107): every field but `MAC` and
`InstanceId` has its zero value. -/
def Build (builder : MUUIDGeneratorBuilder)
    (interfaces : Except String (List NetInterface)) : Except BuildError MUUIDGenerator :=
  match getMACAddress builder interfaces with
  | .error e => .error e
  | .ok mac =>
    .ok { lastTimestamp := Bytes6.zero, lastTimestampMs := 0, MAC := mac,
          InstanceId := builder.InstanceId, SequenceNumber := 0 }

/-- The generator `Build` returns for node identity `mac` and instance
`InstanceId`. -/
def newGenerator (mac : MACAddress) (InstanceId : Nat) : MUUIDGenerator :=
  { lastTimestamp := Bytes6.zero, lastTimestampMs := 0, MAC := mac,
    InstanceId := InstanceId, SequenceNumber := 0 }

/-- The identifier a generator in state `g` has just handed out: its stored
timestamp, its MAC and the tag bytes of its counters (muuid.go:36-42, read
after `timestampMilliseconds` has updated the state). -/
def idOf (g : MUUIDGenerator) : MUUID :=
  g.lastTimestamp.toList ++ g.MAC.toList ++ tagBytes g.InstanceId g.SequenceNumber

/-- The stored timestamp bytes are the encoding of the stored millisecond: true
of every generator `Build` returns and kept by every `UUID()` call. -/
def Consistent (g : MUUIDGenerator) : Prop := g.lastTimestamp = encodeMs g.lastTimestampMs

instance (g : MUUIDGenerator) : Decidable (Consistent g) := by
  unfold Consistent
  infer_instance

/-- The `n`-byte big-endian representation of the low `8 n` bits of `v`. -/
def bigEndian : Nat → Nat → List Nat
  | 0, _ => []
  | n + 1, v => (v / 256 ^ n % 256) :: bigEndian n v

/-- The node identity used in the worked examples. -/
def exampleMAC : MACAddress := ⟨0xaa, 0xbb, 0xcc, 0xdd, 0xee, 0xff⟩

/-- The value of a byte string read as a big-endian base-256 numeral. -/
def beVal : List Nat → Nat
  | [] => 0
  | a :: l => a * 256 ^ l.length + beVal l

/-- A hexadecimal digit of `encoding/hex` (table `0123456789abcdef`). -/
def hexDigit (n : Nat) : Char :=
  if n < 10 then Char.ofNat (48 + n) else Char.ofNat (87 + n)

/-- Go `MUUID.String` (muuid.go:16-18): `hex.EncodeToString`, two digits a byte. -/
def MUUID.String (muuid : MUUID) : String :=
  String.mk (muuid.flatMap (fun b => [hexDigit (b / 16), hexDigit (b % 16)]))

end Muuid

namespace Storage

/-! ## storage/logs_controller.go -/

/-- Conversion of an integer to Go's `int64` (and to `int` on a 64-bit
platform): two's complement wrap-around. -/
def int64 (x : Int) : Int := (x + 2 ^ 63) % 2 ^ 64 - 2 ^ 63

/-- Conversion of an integer to Go's `uint64`. -/
def uint64 (x : Int) : Nat := (x % 2 ^ 64).toNat

/-- Go `time.Time` as the instant it denotes: nanoseconds since the Unix epoch,
unbounded. -/
structure Time where
  unixNano : Int
deriving DecidableEq

/-- The zero `time.Time`: January 1, year 1, 00:00:00 UTC. -/
def Time.zero : Time := ⟨-62135596800 * 1000000000⟩

/-- Go `Time.IsZero`. -/
def Time.IsZero (t : Time) : Bool := decide (t = Time.zero)

/-- Go `Time.UnixNano`: the count of nanoseconds as an int64 (it wraps when the
instant is out of the int64 range, as for the zero time). -/
def Time.UnixNano (t : Time) : Int := int64 t.unixNano

/-- Go `time.Unix(sec, nsec)`. -/
def Time.Unix (sec nsec : Int) : Time := ⟨sec * 1000000000 + nsec⟩

/-- Go `context.Context` values as the routing layer builds them. -/
inductive Context where
  | Background
  | WithValue (parent : Context) (key : String) (val : String)
  | WithTimeout (parent : Context) (timeout : Int)
deriving DecidableEq

set_option linter.dupNamespace false in
/-- Go `type Trace struct`; `Doc` is the type of the opaque `trace` document
(`map[string]interface{}`), `Typ` is the field `Type`. -/
structure Trace (Doc : Type) where
  AccountID : String
  DeviceID : String
  ID : String
  Timestamp : Int
  Timestring : String
  Trace : Doc
  Typ : String
  CloudTimestamp : Int
  CreatedAt : String
deriving DecidableEq

/-- Go `type TraceResponse struct`. -/
structure TraceResponse (Doc : Type) where
  AccountID : String
  DeviceID : String
  ID : String
  Object : String
  CreatedAt : String
  ETag : String
  Timestamp : String
  Trace : Doc
  Typ : String
deriving DecidableEq

/-- Go `type TracePage struct`.  `After` is an `interface{}` (`none` is nil) whose
values have type `Val`; a nil and an empty `Data` slice are both `[]`. -/
structure TracePage (Doc Val : Type) where
  Object : String
  Limit : Nat
  After : Option Val
  Order : String
  HasMore : Bool
  Data : List (TraceResponse Doc)
  TotalCount : Nat
deriving DecidableEq

/-- The zero value `TracePage{}`. -/
def TracePage.zero {Doc Val : Type} : TracePage Doc Val :=
  { Object := "", Limit := 0, After := none, Order := "", HasMore := false, Data := [],
    TotalCount := 0 }

/-- Go `type TraceQuery struct`.  `Typ` is the field `Type` and `SortAsc` the field
`Sort`; `Limit` is a uint64; `AfterCursor` is a slice of `interface{}`: `none`
is the nil slice. -/
structure TraceQuery (Val : Type) where
  ID : String
  Device : List String
  Account : String
  After : Time
  Before : Time
  Typ : String
  Limit : Nat
  SortAsc : Bool
  AfterCursor : Option (List Val)
deriving DecidableEq

/-- Go `type ESTraceStore struct`: the two configured target names (the client
handle and the logger are inputs of the operations). -/
structure ESTraceStore where
  ElasticSearchAlias : String
  ElasticActiveAlias : String
deriving DecidableEq

/-- The errors of logs_controller.go:86-93. -/
inductive StoreError where
  | ErrCouldNotInitES
  | ErrNotMatchNumberOfRequests
  | ErrCouldNotMakeBulkRequest
  | ErrCouldNotQueryLogs
  | ErrCouldNotUnmarshalLogs
  | ErrCouldNotRollOverLog
deriving DecidableEq

/-- How a Go function ends: it returns a value or it panics. -/
inductive Run (α : Type) where
  | returns (a : α)
  | panics (msg : String)
deriving DecidableEq

/-- Go `unixMilliseconds` (logs_controller.go:99-101): int64 division truncates. -/
def unixMilliseconds (t : Time) : Int := int64 (Int.tdiv t.UnixNano 1000000)

/-! ### `Date` -/

/-- The decimal digit `n % 10` as a character. -/
def digitChar (n : Nat) : Char := Char.ofNat (48 + n % 10)

/-- A number zero-padded to two digits. -/
def pad2 (n : Nat) : List Char := [digitChar (n / 10), digitChar n]

/-- A number zero-padded to three digits. -/
def pad3 (n : Nat) : List Char := [digitChar (n / 100), digitChar (n / 10), digitChar n]

/-- The year as `Format` prints it for the layout element `2006`: at least four
digits, a minus sign for a negative year. -/
def yearChars (y : Int) : List Char :=
  if 0 ≤ y ∧ y < 10000 then
    [digitChar (y.toNat / 1000), digitChar (y.toNat / 100), digitChar (y.toNat / 10),
      digitChar y.toNat]
  else
    let digits := Nat.toDigits 10 y.natAbs
    let padded := List.replicate (4 - digits.length) '0' ++ digits
    if y < 0 then '-' :: padded else padded

/-- Year, month and day of the proleptic Gregorian calendar for a count of
days since 1970-01-01. -/
def civilFromDays (days : Int) : Int × Int × Int :=
  let z := days + 719468
  let era := z / 146097
  let doe := z - era * 146097
  let yoe := (doe - doe / 1460 + doe / 36524 - doe / 146096) / 365
  let doy := doe - (365 * yoe + yoe / 4 - yoe / 100)
  let mp := (5 * doy + 2) / 153
  let d := doy - (153 * mp + 2) / 5 + 1
  let m := if mp < 10 then mp + 3 else mp - 9
  let y := yoe + era * 400
  (if m ≤ 2 then y + 1 else y, m, d)

/-- Modelled from the spec: Go's `time` package is absent from src/; this is
`t.UTC().Format("2006-01-02T15:04:05.000Z")`, the ISO-8601 UTC display string
`YYYY-MM-DDTHH:MM:SS.mmmZ` of an instant, milliseconds truncated. -/
def Time.FormatMillisUTC (t : Time) : String :=
  let secs := t.unixNano / 1000000000
  let nanos := t.unixNano % 1000000000
  let days := secs / 86400
  let rem := (secs % 86400).toNat
  let ymd := civilFromDays days
  String.mk (yearChars ymd.1 ++ ['-'] ++ pad2 ymd.2.1.toNat ++ ['-'] ++ pad2 ymd.2.2.toNat ++
    ['T'] ++ pad2 (rem / 3600) ++ [':'] ++ pad2 (rem % 3600 / 60) ++ [':'] ++ pad2 (rem % 60) ++
    ['.'] ++ pad3 (nanos / 1000000).toNat ++ ['Z'])

/-- Go `Date` (logs_controller.go:111-115); `/` and `%` of Go truncate. -/
def Date (timestamp : Int) : String :=
  let t_sec := Int.tdiv timestamp 1000
  let t_nsec := Int.tmod timestamp 1000 * 1000000
  (Time.Unix t_sec t_nsec).FormatMillisUTC

/-! ### `buildESBoolQuery` -/

/-- Modelled from the spec: the client library's range criterion (absent from
src/): a field name, an optional lower and upper bound and whether each bound
is inclusive. -/
structure RangeQuery where
  name : String
  lower : Option Int
  upper : Option Int
  includeLower : Bool
  includeUpper : Bool
deriving DecidableEq

/-- Go `elastic.NewRangeQuery(name)`: no bound yet. -/
def NewRangeQuery (name : String) : RangeQuery :=
  { name := name, lower := none, upper := none, includeLower := true, includeUpper := true }

/-- Go `RangeQuery.Lte(to)`: an inclusive upper bound. -/
def RangeQuery.Lte (q : RangeQuery) (bound : Int) : RangeQuery :=
  { q with upper := some bound, includeUpper := true }

/-- Go `RangeQuery.Gte(from)`: an inclusive lower bound. -/
def RangeQuery.Gte (q : RangeQuery) (bound : Int) : RangeQuery :=
  { q with lower := some bound, includeLower := true }

/-- Modelled from the spec: the search criteria the client library builds
(absent from src/): a membership test, an exact test, a full-text match test
and a range test on a named field. -/
inductive Query where
  | Terms (name : String) (values : List String)
  | Term (name : String) (value : String)
  | Match (name : String) (text : String)
  | Range (q : RangeQuery)
deriving DecidableEq

/-- Modelled from the spec: the client library's conjunction of criteria
(absent from src/): the clauses added with `Must` and those added with
`Filter`, in the order they were added. -/
structure BoolQuery where
  mustClauses : List Query
  filterClauses : List Query
deriving DecidableEq

/-- Go `elastic.NewBoolQuery()`. -/
def NewBoolQuery : BoolQuery := { mustClauses := [], filterClauses := [] }

/-- Go `BoolQuery.Must(q)`. -/
def BoolQuery.Must (b : BoolQuery) (q : Query) : BoolQuery :=
  { b with mustClauses := b.mustClauses ++ [q] }

/-- Go `BoolQuery.Filter(q)`. -/
def BoolQuery.Filter (b : BoolQuery) (q : Query) : BoolQuery :=
  { b with filterClauses := b.filterClauses ++ [q] }

/-- Go `buildESBoolQuery` (logs_controller.go:117-167). -/
def buildESBoolQuery {Val : Type} (query : TraceQuery Val) : BoolQuery :=
  let esQuery := NewBoolQuery
  let esQuery :=
    if query.Device.length > 0 then esQuery.Must (Query.Terms "device_id" query.Device)
    else esQuery
  let esQuery :=
    if query.Account ≠ "" then esQuery.Must (Query.Term "account_id" query.Account)
    else esQuery
  let esQuery :=
    if query.Typ ≠ "" then esQuery.Must (Query.Match "type" query.Typ)
    else esQuery
  let afterTime := unixMilliseconds query.After
  let beforeTime := unixMilliseconds query.Before
  let esQuery :=
    if !query.Before.IsZero || !query.After.IsZero then
      let timeRangeQuery := NewRangeQuery "timestamp"
      let timeRangeQuery :=
        if !query.Before.IsZero then timeRangeQuery.Lte beforeTime else timeRangeQuery
      let timeRangeQuery :=
        if !query.After.IsZero then timeRangeQuery.Gte afterTime else timeRangeQuery
      esQuery.Filter (Query.Range timeRangeQuery)
    else esQuery
  let esQuery :=
    if query.ID ≠ "" then esQuery.Must (Query.Term "id" query.ID)
    else esQuery
  esQuery

/-! ### `AddDeviceTrace` -/

/-- Modelled from the spec: the bulk response of the client library (absent
from src/): the flag `Errors` and, for the items of `Failed()`, their
`Error.Reason`. -/
structure BulkResponse where
  Errors : Bool
  failedReasons : List String
deriving DecidableEq

/-- The bulk builder of the client library as `AddDeviceTrace` uses it, over
any request representation `σ`: `Index` is `client.Bulk().Index(name)`, `Add`
is `bulkRequest.Add(elastic.NewBulkIndexRequest().Doc(log))`, `Do` is the
network call `bulkRequest.Do(ctx)` (its error or its response). -/
structure BulkService (σ Doc : Type) where
  Index : String → σ
  Add : σ → Trace Doc → σ
  NumberOfActions : σ → Int
  Do : σ → Context → Except String BulkResponse

/-- A bulk request as a value: its target and its index actions, in order. -/
structure BulkRequest (Doc : Type) where
  index : String
  actions : List (Trace Doc)
deriving DecidableEq

/-- Modelled from the spec: the bulk builder of the client library (absent
from src/), "a single network operation carrying multiple individual
write-intents": `Add` appends one write-intent, `NumberOfActions` counts them,
and `backend` is the network operation. -/
def bulkClient {Doc : Type}
    (backend : BulkRequest Doc → Context → Except String BulkResponse) :
    BulkService (BulkRequest Doc) Doc :=
  { Index := fun target => { index := target, actions := [] }
    Add := fun r doc => { r with actions := r.actions ++ [doc] }
    NumberOfActions := fun r => r.actions.length
    Do := backend }

/-- What `AddDeviceTrace` did: the error it returned (`none` is nil), the bulk
writes it issued with the context of each, and the per-item failure reasons it
sent to the log. -/
structure AddOutcome (σ : Type) where
  err : Option StoreError
  calls : List (σ × Context)
  logged : List String
deriving DecidableEq

/-- The loop of `AddDeviceTrace` (logs_controller.go:216-221): the bulk request
after one `Add` per input record, each on a copy with the two display fields
set. -/
def buildBulkRequest {σ Doc : Type} (esTraceStore : ESTraceStore) (bulk : BulkService σ Doc)
    (logs : List (Trace Doc)) : σ :=
  logs.foldl
    (fun bulkRequest log =>
      bulk.Add bulkRequest
        { log with Timestring := Date log.Timestamp, CreatedAt := Date log.CloudTimestamp })
    (bulk.Index esTraceStore.ElasticActiveAlias)

/-- Go `ESTraceStore.AddDeviceTrace` (logs_controller.go:202-272). -/
def AddDeviceTrace {σ Doc : Type} (esTraceStore : ESTraceStore) (bulk : BulkService σ Doc)
    (ctx : Context) (logs : List (Trace Doc)) : AddOutcome σ :=
  let bulkRequest := buildBulkRequest esTraceStore bulk logs
  if bulk.NumberOfActions bulkRequest ≠ (logs.length : Int) then
    { err := some StoreError.ErrNotMatchNumberOfRequests, calls := [], logged := [] }
  else
    match bulk.Do bulkRequest ctx with
    | .error _ =>
      { err := some StoreError.ErrCouldNotMakeBulkRequest, calls := [(bulkRequest, ctx)],
        logged := [] }
    | .ok response =>
      if response.Errors = true then
        { err := some StoreError.ErrCouldNotMakeBulkRequest, calls := [(bulkRequest, ctx)],
          logged := response.failedReasons }
      else
        { err := none, calls := [(bulkRequest, ctx)], logged := [] }

/-! ### `SearchDeviceTrace` -/

/-- Modelled from the spec: the search request the client library builds
(absent from src/): target, criteria, sort field and direction, offset, size,
whether an exact total is requested (`none` when `TrackTotalHits` was not
called) and the seek-after values. -/
structure SearchRequest (Val : Type) where
  index : String
  query : BoolQuery
  sortField : String
  sortAscending : Bool
  offset : Int
  size : Int
  trackTotalHits : Option Bool
  searchAfter : List Val
deriving DecidableEq

/-- Modelled from the spec: the search result of the client library (absent
from src/): the raw hits in backend order (`result.Hits.Hits`, each a raw JSON
document of type `Source`) and the reported total
(`result.Hits.TotalHits.Value`, an int64). -/
structure SearchResult (Source : Type) where
  hits : List Source
  totalHits : Int
deriving DecidableEq

/-- The request of logs_controller.go:295-308. -/
def searchRequest {Val : Type} (esTraceStore : ESTraceStore) (query : TraceQuery Val)
    (includeTotalCount : Bool) : SearchRequest Val :=
  let search : SearchRequest Val :=
    { index := esTraceStore.ElasticSearchAlias
      query := buildESBoolQuery query
      sortField := "id"
      sortAscending := query.SortAsc
      offset := 0
      size := int64 (int64 query.Limit + 1)
      trackTotalHits := none
      searchAfter := [] }
  let search := if includeTotalCount then { search with trackTotalHits := some true } else search
  match query.AfterCursor with
  | some cursor => { search with searchAfter := search.searchAfter ++ cursor }
  | none => search

/-- The response record of logs_controller.go:351-361. -/
def traceResponse {Doc : Type} (trace : Trace Doc) : TraceResponse Doc :=
  { AccountID := trace.AccountID
    DeviceID := trace.DeviceID
    ID := trace.ID
    Object := "device-trace"
    CreatedAt := trace.CreatedAt
    ETag := trace.CreatedAt
    Timestamp := trace.Timestring
    Trace := trace.Trace
    Typ := trace.Typ }

/-- The loop of logs_controller.go:340-375 from index `i` on, `data` being
`tracePage.Data` so far: `none` when a hit the loop reaches fails to decode. -/
def decodeHits {Doc Source : Type} (unmarshal : Source → Option (Trace Doc)) (limit : Int) :
    Nat → List Source → List (TraceResponse Doc) → Option (List (TraceResponse Doc))
  | _, [], data => some data
  | i, hit :: rest, data =>
    if (i : Int) ≥ limit then some data
    else
      match unmarshal hit with
      | some trace => decodeHits unmarshal limit (i + 1) rest (data ++ [traceResponse trace])
      | none => none

/-- What `SearchDeviceTrace` returned and the searches it issued, with the
context of each. -/
structure SearchOutcome (Doc Val : Type) where
  page : TracePage Doc Val
  err : Option StoreError
  calls : List (SearchRequest Val × Context)
deriving DecidableEq

/-- Go `ESTraceStore.SearchDeviceTrace` (logs_controller.go:275-383).  `searchDo`
is the network call `search.Do`, `unmarshal` is `json.Unmarshal` into a
`Trace`.  Indexing an empty non-nil cursor on line 379 panics. -/
def SearchDeviceTrace {Doc Val Source : Type} (esTraceStore : ESTraceStore)
    (searchDo : SearchRequest Val → Context → Except String (SearchResult Source))
    (unmarshal : Source → Option (Trace Doc)) (_ctx : Context) (query : TraceQuery Val)
    (includeTotalCount : Bool) : Run (SearchOutcome Doc Val) :=
  let search := searchRequest esTraceStore query includeTotalCount
  let calls := [(search, Context.Background)]
  match searchDo search Context.Background with
  | .error _ =>
    .returns { page := TracePage.zero, err := some StoreError.ErrCouldNotQueryLogs, calls := calls }
  | .ok result =>
    let tracePage : TracePage Doc Val :=
      { TracePage.zero with
        Object := "list"
        Limit := query.Limit
        Order := if query.SortAsc = true then "ASC" else "DESC" }
    let tracePage :=
      if includeTotalCount then { tracePage with TotalCount := uint64 result.totalHits }
      else tracePage
    let tracePage :=
      { tracePage with HasMore := decide ((result.hits.length : Int) > int64 tracePage.Limit) }
    let decoded :=
      if result.totalHits > 0 then decodeHits unmarshal (int64 tracePage.Limit) 0 result.hits []
      else some []
    match decoded with
    | none =>
      .returns
        { page := TracePage.zero, err := some StoreError.ErrCouldNotUnmarshalLogs, calls := calls }
    | some data =>
      let tracePage := { tracePage with Data := data }
      match query.AfterCursor with
      | none => .returns { page := tracePage, err := none, calls := calls }
      | some [] => .panics "index out of range [0] with length 0"
      | some (first :: _) =>
        .returns { page := { tracePage with After := some first }, err := none, calls := calls }

/-- The decoded hits that make up a page: `decodeHits` over the whole result
when the reported total is positive, nothing otherwise
(logs_controller.go:337-376). -/
def pageData {Doc Source : Type} (unmarshal : Source → Option (Trace Doc)) (limit : Nat)
    (result : SearchResult Source) : Option (List (TraceResponse Doc)) :=
  if result.totalHits > 0 then decodeHits unmarshal (int64 limit) 0 result.hits []
  else some []

/-- The JSON decoder of the worked examples: the document `"bad"` does not
decode, any other document `s` decodes to a record with id `s`. -/
def exampleUnmarshal (s : String) : Option (Trace Unit) :=
  if s = "bad" then none
  else some { AccountID := "a1", DeviceID := "d1", ID := s, Timestamp := 0,
              Timestring := "1970-01-01T00:00:00.000Z", Trace := (), Typ := "x",
              CloudTimestamp := 0, CreatedAt := "1970-01-01T00:00:00.000Z" }

/-- The query of the worked examples: account `a1`, limit 2, descending, no
cursor, no time bound. -/
def exampleQuery : TraceQuery String :=
  { ID := "", Device := [], Account := "a1", After := Time.zero, Before := Time.zero, Typ := "",
    Limit := 2, SortAsc := false, AfterCursor := none }

/-- The store of the worked examples. -/
def exampleStore : ESTraceStore :=
  { ElasticSearchAlias := "trace-search", ElasticActiveAlias := "trace-active" }

/-- A bulk builder that miscounts: it reports no action whatever was added.
The library's builder never does so; this one exists to exercise the
pre-check of `AddDeviceTrace`. -/
def miscountingBulk : BulkService (BulkRequest Unit) Unit :=
  { Index := fun target => { index := target, actions := [] }
    Add := fun r doc => { r with actions := r.actions ++ [doc] }
    NumberOfActions := fun _ => 0
    Do := fun _ _ => .ok { Errors := false, failedReasons := [] } }

/-- The record of the worked examples. -/
def exampleTrace : Trace Unit :=
  { AccountID := "a1", DeviceID := "d1", ID := "01856aa0c800aabbccddeeff00100000",
    Timestamp := 1672531200000, Timestring := "", Trace := (), Typ := "x",
    CloudTimestamp := 1672531200000, CreatedAt := "" }

end Storage

namespace Routes

open Muuid Storage

/-! ## routes/logs.go -/

/-- Go `timestampFromUUID` (routes/logs.go:102-111): the loop over `i = 0..5`. -/
def timestampFromUUID (muuid : MUUID) : Int :=
  (List.range 6).foldl (fun timestamp i => timestamp * 256 + (muuid.getD i 0 : Int)) 0

/-- Go `type PostTrace struct`; `Typ` is the field `Type`. -/
structure PostTrace (Doc : Type) where
  Timestamp : String
  Trace : Doc
  Typ : String
deriving DecidableEq

/-- The record the POST handler builds for one accepted entry
(routes/logs.go:270-280), and the generator after its `UUID()` call: `nowMs` is
the clock reading of that call and `timestamp` the parsed `log.Timestamp`; the
two display fields keep their zero value. -/
def newTrace {Doc : Type} (UUIDGenerator : MUUIDGenerator) (nowMs : Int)
    (deviceID accountID : String) (timestamp : Time) (log : PostTrace Doc) :
    Trace Doc × MUUIDGenerator :=
  let r := UUID UUIDGenerator nowMs
  ({ ID := MUUID.String r.1
     DeviceID := deviceID
     AccountID := accountID
     Timestamp := int64 (Int.tdiv timestamp.UnixNano 1000000)
     CloudTimestamp := timestampFromUUID r.1
     Trace := log.Trace
     Typ := log.Typ
     Timestring := ""
     CreatedAt := "" }, r.2)

end Routes

namespace Storage

/-! ### The stored JSON document -/

/-- The message of each error value (logs_controller.go:87-92). -/
def StoreError.Error : StoreError → String
  | .ErrCouldNotInitES => "Failed to initial the elastic search"
  | .ErrNotMatchNumberOfRequests => "Found Unmatched number of actions of bulk request"
  | .ErrCouldNotMakeBulkRequest => "Failed to make the bulk request"
  | .ErrCouldNotQueryLogs => "Failed to query the trace logs by the specific term"
  | .ErrCouldNotUnmarshalLogs => "Failed to format the query result"
  | .ErrCouldNotRollOverLog => "Failed to rollover the active trace log index"

/-- Whether `total_count` appears in the JSON encoding of a page: the field is
tagged `omitempty` (logs_controller.go:59), so a zero count is left out. -/
def TracePage.totalCountPresent {Doc Val : Type} (p : TracePage Doc Val) : Bool :=
  decide (p.TotalCount ≠ 0)

/-- Modelled from the spec: Go's `encoding/json` is absent from src/; a member
value of a stored JSON document as far as `Trace` needs it: null, a string, an
integer or a `trace` document, which "must round-trip unchanged" and is
carried as the value it denotes. -/
inductive JSONValue (Doc : Type) where
  | null
  | string (s : String)
  | number (n : Int)
  | document (d : Doc)
deriving DecidableEq

/-- Modelled from the spec: Go's `encoding/json` is absent from src/; the JSON
object `json.Marshal` writes for a `Trace`: one member per field, named by the
field's tag (logs_controller.go:26-36), in declaration order. -/
def marshalTrace {Doc : Type} (t : Trace Doc) : List (String × JSONValue Doc) :=
  [ ("account_id", .string t.AccountID),
    ("device_id", .string t.DeviceID),
    ("id", .string t.ID),
    ("timestamp", .number t.Timestamp),
    ("timestring", .string t.Timestring),
    ("trace", .document t.Trace),
    ("type", .string t.Typ),
    ("@timestamp", .number t.CloudTimestamp),
    ("created_at", .string t.CreatedAt) ]

/-- Modelled from the spec: Go's `encoding/json` is absent from src/; what
`json.Unmarshal` does with one member of a JSON object when it fills a
`Trace`: a member named by a field's tag sets that field when its value has
the field's kind, leaves it alone when the value is null, and is an error
otherwise; any other member is ignored. -/
def setMember {Doc : Type} (t : Trace Doc) (name : String) (v : JSONValue Doc) :
    Option (Trace Doc) :=
  if name = "account_id" then
    match v with
    | .string s => some { t with AccountID := s }
    | .null => some t
    | _ => none
  else if name = "device_id" then
    match v with
    | .string s => some { t with DeviceID := s }
    | .null => some t
    | _ => none
  else if name = "id" then
    match v with
    | .string s => some { t with ID := s }
    | .null => some t
    | _ => none
  else if name = "timestamp" then
    match v with
    | .number n => some { t with Timestamp := n }
    | .null => some t
    | _ => none
  else if name = "timestring" then
    match v with
    | .string s => some { t with Timestring := s }
    | .null => some t
    | _ => none
  else if name = "trace" then
    match v with
    | .document d => some { t with Trace := d }
    | .null => some t
    | _ => none
  else if name = "type" then
    match v with
    | .string s => some { t with Typ := s }
    | .null => some t
    | _ => none
  else if name = "@timestamp" then
    match v with
    | .number n => some { t with CloudTimestamp := n }
    | .null => some t
    | _ => none
  else if name = "created_at" then
    match v with
    | .string s => some { t with CreatedAt := s }
    | .null => some t
    | _ => none
  else some t

/-- The members of a JSON object applied in order to a `Trace`. -/
def setMembers {Doc : Type} :
    List (String × JSONValue Doc) → Trace Doc → Option (Trace Doc)
  | [], t => some t
  | (name, v) :: rest, t =>
    match setMember t name v with
    | some t' => setMembers rest t'
    | none => none

/-- Modelled from the spec: Go's `encoding/json` is absent from src/;
`json.Unmarshal(hit.Source, &trace)` on a fresh `var trace Trace`
(logs_controller.go:345-348); `nilDoc` is the nil `trace` map. -/
def unmarshalTrace {Doc : Type} (nilDoc : Doc) (source : List (String × JSONValue Doc)) :
    Option (Trace Doc) :=
  setMembers source
    { AccountID := "", DeviceID := "", ID := "", Timestamp := 0, Timestring := "",
      Trace := nilDoc, Typ := "", CloudTimestamp := 0, CreatedAt := "" }

end Storage

namespace Routes

open Muuid Storage

/-! ### Constants and helpers of routes/logs.go -/

/-- The constant `MinLimit` (routes/logs.go:36). -/
def MinLimit : Nat := 2

/-- The constant `DefaultLimit` (routes/logs.go:37). -/
def DefaultLimit : Nat := 100

/-- The constant `MaxLimit` (routes/logs.go:38). -/
def MaxLimit : Nat := 1000

/-- The constant `DefalutSort` (routes/logs.go:39). -/
def DefalutSort : Bool := false

/-- The constant `StatusInternalServerErrType`. -/
def StatusInternalServerErrType : String := "internal_server_error"

/-- The constant `StatusBadRequestErrType`. -/
def StatusBadRequestErrType : String := "bad_request"

/-- The constant `StatusValidationErrType`. -/
def StatusValidationErrType : String := "validation_error"

/-- The constant `StatusNotFound`. -/
def StatusNotFound : String := "not_found"

/-- The constant `MaxTimestamp` (routes/logs.go:45), in milliseconds. -/
def MaxTimestamp : Int := 9223372036854

/-- Go `type PublicErrorField struct` (httputil/error.go). -/
structure PublicErrorField where
  Name : String
  Message : String
deriving DecidableEq

/-- Go `type PublicError struct` (httputil/error.go); `Typ` is the field
`Type`, a nil `Fields` is `[]`. -/
structure PublicError where
  Object : String
  Code : Nat
  Typ : String
  Message : String
  Fields : List PublicErrorField
  RequestID : String
deriving DecidableEq

/-- The error object that `encodePublicErrorObject` (routes/logs.go:72-93)
encodes as JSON. -/
def encodePublicErrorObject (c : Nat) (typ msg fName fMsg id : String) : PublicError :=
  { Object := "error"
    Code := c
    Typ := typ
    Message := msg
    RequestID := id
    Fields := if fName ≠ "" ∧ fMsg ≠ "" then [{ Name := fName, Message := fMsg }] else [] }

/-- Go `buildContextWithValue` (routes/logs.go:95-100). -/
def buildContextWithValue (requestID accountID : String) : Context :=
  Context.WithValue (Context.WithValue Context.Background "request_id" requestID)
    "account_id" accountID

/-- The local `MinTime` of the handlers: `time.Unix(0, 0)`. -/
def MinTime : Time := Time.Unix 0 0

/-- The local `MaxTime` of the handlers:
`time.Unix(MaxTimestamp / 1000, (MaxTimestamp % 1000) * 1000000)`. -/
def MaxTime : Time :=
  Time.Unix (Int.tdiv MaxTimestamp 1000) (Int.tmod MaxTimestamp 1000 * 1000000)

/-- Go `Time.Before`. -/
def timeBefore (t u : Time) : Bool := decide (t.unixNano < u.unixNano)

/-- Go `Time.After`. -/
def timeAfter (t u : Time) : Bool := decide (t.unixNano > u.unixNano)

/-- Whether a character is matched by `[a-fA-F0-9]`. -/
def isHexChar (c : Char) : Bool :=
  ('0' ≤ c ∧ c ≤ '9') ∨ ('a' ≤ c ∧ c ≤ 'f') ∨ ('A' ≤ c ∧ c ≤ 'F')

/-- Go `isValidUUID` (routes/logs.go:127-130): the pattern `^[a-fA-F0-9]{32}$`. -/
def isValidUUID (uuid : String) : Bool :=
  decide (uuid.data.length = 32) && uuid.data.all isHexChar

/-- Go `strings.ToLower` on the strings the handlers pass to it, where only
the letters `A` to `Z` can change. -/
def toLower (s : String) : String := String.mk (s.data.map Char.toLower)

/-! ### The GET handlers -/

/-- The local variables that the parameter loop of `TraceHandler` sets
(routes/logs.go:343-349); `includeTotal` is the variable `include`. -/
structure TraceParams where
  afterTime : Time
  beforeTime : Time
  typ : String
  after : Option (List String)
  includeTotal : Bool
  limit : Nat
  sort : Bool
deriving DecidableEq

/-- The values of the local variables before the loop. -/
def TraceParams.init : TraceParams :=
  { afterTime := Time.zero, beforeTime := Time.zero, typ := "", after := none,
    includeTotal := false, limit := DefaultLimit, sort := DefalutSort }

/-- What the GET handlers use from outside the package: `parseRFC3339` is
`time.Parse(time.RFC3339, ·)` (`none` on an error), `parseUint` is
`strconv.ParseUint(·, 10, 64)` (its error message on an error), and
`SearchDeviceTrace` is the method of the `TraceStore` interface. -/
structure GetEnv (Doc : Type) where
  parseRFC3339 : String → Option Time
  parseUint : String → Except String Nat
  SearchDeviceTrace : Context → TraceQuery String → Bool → TracePage Doc String × Option StoreError

/-- The three ways the `switch` of the parameter loop ends (routes/logs.go:356-444). -/
inductive FieldCheck where
  | accepted (p : TraceParams)
  | fieldErr (msg : String)
  | unknownField
deriving DecidableEq

/-- The `switch` of the parameter loop of `TraceHandler` for one query field
and the first value given for it (routes/logs.go:356-444). -/
def checkField {Doc : Type} (env : GetEnv Doc) (p : TraceParams) (field value : String) :
    FieldCheck :=
  if field = "timestamp__gte" then
    match env.parseRFC3339 value with
    | some t => .accepted { p with afterTime := t }
    | none => .fieldErr "Invalid field value. Could not parse as RFC3339 format."
  else if field = "timestamp__lte" then
    match env.parseRFC3339 value with
    | some t => .accepted { p with beforeTime := t }
    | none => .fieldErr "Invalid field value. Could not parse as RFC3339 format."
  else if field = "type__eq" then
    if value ≠ "" then .accepted { p with typ := value }
    else .fieldErr "Invalid field value ''"
  else if field = "limit" then
    if value ≠ "" then
      match env.parseUint value with
      | .ok limit =>
        if limit > MaxLimit ∨ limit < MinLimit then
          .fieldErr "Invalid 'limit' provided. Acceptable value is 2-1000."
        else .accepted { p with limit := limit }
      | .error msg => .fieldErr msg
    else .fieldErr "Invalid field value ''"
  else if field = "order" then
    if value ≠ "" then
      if toLower value = "asc" then .accepted { p with sort := true }
      else if toLower value ≠ "desc" then
        .fieldErr "Invalid 'order'. Acceptable values [ASC|DESC]"
      else .accepted p
    else .fieldErr "Invalid field value ''"
  else if field = "after" then
    if value ≠ "" then
      if !isValidUUID value then .fieldErr "Invalid after cursor."
      else .accepted { p with after := some [toLower value] }
    else .fieldErr "Invalid field value ''"
  else if field = "include" then
    if value ≠ "" then
      if value = "total_count" then .accepted { p with includeTotal := true }
      else .accepted p
    else .fieldErr "Invalid field value ''"
  else .unknownField

/-- The parameter loop of `TraceHandler` (routes/logs.go:355-465) over the
query fields in the order the map iteration visits them, each with the first
value given for it: the local variables, or the error the loop answers with. -/
def verifyFields {Doc : Type} (env : GetEnv Doc) (requestID : String) :
    List (String × String) → TraceParams → Except PublicError TraceParams
  | [], p => .ok p
  | (field, value) :: rest, p =>
    match checkField env p field value with
    | .unknownField =>
      .error (encodePublicErrorObject 400 StatusBadRequestErrType
        ("Invalid field name '" ++ field ++ "'") "" "" requestID)
    | .fieldErr msg =>
      .error (encodePublicErrorObject 400 StatusValidationErrType
        ("Invalid query field '" ++ field ++ "'") field msg requestID)
    | .accepted p' => verifyFields env requestID rest p'

/-- The body of a response. -/
inductive Body (Doc : Type) where
  | empty
  | error (e : PublicError)
  | page (p : TracePage Doc String)
  | trace (t : TraceResponse Doc)
deriving DecidableEq

/-- What a GET handler did: the status and body it wrote and the
`SearchDeviceTrace` calls it made (context, query, `includeTotalCount`). -/
structure GetOutcome (Doc : Type) where
  status : Nat
  body : Body Doc
  searchCalls : List (Context × TraceQuery String × Bool)
deriving DecidableEq

/-- Whether the query has the field `name` (`len(query[name]) != 0`). -/
def hasField (query : List (String × String)) (name : String) : Bool :=
  query.any (fun kv => kv.1 == name)

/-- The empty page of routes/logs.go:491-509. -/
def emptyPage {Doc : Type} (p : TraceParams) : TracePage Doc String :=
  { Object := "list"
    HasMore := false
    Limit := p.limit
    Data := []
    After := match p.after with
      | some (first :: _) => some first
      | _ => none
    Order := if p.sort then "ASC" else "DESC"
    TotalCount := 0 }

/-- The `TraceQuery` of routes/logs.go:512-532. -/
def storeQuery (query : List (String × String)) (devices : List String) (accountID : String)
    (p : TraceParams) : TraceQuery String :=
  let beforeTime :=
    if hasField query "timestamp__lte" && timeAfter p.beforeTime MaxTime then Time.zero
    else p.beforeTime
  let afterTime :=
    if hasField query "timestamp__gte" && timeBefore p.afterTime MinTime then Time.zero
    else p.afterTime
  { ID := ""
    Device := devices
    Account := accountID
    After := afterTime
    Before := beforeTime
    Typ := p.typ
    Limit := p.limit
    SortAsc := p.sort
    AfterCursor := p.after }

/-- Go `TraceHandler` (routes/logs.go:333-597).  `query` is `r.URL.Query()` as
the list of its fields in map iteration order, each with its first value;
`json.Marshal` of the page is taken to succeed. -/
def TraceHandler {Doc : Type} (env : GetEnv Doc) (requestID accountID : String)
    (query : List (String × String)) (devices : List String) : GetOutcome Doc :=
  match verifyFields env requestID query TraceParams.init with
  | .error e => { status := 400, body := .error e, searchCalls := [] }
  | .ok p =>
    if hasField query "timestamp__gte" && hasField query "timestamp__lte" &&
        timeBefore p.beforeTime p.afterTime then
      { status := 400
        body := .error (encodePublicErrorObject 400 StatusBadRequestErrType
          "Invalid time range. timerange__gte should be after timerange__lte" "" "" requestID)
        searchCalls := [] }
    else if timeAfter p.afterTime MaxTime ||
        (hasField query "timestamp__lte" && timeBefore p.beforeTime MinTime) then
      { status := 200, body := .page (emptyPage p), searchCalls := [] }
    else
      let traceQuery := storeQuery query devices accountID p
      let ctx := buildContextWithValue requestID accountID
      match env.SearchDeviceTrace ctx traceQuery p.includeTotal with
      | (_, some err) =>
        { status := 500
          body := .error (encodePublicErrorObject 500 StatusInternalServerErrType err.Error
            "" "" requestID)
          searchCalls := [(ctx, traceQuery, p.includeTotal)] }
      | (results, none) =>
        { status := 200, body := .page results, searchCalls := [(ctx, traceQuery, p.includeTotal)] }

/-- The `TraceQuery` of the single-trace route (routes/logs.go:832-837): every
other field has its zero value. -/
def singleTraceQuery (accountID id : String) : TraceQuery String :=
  { ID := id
    Device := []
    Account := accountID
    After := Time.zero
    Before := Time.zero
    Typ := ""
    Limit := MinLimit
    SortAsc := false
    AfterCursor := none }

/-- The handler of `/v3/device-trace/{device_trace_id}` after the access token
check (routes/logs.go:805-921).  Indexing an empty `results.Data` on line 890
panics; `json.Marshal` of the record is taken to succeed. -/
def singleTraceHandler {Doc : Type} (env : GetEnv Doc) (requestID accountID : String)
    (query : List (String × String)) (id : String) : Run (GetOutcome Doc) :=
  if query.length > 0 then
    .returns
      { status := 400
        body := .error (encodePublicErrorObject 400 StatusBadRequestErrType
          "Invalid field query" "" "" requestID)
        searchCalls := [] }
  else
    let traceQuery := singleTraceQuery accountID id
    let ctx := buildContextWithValue requestID accountID
    let calls := [(ctx, traceQuery, true)]
    match env.SearchDeviceTrace ctx traceQuery true with
    | (_, some err) =>
      .returns
        { status := 500
          body := .error (encodePublicErrorObject 500 StatusInternalServerErrType err.Error
            "" "" requestID)
          searchCalls := calls }
    | (results, none) =>
      if results.TotalCount = 0 then
        .returns
          { status := 404
            body := .error (encodePublicErrorObject 404 StatusNotFound
              "Could not retreive device trace by this ID" "" "" requestID)
            searchCalls := calls }
      else
        match results.Data with
        | [] => .panics "index out of range [0] with length 0"
        | first :: _ => .returns { status := 200, body := .trace first, searchCalls := calls }

/-! ### The POST handler -/

/-- What the POST handler uses from outside the package: `UnmarshalJSON` is the
decoding of routes/logs.go:113-125 (its error message on an error),
`parseRFC3339` is `time.Parse(time.RFC3339, ·)`, `clock n` is the millisecond
the generator reads on the `n`-th `UUID()` call of the request, and
`AddDeviceTrace` is the method of the `TraceStore` interface. -/
structure PostEnv (Doc : Type) where
  UnmarshalJSON : String → Except String (List (PostTrace Doc))
  parseRFC3339 : String → Option Time
  clock : Nat → Int
  AddDeviceTrace : Context → List (Trace Doc) → Option StoreError

/-- What the POST handler did: the status and body it wrote, the
`AddDeviceTrace` calls it made and the generator after the request. -/
structure PostOutcome (Doc : Type) where
  status : Nat
  body : Body Doc
  addCalls : List (Context × List (Trace Doc))
  generator : MUUIDGenerator
deriving DecidableEq

/-- The loop of the POST handler (routes/logs.go:228-281) from index `index`
on: the records built for the remaining entries and the generator after them,
or the error the loop answers with. -/
def buildLogs {Doc : Type} (env : PostEnv Doc) (requestID accountID deviceID : String) :
    List (PostTrace Doc) → Nat → MUUIDGenerator →
      Except PublicError (List (Trace Doc)) × MUUIDGenerator
  | [], _, generator => (.ok [], generator)
  | log :: rest, index, generator =>
    match env.parseRFC3339 log.Timestamp with
    | none =>
      (.error (encodePublicErrorObject 400 StatusValidationErrType
        "Invalid log timestamp, cannot parse as RFC3339 format." "timestamp"
        "Cannot parse 'timestamp' as RFC3339 string." requestID), generator)
    | some timestamp =>
      if timeBefore timestamp MinTime || timeAfter timestamp MaxTime then
        (.error (encodePublicErrorObject 400 StatusValidationErrType
          "Invalid log timestamp." "timestamp"
          "Unacceptable 'timestamp' value, not in range." requestID), generator)
      else
        let r := newTrace generator (env.clock index) deviceID accountID timestamp log
        match buildLogs env requestID accountID deviceID rest (index + 1) r.2 with
        | (.ok logs, generator') => (.ok (r.1 :: logs), generator')
        | (.error e, generator') => (.error e, generator')

/-- The constant `CtxTimeout` (logs_controller.go:96), in nanoseconds. -/
def CtxTimeout : Int := 30 * 1000000000

/-- The POST handler of `/` (routes/logs.go:135-323).  `dataStream` is the
result of reading the request body (its error message on an error),
`requestID`, `accountID` and `deviceID` are the headers `X-Request-ID`,
`X-Account-ID` and `X-WigWag-RelayID`. -/
def postHandler {Doc : Type} (env : PostEnv Doc) (generator : MUUIDGenerator)
    (requestID accountID deviceID : String) (dataStream : Except String String) :
    PostOutcome Doc :=
  match dataStream with
  | .error msg =>
    { status := 400
      body := .error (encodePublicErrorObject 400 StatusBadRequestErrType
        ("Error reading request body: " ++ msg) "" "" requestID)
      addCalls := []
      generator := generator }
  | .ok data =>
    match env.UnmarshalJSON data with
    | .error msg =>
      { status := 400
        body := .error (encodePublicErrorObject 400 StatusBadRequestErrType
          ("Error decoding request body: " ++ msg) "" "" requestID)
        addCalls := []
        generator := generator }
    | .ok logs =>
      if deviceID.data.length = 0 then
        { status := 400
          body := .error (encodePublicErrorObject 400 StatusValidationErrType "Empty RelayID"
            "X-WigWag-RelayID" "Header X-WigWag-RelayID should not be empty" requestID)
          addCalls := []
          generator := generator }
      else
        match buildLogs env requestID accountID deviceID logs 0 generator with
        | (.error e, generator') =>
          { status := 400, body := .error e, addCalls := [], generator := generator' }
        | (.ok Logs, generator') =>
          if logs.length > 0 then
            let ctx := Context.WithTimeout (buildContextWithValue requestID accountID) CtxTimeout
            match env.AddDeviceTrace ctx Logs with
            | some err =>
              { status := 500
                body := .error (encodePublicErrorObject 500 StatusInternalServerErrType
                  err.Error "" "" requestID)
                addCalls := [(ctx, Logs)]
                generator := generator' }
            | none =>
              { status := 201, body := .empty, addCalls := [(ctx, Logs)],
                generator := generator' }
          else { status := 201, body := .empty, addCalls := [], generator := generator' }

/-! ### Worked examples -/

/-- A decimal digit string as a number, `none` when a character is not a
digit. -/
def decimalValue : List Char → Nat → Option Nat
  | [], acc => some acc
  | c :: rest, acc =>
    if '0' ≤ c ∧ c ≤ '9' then decimalValue rest (acc * 10 + (c.toNat - 48)) else none

/-- The number parser of the worked examples: non-empty strings of decimal
digits whose value fits 64 bits. -/
def exampleParseUint (s : String) : Except String Nat :=
  match s.data with
  | [] => .error "invalid syntax"
  | cs =>
    match decimalValue cs 0 with
    | some n => if n < 2 ^ 64 then .ok n else .error "value out of range"
    | none => .error "invalid syntax"

/-- The time parser of the worked examples: four instants. -/
def exampleParseRFC3339 (s : String) : Option Time :=
  if s = "2023-01-01T00:00:00Z" then some (Time.Unix 1672531200 0)
  else if s = "2262-04-12T00:00:00Z" then some (Time.Unix 9223372800 0)
  else if s = "1969-12-31T23:59:59Z" then some (Time.Unix (-1) 0)
  else if s = "2023-06-01T12:00:00.5Z" then some (Time.Unix 1685620800 500000000)
  else none

/-- The environment of the GET examples: a store that answers with one
record. -/
def exampleGetEnv : GetEnv Unit :=
  { parseRFC3339 := exampleParseRFC3339
    parseUint := exampleParseUint
    SearchDeviceTrace := fun _ q _ =>
      ({ Object := "list", Limit := q.Limit, After := none, Order := "DESC", HasMore := false,
         Data := [traceResponse exampleTrace], TotalCount := 1 }, none) }

/-- The environment of the POST examples: every body decodes to the same two
entries, the clock stands at 1672531200000 ms, the store accepts. -/
def examplePostEnv : PostEnv Unit :=
  { UnmarshalJSON := fun _ =>
      .ok [⟨"2023-01-01T00:00:00Z", (), "x"⟩, ⟨"2023-06-01T12:00:00.5Z", (), "y"⟩]
    parseRFC3339 := exampleParseRFC3339
    clock := fun _ => 1672531200000
    AddDeviceTrace := fun _ _ => none }

/-- The environment of the POST examples whose second entry has a timestamp
after the supported maximum. -/
def examplePostEnvBad : PostEnv Unit :=
  { examplePostEnv with
    UnmarshalJSON := fun _ =>
      .ok [⟨"2023-01-01T00:00:00Z", (), "x"⟩, ⟨"2262-04-12T00:00:00Z", (), "y"⟩] }

/-- An entry of a POST body whose timestamp is refused: it is not parseable as
RFC3339, or the parsed instant is before the epoch or after `MaxTimestamp`
milliseconds. -/
def Refused {Doc : Type} (env : PostEnv Doc) (log : PostTrace Doc) : Prop :=
  env.parseRFC3339 log.Timestamp = none ∨
    ∃ t, env.parseRFC3339 log.Timestamp = some t ∧
      (t.unixNano < 0 ∨ MaxTimestamp * 1000000 < t.unixNano)

/-- An entry of a POST body and the record stored for it: the entry's timestamp
parses, and the record's `Timestamp` is the parsed instant in whole
milliseconds since the epoch, which lies in `[0, MaxTimestamp]`. -/
def Accepted {Doc : Type} (env : PostEnv Doc) (log : PostTrace Doc) (record : Trace Doc) : Prop :=
  ∃ t, env.parseRFC3339 log.Timestamp = some t ∧ record.Timestamp = t.unixNano / 1000000 ∧
    0 ≤ record.Timestamp ∧ record.Timestamp ≤ MaxTimestamp

end Routes
namespace Storage

/-! ### The calendar that `Date` is compared with -/

/-- Whether a year of the Gregorian calendar is a leap year. -/
def isLeapYear (y : Nat) : Bool := decide (y % 4 = 0 ∧ (y % 100 ≠ 0 ∨ y % 400 = 0))

/-- The number of days of a year. -/
def daysInYear (y : Nat) : Int := if isLeapYear y then 366 else 365

/-- The number of days of month `m` (1 to 12) of year `y`. -/
def daysInMonth (y m : Nat) : Int :=
  if m = 2 then (if isLeapYear y then 29 else 28)
  else if m = 4 ∨ m = 6 ∨ m = 9 ∨ m = 11 then 30
  else 31

/-- The number of days from 1970-01-01 to the day `d` of month `m` of year
`y ≥ 1970`: the days of the years from 1970 to `y - 1`, the days of the months
before `m` in year `y`, and the days before `d` in that month. -/
def daysFromCivil (y m d : Nat) : Int :=
  ((List.range (y - 1970)).map (fun k => daysInYear (1970 + k))).sum +
    ((List.range (m - 1)).map (fun k => daysInMonth y (k + 1))).sum + ((d : Int) - 1)

/-- A number zero-padded to four digits. -/
def pad4 (n : Nat) : List Char :=
  [digitChar (n / 1000), digitChar (n / 100), digitChar (n / 10), digitChar n]

/-- The ISO-8601 UTC display string `YYYY-MM-DDTHH:MM:SS.mmmZ` of a date and a
time of day with milliseconds. -/
def isoMillisUTC (y mo d h mi s f : Nat) : String :=
  String.mk (pad4 y ++ ['-'] ++ pad2 mo ++ ['-'] ++ pad2 d ++ ['T'] ++ pad2 h ++ [':'] ++
    pad2 mi ++ [':'] ++ pad2 s ++ ['.'] ++ pad3 f ++ ['Z'])

end Storage

namespace Httputil

/-! ## httputil/response.go -/

/-- Go `const minSuccessStatusCode` (httputil/response.go:5). -/
def minSuccessStatusCode : Int := 200

/-- Go `const maxSuccessStatusCode` (httputil/response.go:6). -/
def maxSuccessStatusCode : Int := 299

/-- Go `http.Response`, as far as `IsSuccessResponse` reads it: the status
code, an `int`. -/
structure Response where
  StatusCode : Int
deriving DecidableEq

/-- Go `IsSuccessResponse` (httputil/response.go:11-13), applied to a response
that is not nil:
`200 >= minSuccessStatusCode && resp.StatusCode <= maxSuccessStatusCode`. -/
def IsSuccessResponse (resp : Response) : Bool :=
  decide (200 ≥ minSuccessStatusCode) && decide (resp.StatusCode ≤ maxSuccessStatusCode)

end Httputil

namespace Routes

open Muuid Storage

/-- Whether a character is a lowercase hexadecimal digit, `[0-9a-f]`. -/
def isLowerHexChar (c : Char) : Bool :=
  ('0' ≤ c ∧ c ≤ '9') ∨ ('a' ≤ c ∧ c ≤ 'f')

end Routes

namespace Muuid

/-! ## Byte strings and their order -/

theorem lex_cons_cons (a b : Nat) (l₁ l₂ : List Nat) :
    (a :: l₁ < b :: l₂) ↔ a < b ∨ (a = b ∧ l₁ < l₂) := by
  constructor
  · intro h
    cases h with
    | cons h => exact Or.inr ⟨rfl, h⟩
    | rel h => exact Or.inl h
  · rintro (h | ⟨rfl, h⟩)
    · exact List.Lex.rel h
    · exact List.Lex.cons h

theorem append_lt_append_iff {a b : List Nat} (x y : List Nat) (h : a.length = b.length) :
    a ++ x < b ++ y ↔ a < b ∨ (a = b ∧ x < y) := by
  induction a generalizing b with
  | nil =>
    cases b with
    | nil => simp
    | cons c cs => simp at h
  | cons c cs ih =>
    cases b with
    | nil => simp at h
    | cons d ds =>
      simp only [List.length_cons, Nat.succ.injEq, add_left_inj] at h
      simp only [List.cons_append, lex_cons_cons, ih h, List.cons.injEq]
      tauto

theorem beVal_lt_pow (l : List Nat) (h : ∀ x ∈ l, x < 256) : beVal l < 256 ^ l.length := by
  induction l with
  | nil => simp [beVal]
  | cons a l ih =>
    have ha : a < 256 := h a (by simp)
    have hl := ih (fun x hx => h x (by simp [hx]))
    simp only [beVal, List.length_cons, pow_succ]
    have : a * 256 ^ l.length ≤ 255 * 256 ^ l.length := Nat.mul_le_mul_right _ (by omega)
    omega

theorem lt_iff_beVal_lt {a b : List Nat} (h : a.length = b.length)
    (ha : ∀ x ∈ a, x < 256) (hb : ∀ x ∈ b, x < 256) : a < b ↔ beVal a < beVal b := by
  induction a generalizing b with
  | nil =>
    cases b with
    | nil => simp [beVal]
    | cons c cs => simp at h
  | cons c cs ih =>
    cases b with
    | nil => simp at h
    | cons d ds =>
      simp only [List.length_cons, Nat.succ.injEq, add_left_inj] at h
      have h1 := beVal_lt_pow cs (fun x hx => ha x (by simp [hx]))
      have h2 := beVal_lt_pow ds (fun x hx => hb x (by simp [hx]))
      have ih' := ih h (fun x hx => ha x (by simp [hx])) (fun x hx => hb x (by simp [hx]))
      rw [lex_cons_cons, ih']
      simp only [beVal]
      rw [h] at h1 ⊢
      generalize 256 ^ ds.length = N at h1 h2 ⊢
      constructor
      · rintro (hlt | ⟨rfl, hlt⟩)
        · have : (c + 1) * N ≤ d * N := Nat.mul_le_mul_right _ hlt
          rw [Nat.add_mul] at this
          omega
        · omega
      · intro hlt
        rcases Nat.lt_trichotomy c d with hcd | hcd | hcd
        · exact Or.inl hcd
        · subst hcd; right; exact ⟨rfl, by omega⟩
        · exfalso
          have : (d + 1) * N ≤ c * N := Nat.mul_le_mul_right _ hcd
          rw [Nat.add_mul] at this
          omega

/-! ## Bit operations of the generator as arithmetic -/

theorem and_255 (x : Nat) : x &&& 0xFF = x % 256 := Nat.and_pow_two_sub_one_eq_mod x 8

theorem and_15 (x : Nat) : x &&& 0x0F = x % 16 := Nat.and_pow_two_sub_one_eq_mod x 4

set_option maxRecDepth 100000 in
theorem and_240 : ∀ x < 256, x &&& 0xF0 = x / 16 * 16 := by decide

theorem or_nibbles (a b : Nat) (hb : b < 16) : (a * 16) ||| b = a * 16 + b := by
  have h := Nat.mul_add_lt_is_or (i := 4) (b := b) (by simpa using hb) a
  simp only [Nat.reducePow] at h
  rw [Nat.mul_comm] at h
  exact h.symm

/-- Bytes 12-15 in arithmetic form: twelve bits of `InstanceId`, then twenty
bits of `SequenceNumber`. -/
theorem tagBytes_eq (i s : Nat) :
    tagBytes i s = [i / 16 % 256, (i % 16) * 16 + s / 65536 % 16, s / 256 % 256, s % 256] := by
  have h1 : uint8 (uint16 (i <<< 4)) &&& 0xF0 = (i % 16) * 16 := by
    have hlt : uint8 (uint16 (i <<< 4)) < 256 := Nat.mod_lt _ (by norm_num)
    rw [and_240 _ hlt]
    simp only [uint8, uint16, Nat.shiftLeft_eq]
    omega
  have h2 : uint8 (s >>> 16) &&& 0x0F = s / 65536 % 16 := by
    rw [and_15]
    simp only [uint8, Nat.shiftRight_eq_div_pow]
    omega
  have h3 : s / 65536 % 16 < 16 := Nat.mod_lt _ (by norm_num)
  simp only [tagBytes]
  rw [h1, h2, or_nibbles _ _ h3, and_255, and_255, and_255]
  simp only [uint8, Nat.shiftRight_eq_div_pow]
  norm_num

theorem uint8OfInt_and (x : Int) : uint8OfInt x &&& 0xFF = (x % 256).toNat := by
  rw [and_255]
  simp only [uint8OfInt]
  omega

/-- The timestamp written for a new millisecond, in arithmetic form. -/
theorem encodeMs_toList (t : Int) :
    (encodeMs t).toList =
      [(t / 2 ^ 40 % 256).toNat, (t / 2 ^ 32 % 256).toNat, (t / 2 ^ 24 % 256).toNat,
       (t / 2 ^ 16 % 256).toNat, (t / 2 ^ 8 % 256).toNat, (t % 256).toNat] := by
  simp only [encodeMs, Bytes6.toList, uint8OfInt_and, Int.shiftRight_eq_div_pow]
  norm_num

theorem encodeMs_length (t : Int) : (encodeMs t).toList.length = 6 := rfl

theorem encodeMs_bytes (t : Int) : ∀ x ∈ (encodeMs t).toList, x < 256 := by
  rw [encodeMs_toList]
  intro x hx
  simp only [List.mem_cons, List.mem_singleton, List.not_mem_nil, or_false] at hx
  rcases hx with h | h | h | h | h | h <;> subst h <;> omega

theorem beVal_encodeMs (t : Int) : (beVal (encodeMs t).toList : Int) = t % 2 ^ 48 := by
  rw [encodeMs_toList]
  simp only [beVal, List.length_cons, List.length_nil]
  norm_num
  have e : ∀ x : Int, x % 256 ⊔ 0 = x % 256 :=
    fun x => max_eq_left (Int.emod_nonneg x (by norm_num))
  simp only [e]
  omega

theorem tagBytes_bytes (i s : Nat) : ∀ x ∈ tagBytes i s, x < 256 := by
  rw [tagBytes_eq]
  intro x hx
  simp only [List.mem_cons, List.mem_singleton, List.not_mem_nil, or_false] at hx
  rcases hx with h | h | h | h <;> subst h <;> omega

theorem beVal_tagBytes (i s : Nat) :
    beVal (tagBytes i s) = (i % 4096) * 1048576 + s % 1048576 := by
  rw [tagBytes_eq]
  simp only [beVal, List.length_cons, List.length_nil]
  omega

/-! ## One call -/

theorem UUID_fst (g : MUUIDGenerator) (t : Int) : (UUID g t).1 = idOf (UUID g t).2 := by
  unfold UUID timestampMilliseconds idOf
  split <;> rfl

theorem UUID_lastTimestampMs (g : MUUIDGenerator) (t : Int) :
    (UUID g t).2.lastTimestampMs = t := by
  unfold UUID timestampMilliseconds
  split
  · next h => exact h.symm
  · rfl

theorem UUID_MAC (g : MUUIDGenerator) (t : Int) : (UUID g t).2.MAC = g.MAC := by
  unfold UUID timestampMilliseconds
  split <;> rfl

theorem UUID_InstanceId (g : MUUIDGenerator) (t : Int) :
    (UUID g t).2.InstanceId = g.InstanceId := by
  unfold UUID timestampMilliseconds
  split <;> rfl

theorem UUID_seq_same (g : MUUIDGenerator) (t : Int) (h : t = g.lastTimestampMs) :
    (UUID g t).2.SequenceNumber = (g.SequenceNumber + 1) % 4294967296 := by
  unfold UUID timestampMilliseconds
  rw [if_pos h]
  rfl

theorem UUID_seq_new (g : MUUIDGenerator) (t : Int) (h : t ≠ g.lastTimestampMs) :
    (UUID g t).2.SequenceNumber = 0 := by
  unfold UUID timestampMilliseconds
  rw [if_neg h]

theorem UUID_ts_same (g : MUUIDGenerator) (t : Int) (h : t = g.lastTimestampMs) :
    (UUID g t).2.lastTimestamp = g.lastTimestamp := by
  unfold UUID timestampMilliseconds
  rw [if_pos h]

theorem UUID_ts_new (g : MUUIDGenerator) (t : Int) (h : t ≠ g.lastTimestampMs) :
    (UUID g t).2.lastTimestamp = encodeMs t := by
  unfold UUID timestampMilliseconds
  rw [if_neg h]

theorem UUID_seq_lt (g : MUUIDGenerator) (t : Int) :
    (UUID g t).2.SequenceNumber < 4294967296 := by
  by_cases h : t = g.lastTimestampMs
  · rw [UUID_seq_same g t h]
    exact Nat.mod_lt _ (by norm_num)
  · rw [UUID_seq_new g t h]
    norm_num

/-- Every generator `Build` returns is consistent. -/
theorem Consistent_newGenerator (mac : MACAddress) (i : Nat) : Consistent (newGenerator mac i) := by
  show Bytes6.zero = encodeMs 0
  simp [encodeMs, Bytes6.zero, uint8OfInt, Int.shiftRight_eq_div_pow]

/-- A `UUID()` call keeps the generator consistent. -/
theorem Consistent_UUID (g : MUUIDGenerator) (t : Int) (h : Consistent g) :
    Consistent (UUID g t).2 := by
  unfold Consistent at *
  rw [UUID_lastTimestampMs]
  by_cases ht : t = g.lastTimestampMs
  · rw [UUID_ts_same g t ht, h, ht]
  · rw [UUID_ts_new g t ht]

theorem UUID_ts_of_consistent (g : MUUIDGenerator) (t : Int) (h : Consistent g) :
    (UUID g t).2.lastTimestamp = encodeMs t := by
  have h1 := Consistent_UUID g t h
  unfold Consistent at h1
  rw [h1, UUID_lastTimestampMs]

theorem UUID_length (g : MUUIDGenerator) (t : Int) : (UUID g t).1.length = 16 := by
  rw [UUID_fst]
  simp [idOf, Bytes6.toList, tagBytes]

/-! ## Order of identifiers -/

theorem encodeMs_lt {t₁ t₂ : Int} (h0 : 0 ≤ t₁) (h : t₁ < t₂) (h2 : t₂ < 2 ^ 48) :
    (encodeMs t₁).toList < (encodeMs t₂).toList := by
  rw [lt_iff_beVal_lt (by rfl) (encodeMs_bytes t₁) (encodeMs_bytes t₂)]
  have e1 := beVal_encodeMs t₁
  have e2 := beVal_encodeMs t₂
  norm_num at e1 e2 h2
  omega

theorem tagBytes_lt_iff (i s₁ s₂ : Nat) :
    tagBytes i s₁ < tagBytes i s₂ ↔ s₁ % 1048576 < s₂ % 1048576 := by
  rw [lt_iff_beVal_lt (by simp [tagBytes]) (tagBytes_bytes i s₁) (tagBytes_bytes i s₂),
    beVal_tagBytes, beVal_tagBytes]
  omega

theorem tagBytes_eq_iff (i s₁ s₂ : Nat) :
    tagBytes i s₁ = tagBytes i s₂ ↔ s₁ % 1048576 = s₂ % 1048576 := by
  constructor
  · intro h
    have h' := congrArg beVal h
    rw [beVal_tagBytes, beVal_tagBytes] at h'
    omega
  · intro h
    rw [tagBytes_eq, tagBytes_eq]
    have a : s₁ / 65536 % 16 = s₂ / 65536 % 16 := by omega
    have b : s₁ / 256 % 256 = s₂ / 256 % 256 := by omega
    have c : s₁ % 256 = s₂ % 256 := by omega
    rw [a, b, c]

theorem id_lt_iff {T₁ T₂ : List Nat} (M G₁ G₂ : List Nat) (h : T₁.length = T₂.length) :
    T₁ ++ M ++ G₁ < T₂ ++ M ++ G₂ ↔ T₁ < T₂ ∨ (T₁ = T₂ ∧ G₁ < G₂) := by
  rw [append_lt_append_iff G₁ G₂ (by simp [h]), append_lt_append_iff M M h]
  simp only [lt_self_iff_false, and_false, or_false, List.append_cancel_right_eq]

/-- One call never hands out a smaller identifier than the one before it, as
long as the clock did not go back and the 20-bit sequence field does not wrap. -/
theorem idOf_le_UUID (g : MUUIDGenerator) (t : Int) (hc : Consistent g)
    (h0 : 0 ≤ g.lastTimestampMs) (hle : g.lastTimestampMs ≤ t) (h2 : t < 2 ^ 48)
    (hs : t = g.lastTimestampMs → g.SequenceNumber + 1 < 1048576) :
    idOf g ≤ idOf (UUID g t).2 := by
  apply le_of_lt
  unfold idOf
  rw [UUID_MAC, UUID_InstanceId]
  by_cases ht : t = g.lastTimestampMs
  · have hs' := hs ht
    rw [UUID_ts_same g t ht, UUID_seq_same g t ht, id_lt_iff _ _ _ rfl]
    right
    refine ⟨rfl, ?_⟩
    rw [tagBytes_lt_iff]
    omega
  · rw [UUID_ts_of_consistent g t hc, id_lt_iff _ _ _ (by simp [Bytes6.toList])]
    left
    rw [hc]
    exact encodeMs_lt h0 (lt_of_le_of_ne hle (Ne.symm ht)) h2

/-- Every identifier of a run is at least the identifier handed out just
before the run. -/
theorem idOf_le_of_mem (rs : List Int) : ∀ (g : MUUIDGenerator), Consistent g →
    0 ≤ g.lastTimestampMs → List.Sorted (· ≤ ·) rs →
    (∀ t ∈ rs, g.lastTimestampMs ≤ t ∧ t < 2 ^ 48) →
    (∀ t ∈ rs, rs.count t ≤ 1048576) →
    g.SequenceNumber + rs.count g.lastTimestampMs < 1048576 →
    ∀ id ∈ UUIDs g rs, idOf g ≤ id := by
  induction rs with
  | nil => intro g _ _ _ _ _ _ id hid; simp [UUIDs] at hid
  | cons t rest ih =>
    intro g hc h0 hsorted hrange hcount hseq id hid
    have ht := hrange t (by simp)
    have hsorted' := List.sorted_cons.mp hsorted
    have hstep : idOf g ≤ idOf (UUID g t).2 := by
      apply idOf_le_UUID g t hc h0 ht.1 ht.2
      intro e
      rw [← e, List.count_cons_self] at hseq
      omega
    simp only [UUIDs, List.mem_cons] at hid
    rcases hid with hid | hid
    · rw [hid, UUID_fst]; exact hstep
    · refine le_trans hstep (ih (UUID g t).2 (Consistent_UUID g t hc) ?_ hsorted'.2 ?_ ?_ ?_ id hid)
      · rw [UUID_lastTimestampMs]; exact le_trans h0 ht.1
      · intro u hu
        rw [UUID_lastTimestampMs]
        exact ⟨hsorted'.1 u hu, (hrange u (by simp [hu])).2⟩
      · intro u hu
        exact le_trans (List.count_le_count_cons _ _ _) (hcount u (by simp [hu]))
      · rw [UUID_lastTimestampMs]
        by_cases e : t = g.lastTimestampMs
        · rw [UUID_seq_same g t e]
          rw [← e, List.count_cons_self] at hseq
          omega
        · rw [UUID_seq_new g t e]
          have := hcount t (by simp)
          rw [List.count_cons_self] at this
          omega

/-- The run of a consistent generator over non-decreasing clock readings in
`[0, 2^48)` with at most `2^20` identifiers per millisecond is non-decreasing. -/
theorem UUIDs_sorted (rs : List Int) : ∀ (g : MUUIDGenerator), Consistent g →
    List.Sorted (· ≤ ·) rs → (∀ t ∈ rs, 0 ≤ t ∧ t < 2 ^ 48) →
    (∀ t ∈ rs, rs.count t ≤ 1048576) →
    (g.lastTimestampMs ∈ rs → g.SequenceNumber + rs.count g.lastTimestampMs < 1048576) →
    List.Pairwise (· ≤ ·) (UUIDs g rs) := by
  induction rs with
  | nil => intro g _ _ _ _ _; simp [UUIDs]
  | cons t rest ih =>
    intro g hc hsorted hrange hcount hseq
    have ht := hrange t (by simp)
    have hsorted' := List.sorted_cons.mp hsorted
    have hcount' : ∀ u ∈ rest, rest.count u ≤ 1048576 :=
      fun u hu => le_trans (List.count_le_count_cons _ _ _) (hcount u (by simp [hu]))
    have hseq' : (UUID g t).2.SequenceNumber + rest.count t < 1048576 := by
      by_cases e : t = g.lastTimestampMs
      · rw [UUID_seq_same g t e]
        have := hseq (by simp [e])
        rw [← e, List.count_cons_self] at this
        omega
      · rw [UUID_seq_new g t e]
        have := hcount t (by simp)
        rw [List.count_cons_self] at this
        omega
    simp only [UUIDs, List.pairwise_cons]
    constructor
    · intro id hid
      rw [UUID_fst]
      refine idOf_le_of_mem rest (UUID g t).2 (Consistent_UUID g t hc) ?_ hsorted'.2 ?_ hcount' ?_
        id hid
      · rw [UUID_lastTimestampMs]; exact ht.1
      · intro u hu
        rw [UUID_lastTimestampMs]
        exact ⟨hsorted'.1 u hu, (hrange u (by simp [hu])).2⟩
      · rw [UUID_lastTimestampMs]; exact hseq'
    · refine ih (UUID g t).2 (Consistent_UUID g t hc) hsorted'.2
        (fun u hu => hrange u (by simp [hu])) hcount' ?_
      intro _
      rw [UUID_lastTimestampMs]
      exact hseq'

/-! ## Calls within one millisecond -/

/-- The identifier with sequence counter `s` of a generator whose other fields
are those of `g`. -/
theorem idOf_with_seq (g : MUUIDGenerator) (s : Nat) :
    idOf { g with SequenceNumber := s } =
      g.lastTimestamp.toList ++ g.MAC.toList ++ tagBytes g.InstanceId s := rfl

theorem UUID_same_eq (g : MUUIDGenerator) (t : Int) (h : g.lastTimestampMs = t) :
    (UUID g t).2 = { g with SequenceNumber := (g.SequenceNumber + 1) % 4294967296 } := by
  unfold UUID timestampMilliseconds
  rw [if_pos h.symm]
  rfl

/-- Calls that all read the millisecond the generator already holds: the k-th
identifier (from 0) carries counter `SequenceNumber + k + 1`, truncated to
32 bits. -/
theorem UUIDs_replicate_same (t : Int) (n : Nat) : ∀ (g : MUUIDGenerator),
    g.lastTimestampMs = t →
    UUIDs g (List.replicate n t) = (List.range n).map (fun k =>
      g.lastTimestamp.toList ++ g.MAC.toList ++
        tagBytes g.InstanceId ((g.SequenceNumber + (k + 1)) % 4294967296)) := by
  induction n with
  | zero => intro g _; simp [UUIDs]
  | succ n ih =>
    intro g h
    have e := UUID_same_eq g t h
    have ih' := ih { g with SequenceNumber := (g.SequenceNumber + 1) % 4294967296 } h
    rw [List.replicate_succ, UUIDs, UUID_fst, e, ih', List.range_succ_eq_map, List.map_cons,
      List.map_map, idOf_with_seq]
    congr 1
    apply List.map_congr_left
    intro k _
    simp only [Function.comp, Nat.succ_eq_add_one]
    congr 2
    omega

/-- Calls that all read one millisecond `t`, from any state: the k-th
identifier (from 0) is the first one with `k` added to its counter. -/
theorem UUIDs_replicate (g : MUUIDGenerator) (t : Int) (n : Nat) :
    UUIDs g (List.replicate n t) = (List.range n).map (fun k =>
      (UUID g t).2.lastTimestamp.toList ++ g.MAC.toList ++
        tagBytes g.InstanceId (((UUID g t).2.SequenceNumber + k) % 4294967296)) := by
  cases n with
  | zero => simp [UUIDs]
  | succ n =>
    rw [List.replicate_succ, UUIDs, UUIDs_replicate_same t n _ (UUID_lastTimestampMs g t),
      List.range_succ_eq_map, List.map_cons, List.map_map, UUID_fst, UUID_MAC, UUID_InstanceId]
    have hlt := UUID_seq_lt g t
    congr 1
    · unfold idOf
      rw [UUID_MAC, UUID_InstanceId, Nat.add_zero, Nat.mod_eq_of_lt hlt]

/-- The millisecond reading of an int64 nanosecond clock always fits 48 bits;
it is negative only before the epoch. -/
theorem nowMsOfUnixNano_range (n : Int) (h0 : 0 ≤ n) (h1 : n < 2 ^ 63) :
    0 ≤ nowMsOfUnixNano n ∧ nowMsOfUnixNano n < 2 ^ 48 := by
  unfold nowMsOfUnixNano
  rw [one_mul, Int.tdiv_eq_ediv h0 (by norm_num)]
  norm_num at h1 ⊢
  omega

end Muuid

namespace Muuid

/-! ## The generator's properties (claims C1 to C4) -/

/-- C1, as amended: on a consistent generator (every generator obtained from
`Build` by `UUID()` calls), over a run of calls whose clock readings never
decrease and lie in `[0, 2^48)`, and in which no millisecond receives more
than `2^20` identifiers (counting those the generator already handed out in
its current millisecond), every earlier identifier is less than or equal to
every later one in byte-lexicographic order. -/
theorem C1_monotone_on_steady_clock (g : MUUIDGenerator) (rs : List Int)
    (hc : Consistent g) (hsorted : List.Sorted (· ≤ ·) rs)
    (hrange : ∀ t ∈ rs, 0 ≤ t ∧ t < 2 ^ 48)
    (hcount : ∀ t ∈ rs, rs.count t ≤ 2 ^ 20)
    (hseq : g.lastTimestampMs ∈ rs → g.SequenceNumber + rs.count g.lastTimestampMs < 2 ^ 20) :
    List.Pairwise (· ≤ ·) (UUIDs g rs) :=
  UUIDs_sorted rs g hc hsorted hrange hcount hseq

/-- A run of three calls, two of them in one millisecond, meets the hypotheses
of C1 as amended. -/
theorem C1_monotone_on_steady_clock_witness :
    List.Pairwise (· ≤ ·) (UUIDs (newGenerator exampleMAC 1) [5, 5, 7]) :=
  C1_monotone_on_steady_clock (newGenerator exampleMAC 1) [5, 5, 7]
    (by decide) (by decide) (by decide) (by decide) (by decide)

/-- C1 as stated fails: the clock reads 5, 5, 4, 5 ms on four calls of a
generator fresh from `Build`.  The second and the fourth call both read 5, yet
the second identifier (sequence 1) is greater than the fourth (sequence 0,
because the reading 4 in between reset the counter). -/
theorem C1_counterexample_clock_steps_back :
    UUIDs (newGenerator exampleMAC 1) [5, 5, 4, 5] =
      [[0, 0, 0, 0, 0, 5, 170, 187, 204, 221, 238, 255, 0, 16, 0, 0],
       [0, 0, 0, 0, 0, 5, 170, 187, 204, 221, 238, 255, 0, 16, 0, 1],
       [0, 0, 0, 0, 0, 4, 170, 187, 204, 221, 238, 255, 0, 16, 0, 0],
       [0, 0, 0, 0, 0, 5, 170, 187, 204, 221, 238, 255, 0, 16, 0, 0]] ∧
    (5 : Int) ≤ 5 ∧
    ¬ (([0, 0, 0, 0, 0, 5, 170, 187, 204, 221, 238, 255, 0, 16, 0, 1] : MUUID) ≤
        [0, 0, 0, 0, 0, 5, 170, 187, 204, 221, 238, 255, 0, 16, 0, 0]) := by
  decide

/-- Monotonicity also needs a clock reading that fits 48 bits unsigned: a call
at -1 ms (255 in every timestamp byte) followed by a call at 0 ms. -/
theorem monotone_fails_below_epoch :
    UUIDs (newGenerator exampleMAC 1) [-1, 0] =
      [[255, 255, 255, 255, 255, 255, 170, 187, 204, 221, 238, 255, 0, 16, 0, 0],
       [0, 0, 0, 0, 0, 0, 170, 187, 204, 221, 238, 255, 0, 16, 0, 0]] ∧
    ¬ (([255, 255, 255, 255, 255, 255, 170, 187, 204, 221, 238, 255, 0, 16, 0, 0] : MUUID) ≤
        [0, 0, 0, 0, 0, 0, 170, 187, 204, 221, 238, 255, 0, 16, 0, 0]) := by
  decide

/-- C2, as amended: calls that all read one millisecond `t`, with nothing in
between, as long as the sequence counter stays below `2^20` (`s + n ≤ 2^20`
for `n` calls, `s` being the counter of the first of them): any two of the
identifiers agree on bytes 0-12 and on the high half of byte 13 (timestamp,
MAC and the 12-bit instance tag), so they differ in the 20-bit sequence field
only, and the later one is strictly greater. -/
theorem C2_same_millisecond_increasing (g : MUUIDGenerator) (t : Int) (n : Nat)
    (hseq : (UUID g t).2.SequenceNumber + n ≤ 2 ^ 20) :
    List.Pairwise
      (fun a b => a < b ∧ a.take 13 = b.take 13 ∧ a.getD 13 0 / 16 = b.getD 13 0 / 16)
      (UUIDs g (List.replicate n t)) := by
  rw [UUIDs_replicate, List.pairwise_map]
  refine List.Pairwise.imp_of_mem ?_ (List.pairwise_lt_range n)
  intro j k hj hk hjk
  have hj' := List.mem_range.mp hj
  have hk' := List.mem_range.mp hk
  norm_num at hseq
  refine ⟨?_, ?_, ?_⟩
  · rw [id_lt_iff _ _ _ rfl]
    right
    refine ⟨rfl, ?_⟩
    rw [tagBytes_lt_iff]
    omega
  · simp [Bytes6.toList, tagBytes_eq]
  · simp only [Bytes6.toList, tagBytes_eq, List.cons_append, List.nil_append, List.getD_cons_succ,
      List.getD_cons_zero]
    omega

/-- Three calls in millisecond 7 on a generator fresh from `Build` meet the
hypothesis of C2 as amended. -/
theorem C2_same_millisecond_increasing_witness :
    List.Pairwise
      (fun a b => a < b ∧ a.take 13 = b.take 13 ∧ a.getD 13 0 / 16 = b.getD 13 0 / 16)
      (UUIDs (newGenerator exampleMAC 1) (List.replicate 3 7)) :=
  C2_same_millisecond_increasing (newGenerator exampleMAC 1) 7 3 (by decide)

/-- The k-th identifier (from 0) of `n` calls in one millisecond. -/
theorem UUIDs_replicate_getElem? (g : MUUIDGenerator) (t : Int) (n k : Nat) (h : k < n) :
    (UUIDs g (List.replicate n t))[k]? = some
      ((UUID g t).2.lastTimestamp.toList ++ g.MAC.toList ++
        tagBytes g.InstanceId (((UUID g t).2.SequenceNumber + k) % 4294967296)) := by
  rw [UUIDs_replicate, List.getElem?_map, List.getElem?_range h]
  rfl

/-- C2 as stated fails: `2^20 + 1` calls in millisecond 7 on a generator fresh
from `Build`.  Call number `2^20` (counter `2^20 - 1`, sequence field all ones)
and the next call (counter `2^20`, sequence field wrapped to zero) read the
same millisecond, and the later identifier is strictly smaller. -/
theorem C2_counterexample_sequence_wraps :
    (UUIDs (newGenerator exampleMAC 1) (List.replicate 1048577 7))[1048575]? =
      some [0, 0, 0, 0, 0, 7, 170, 187, 204, 221, 238, 255, 0, 31, 255, 255] ∧
    (UUIDs (newGenerator exampleMAC 1) (List.replicate 1048577 7))[1048576]? =
      some [0, 0, 0, 0, 0, 7, 170, 187, 204, 221, 238, 255, 0, 16, 0, 0] ∧
    ([0, 0, 0, 0, 0, 7, 170, 187, 204, 221, 238, 255, 0, 16, 0, 0] : MUUID) <
      [0, 0, 0, 0, 0, 7, 170, 187, 204, 221, 238, 255, 0, 31, 255, 255] := by
  refine ⟨?_, ?_, by decide⟩
  · rw [UUIDs_replicate_getElem? _ _ _ _ (by norm_num)]
    decide
  · rw [UUIDs_replicate_getElem? _ _ _ _ (by norm_num)]
    decide

/-- C4, as amended (`2^20` in place of `2^28`): of `2^20 + 1` calls that read
one millisecond, on any generator, the first `2^20` identifiers are pairwise
distinct and the next one equals the first. -/
theorem C4_capacity_per_millisecond (g : MUUIDGenerator) (t : Int) :
    (List.take (2 ^ 20) (UUIDs g (List.replicate (2 ^ 20 + 1) t))).Nodup ∧
    (UUIDs g (List.replicate (2 ^ 20 + 1) t)).length = 2 ^ 20 + 1 ∧
    ∃ id, (UUIDs g (List.replicate (2 ^ 20 + 1) t))[0]? = some id ∧
      (UUIDs g (List.replicate (2 ^ 20 + 1) t))[2 ^ 20]? = some id := by
  refine ⟨?_, ?_, ?_⟩
  · rw [UUIDs_replicate, ← List.map_take, List.take_range]
    refine List.Nodup.map_on ?_ (List.nodup_range _)
    intro j hj k hk hjk
    have hj' := List.mem_range.mp hj
    have hk' := List.mem_range.mp hk
    have e := List.append_cancel_left hjk
    rw [tagBytes_eq_iff] at e
    norm_num at hj' hk'
    omega
  · rw [UUIDs_replicate]
    simp
  · refine ⟨_, UUIDs_replicate_getElem? g t _ 0 (by norm_num), ?_⟩
    rw [UUIDs_replicate_getElem? g t _ _ (by norm_num)]
    have e : tagBytes g.InstanceId (((UUID g t).2.SequenceNumber + 2 ^ 20) % 4294967296) =
        tagBytes g.InstanceId (((UUID g t).2.SequenceNumber + 0) % 4294967296) :=
      (tagBytes_eq_iff _ _ _).mpr (by omega)
    rw [e]

/-- C4 as stated fails: on a generator fresh from `Build`, the first `2^28`
identifiers of millisecond 7 are not pairwise distinct (the identifiers of
calls `0` and `2^20` coincide). -/
theorem C4_counterexample_wrap_at_2_pow_20 :
    ¬ (List.take (2 ^ 28) (UUIDs (newGenerator exampleMAC 1)
        (List.replicate (2 ^ 28 + 1) 7))).Nodup := by
  intro h
  rw [UUIDs_replicate, ← List.map_take, List.take_range] at h
  have h' := List.nodup_iff_getElem?_ne_getElem?.mp h 0 1048576 (by norm_num)
    (by simp)
  apply h'
  rw [List.getElem?_map, List.getElem?_map, List.getElem?_range (by norm_num),
    List.getElem?_range (by norm_num)]
  have e : ∀ s : Nat, tagBytes (newGenerator exampleMAC 1).InstanceId ((s + 0) % 4294967296) =
      tagBytes (newGenerator exampleMAC 1).InstanceId ((s + 1048576) % 4294967296) :=
    fun s => (tagBytes_eq_iff _ _ _).mpr (by omega)
  rw [Option.map_some', Option.map_some', e]

theorem bigEndian_six (v : Nat) :
    bigEndian 6 v = [v / 256 ^ 5 % 256, v / 256 ^ 4 % 256, v / 256 ^ 3 % 256,
      v / 256 ^ 2 % 256, v / 256 ^ 1 % 256, v / 256 ^ 0 % 256] := rfl

theorem bigEndian_four (v : Nat) :
    bigEndian 4 v = [v / 256 ^ 3 % 256, v / 256 ^ 2 % 256, v / 256 ^ 1 % 256,
      v / 256 ^ 0 % 256] := rfl

theorem encodeMs_bigEndian (t : Int) :
    (encodeMs t).toList = bigEndian 6 (t % 2 ^ 48).toNat := by
  rw [encodeMs_toList, bigEndian_six]
  norm_num
  refine ⟨?_, ?_, ?_, ?_, ?_, ?_⟩ <;> omega

theorem tagBytes_bigEndian (i s : Nat) :
    tagBytes i s = bigEndian 4 ((i % 2 ^ 12) * 2 ^ 20 + s % 2 ^ 20) := by
  rw [tagBytes_eq, bigEndian_four]
  norm_num
  refine ⟨?_, ?_, ?_, ?_⟩ <;> omega

/-- C3, as amended: on a consistent generator (every generator obtained from
`Build` by `UUID()` calls) and for every clock reading `nowMs`, `UUID()`
returns 16 bytes: bytes 0-5 are `nowMs` modulo `2^48` as a big-endian integer
(which is `nowMs` when `0 ≤ nowMs < 2^48`), bytes 6-11 are the generator's MAC,
and bytes 12-15 are the big-endian 32-bit word made of a 12-bit instance tag
(the low 12 bits of `InstanceId`) followed by a 20-bit sequence number (the low
20 bits of `SequenceNumber` after the call). -/
theorem C3_layout (g : MUUIDGenerator) (nowMs : Int) (hc : Consistent g) :
    (UUID g nowMs).1.length = 16 ∧
    (UUID g nowMs).1 =
      bigEndian 6 (nowMs % 2 ^ 48).toNat ++ g.MAC.toList ++
        bigEndian 4 ((g.InstanceId % 2 ^ 12) * 2 ^ 20 +
          (UUID g nowMs).2.SequenceNumber % 2 ^ 20) := by
  refine ⟨UUID_length g nowMs, ?_⟩
  rw [UUID_fst]
  unfold idOf
  rw [UUID_ts_of_consistent g nowMs hc, UUID_MAC, UUID_InstanceId, encodeMs_bigEndian,
    tagBytes_bigEndian]

/-- The generator of main.go (instance 1), fresh from `Build`, at the clock
reading 1672531200000 ms (2023-01-01T00:00:00Z). -/
theorem C3_layout_witness :
    (UUID (newGenerator exampleMAC 1) 1672531200000).1 =
      [1, 133, 106, 160, 200, 0, 170, 187, 204, 221, 238, 255, 0, 16, 0, 0] ∧
    ((UUID (newGenerator exampleMAC 1) 1672531200000).1.length = 16 ∧
    (UUID (newGenerator exampleMAC 1) 1672531200000).1 =
      bigEndian 6 ((1672531200000 : Int) % 2 ^ 48).toNat ++ (newGenerator exampleMAC 1).MAC.toList ++
        bigEndian 4 (((newGenerator exampleMAC 1).InstanceId % 2 ^ 12) * 2 ^ 20 +
          (UUID (newGenerator exampleMAC 1) 1672531200000).2.SequenceNumber % 2 ^ 20)) :=
  ⟨by decide, C3_layout (newGenerator exampleMAC 1) 1672531200000 (by decide)⟩

/-- C3 as stated fails: the generator of main.go (instance 1), fresh from
`Build`, called at 5 ms.  Bytes 12-15 are `00 10 00 00` and the sequence number
is 0; no 4-bit tag followed by the 28-bit sequence number 0 gives these bytes
(the tag 1 sits in bits 20-31, not in bits 28-31). -/
theorem C3_counterexample_tag_width :
    (UUID (newGenerator exampleMAC 1) 5).1.drop 12 = [0, 16, 0, 0] ∧
    (UUID (newGenerator exampleMAC 1) 5).2.SequenceNumber = 0 ∧
    ∀ tag < 16, bigEndian 4 (tag * 2 ^ 28 +
      (UUID (newGenerator exampleMAC 1) 5).2.SequenceNumber % 2 ^ 28) ≠
        (UUID (newGenerator exampleMAC 1) 5).1.drop 12 := by
  decide

end Muuid

namespace Storage

/-! ## The store (claims C6 to C10) -/

theorem int64_of_lt (n : Nat) (h : n < 2 ^ 63) : int64 (n : Int) = n := by
  unfold int64
  norm_num at h ⊢
  omega

/-- When every hit the loop reaches decodes, the loop appends the responses of
the first `limit - i` remaining hits. -/
theorem decodeHits_all {Doc Source : Type} (unmarshal : Source → Option (Trace Doc))
    (limit : Nat) : ∀ (hits : List Source) (i : Nat) (data : List (TraceResponse Doc)),
    (∀ h ∈ hits.take (limit - i), (unmarshal h).isSome) →
    ∃ more, decodeHits unmarshal (limit : Int) i hits data = some (data ++ more) ∧
      (hits.take (limit - i)).map (fun h => (unmarshal h).map traceResponse) = more.map some := by
  intro hits
  induction hits with
  | nil => intro i data _; exact ⟨[], by simp [decodeHits], by simp⟩
  | cons hit rest ih =>
    intro i data hall
    by_cases hi : (i : Int) ≥ limit
    · have : limit - i = 0 := by omega
      exact ⟨[], by simp [decodeHits, hi], by simp [this]⟩
    · have hlt : i < limit := by omega
      have e : limit - i = (limit - (i + 1)) + 1 := by omega
      rw [e, List.take_succ_cons] at hall ⊢
      have hhit := hall hit (by simp)
      obtain ⟨trace, htrace⟩ := Option.isSome_iff_exists.mp hhit
      obtain ⟨more, hmore, hmap⟩ := ih (i + 1) (data ++ [traceResponse trace])
        (fun h hh => hall h (by simp [hh]))
      refine ⟨traceResponse trace :: more, ?_, ?_⟩
      · rw [decodeHits, if_neg hi]
        simp only [htrace]
        rw [hmore, List.append_assoc]
        rfl
      · simp [htrace, hmap]

/-- When a hit the loop reaches does not decode, the loop fails. -/
theorem decodeHits_fail {Doc Source : Type} (unmarshal : Source → Option (Trace Doc))
    (limit : Nat) : ∀ (hits : List Source) (i : Nat) (data : List (TraceResponse Doc)),
    (∃ h ∈ hits.take (limit - i), unmarshal h = none) →
    decodeHits unmarshal (limit : Int) i hits data = none := by
  intro hits
  induction hits with
  | nil => intro i data h; simp at h
  | cons hit rest ih =>
    intro i data hbad
    by_cases hi : (i : Int) ≥ limit
    · have : limit - i = 0 := by omega
      simp [this] at hbad
    · have e : limit - i = (limit - (i + 1)) + 1 := by omega
      rw [e, List.take_succ_cons] at hbad
      rw [decodeHits, if_neg hi]
      cases hu : unmarshal hit with
      | none => rfl
      | some trace =>
        simp only []
        apply ih
        obtain ⟨h, hh, hn⟩ := hbad
        simp only [List.mem_cons] at hh
        rcases hh with rfl | hh
        · rw [hu] at hn; cases hn
        · exact ⟨h, hh, hn⟩

/-- The successful return of `SearchDeviceTrace`, field by field. -/
theorem SearchDeviceTrace_ok {Doc Val Source : Type} (esTraceStore : ESTraceStore)
    (searchDo : SearchRequest Val → Context → Except String (SearchResult Source))
    (unmarshal : Source → Option (Trace Doc)) (ctx : Context) (query : TraceQuery Val)
    (includeTotalCount : Bool) (result : SearchResult Source) (data : List (TraceResponse Doc))
    (hdo : searchDo (searchRequest esTraceStore query includeTotalCount) Context.Background =
      .ok result)
    (hdata : pageData unmarshal query.Limit result = some data)
    (hcursor : query.AfterCursor ≠ some []) :
    SearchDeviceTrace esTraceStore searchDo unmarshal ctx query includeTotalCount =
      .returns
        { page :=
            { Object := "list"
              Limit := query.Limit
              After := query.AfterCursor.bind List.head?
              Order := if query.SortAsc = true then "ASC" else "DESC"
              HasMore := decide ((result.hits.length : Int) > int64 query.Limit)
              Data := data
              TotalCount := if includeTotalCount then uint64 result.totalHits else 0 }
          err := none
          calls := [(searchRequest esTraceStore query includeTotalCount, Context.Background)] } := by
  unfold pageData at hdata
  unfold SearchDeviceTrace
  simp only [hdo]
  cases includeTotalCount <;> simp only [Bool.false_eq_true, if_false, if_true] <;>
    rw [hdata] <;> simp only [] <;>
    (rcases hc : query.AfterCursor with _ | (_ | ⟨first, rest⟩)
     · rfl
     · exact absurd hc hcursor
     · rfl)

/-- The failing return of `SearchDeviceTrace` when a hit does not decode. -/
theorem SearchDeviceTrace_decode_error {Doc Val Source : Type} (esTraceStore : ESTraceStore)
    (searchDo : SearchRequest Val → Context → Except String (SearchResult Source))
    (unmarshal : Source → Option (Trace Doc)) (ctx : Context) (query : TraceQuery Val)
    (includeTotalCount : Bool) (result : SearchResult Source)
    (hdo : searchDo (searchRequest esTraceStore query includeTotalCount) Context.Background =
      .ok result)
    (hdata : @pageData Doc Source unmarshal query.Limit result = none) :
    SearchDeviceTrace esTraceStore searchDo unmarshal ctx query includeTotalCount =
      .returns
        { page := TracePage.zero
          err := some StoreError.ErrCouldNotUnmarshalLogs
          calls := [(searchRequest esTraceStore query includeTotalCount, Context.Background)] } := by
  unfold pageData at hdata
  unfold SearchDeviceTrace
  simp only [hdo]
  cases includeTotalCount <;> simp only [Bool.false_eq_true, if_false, if_true] <;>
    rw [hdata]

/-- C6, as amended: for every query whose limit is below `2^63` (so that
`int(limit)` is the limit) and whose cursor is absent or non-empty, and every
successful backend result that reports a positive total (or has no hit) and
whose hits all decode, `SearchDeviceTrace` returns without error a page whose
`Data` is the responses of the first `limit` hits in backend order; with
`limit + 1` or more raw hits `HasMore` is true and `Data` has exactly `limit`
entries, with `limit` or fewer `HasMore` is false and `Data` has them all; so
`HasMore` holds iff the raw hit count exceeds `limit`. -/
theorem C6_over_fetch {Doc Val Source : Type} (esTraceStore : ESTraceStore)
    (searchDo : SearchRequest Val → Context → Except String (SearchResult Source))
    (unmarshal : Source → Option (Trace Doc)) (ctx : Context) (query : TraceQuery Val)
    (includeTotalCount : Bool) (result : SearchResult Source)
    (hdo : searchDo (searchRequest esTraceStore query includeTotalCount) Context.Background =
      .ok result)
    (hlimit : query.Limit < 2 ^ 63)
    (hcursor : query.AfterCursor ≠ some [])
    (htotal : 0 < result.totalHits ∨ result.hits = [])
    (hdecode : ∀ h ∈ result.hits, (unmarshal h).isSome) :
    ∃ out, SearchDeviceTrace esTraceStore searchDo unmarshal ctx query includeTotalCount =
        .returns out ∧
      out.err = none ∧
      (result.hits.take query.Limit).map (fun h => (unmarshal h).map traceResponse) =
        out.page.Data.map some ∧
      (query.Limit + 1 ≤ result.hits.length →
        out.page.HasMore = true ∧ out.page.Data.length = query.Limit) ∧
      (result.hits.length ≤ query.Limit →
        out.page.HasMore = false ∧ out.page.Data.length = result.hits.length) ∧
      (out.page.HasMore = true ↔ query.Limit < result.hits.length) := by
  have hint := int64_of_lt query.Limit hlimit
  obtain ⟨data, hdata, hmap⟩ :
      ∃ data, pageData unmarshal query.Limit result = some data ∧
        (result.hits.take query.Limit).map (fun h => (unmarshal h).map traceResponse) =
          data.map some := by
    unfold pageData
    by_cases ht : result.totalHits > 0
    · rw [if_pos ht, hint]
      obtain ⟨more, h1, h2⟩ := decodeHits_all unmarshal query.Limit result.hits 0 []
        (fun h hh => hdecode h (List.mem_of_mem_take hh))
      exact ⟨more, by simpa using h1, by simpa using h2⟩
    · rw [if_neg ht]
      have hnil : result.hits = [] := by
        rcases htotal with h | h
        · exact absurd h ht
        · exact h
      exact ⟨[], rfl, by simp [hnil]⟩
  have hlen : data.length = min query.Limit result.hits.length := by
    have := congrArg List.length hmap
    simpa using this.symm
  refine ⟨_, SearchDeviceTrace_ok esTraceStore searchDo unmarshal ctx query includeTotalCount
    result data hdo hdata hcursor, rfl, hmap, ?_, ?_, ?_⟩
  · intro h
    simp only [hint, gt_iff_lt, Nat.cast_lt, decide_eq_true_eq]
    omega
  · intro h
    simp only [hint, gt_iff_lt, Nat.cast_lt, decide_eq_false_iff_not]
    omega
  · simp only [hint, gt_iff_lt, Nat.cast_lt, decide_eq_true_eq]

/-- A backend result of three decodable hits for the limit 2, reported total 3,
meets the hypotheses of C6 as amended. -/
theorem C6_over_fetch_witness :
    ∃ out, SearchDeviceTrace exampleStore (fun _ _ => .ok ⟨["a", "b", "c"], 3⟩) exampleUnmarshal
        Context.Background exampleQuery false = .returns out ∧
      out.err = none ∧
      (["a", "b", "c"].take exampleQuery.Limit).map
          (fun h => (exampleUnmarshal h).map traceResponse) = out.page.Data.map some ∧
      (exampleQuery.Limit + 1 ≤ ["a", "b", "c"].length →
        out.page.HasMore = true ∧ out.page.Data.length = exampleQuery.Limit) ∧
      (["a", "b", "c"].length ≤ exampleQuery.Limit →
        out.page.HasMore = false ∧ out.page.Data.length = ["a", "b", "c"].length) ∧
      (out.page.HasMore = true ↔ exampleQuery.Limit < ["a", "b", "c"].length) :=
  C6_over_fetch exampleStore (fun _ _ => .ok ⟨["a", "b", "c"], 3⟩) exampleUnmarshal
    Context.Background exampleQuery false ⟨["a", "b", "c"], 3⟩ rfl (by decide) (by decide)
    (by decide) (by decide)

/-- C6 as stated fails: limit 2, three decodable raw hits, reported total 0.
The loop is skipped (logs_controller.go:339), so `HasMore` is true but `Data`
is empty instead of holding two entries. -/
theorem C6_counterexample_zero_total :
    SearchDeviceTrace exampleStore (fun _ _ => .ok ⟨["a", "b", "c"], 0⟩) exampleUnmarshal
        Context.Background exampleQuery false =
      .returns
        { page := { Object := "list", Limit := 2, After := none, Order := "DESC",
                    HasMore := true, Data := [], TotalCount := 0 }
          err := none
          calls := [(searchRequest exampleStore exampleQuery false, Context.Background)] } ∧
    (∀ h ∈ ["a", "b", "c"], (exampleUnmarshal h).isSome) := by
  decide

/-- C7, as amended: for every query whose limit is below `2^63` and every
backend result that reports a positive total in which one of the first `limit`
hits cannot be decoded, `SearchDeviceTrace` returns the zero `TracePage` and
`ErrCouldNotUnmarshalLogs`. -/
theorem C7_decode_failure_aborts {Doc Val Source : Type} (esTraceStore : ESTraceStore)
    (searchDo : SearchRequest Val → Context → Except String (SearchResult Source))
    (unmarshal : Source → Option (Trace Doc)) (ctx : Context) (query : TraceQuery Val)
    (includeTotalCount : Bool) (result : SearchResult Source)
    (hdo : searchDo (searchRequest esTraceStore query includeTotalCount) Context.Background =
      .ok result)
    (hlimit : query.Limit < 2 ^ 63)
    (htotal : 0 < result.totalHits)
    (hbad : ∃ h ∈ result.hits.take query.Limit, unmarshal h = none) :
    SearchDeviceTrace esTraceStore searchDo unmarshal ctx query includeTotalCount =
      .returns
        { page := TracePage.zero
          err := some StoreError.ErrCouldNotUnmarshalLogs
          calls := [(searchRequest esTraceStore query includeTotalCount, Context.Background)] } := by
  apply SearchDeviceTrace_decode_error esTraceStore searchDo unmarshal ctx query includeTotalCount
    result hdo
  unfold pageData
  rw [if_pos htotal, int64_of_lt query.Limit hlimit]
  exact decodeHits_fail unmarshal query.Limit result.hits 0 [] (by simpa using hbad)

/-- A backend result whose second hit does not decode, for the limit 2, meets
the hypotheses of C7 as amended. -/
theorem C7_decode_failure_aborts_witness :
    SearchDeviceTrace exampleStore (fun _ _ => .ok ⟨["a", "bad", "c"], 3⟩) exampleUnmarshal
        Context.Background exampleQuery false =
      .returns
        { page := TracePage.zero
          err := some StoreError.ErrCouldNotUnmarshalLogs
          calls := [(searchRequest exampleStore exampleQuery false, Context.Background)] } :=
  C7_decode_failure_aborts exampleStore (fun _ _ => .ok ⟨["a", "bad", "c"], 3⟩) exampleUnmarshal
    Context.Background exampleQuery false ⟨["a", "bad", "c"], 3⟩ rfl (by decide) (by decide)
    ⟨"bad", by decide, by decide⟩

/-- C7 as stated fails: limit 2, raw hits `a`, `b` and the undecodable `bad`,
reported total 3.  The loop stops before the third hit
(logs_controller.go:341), so the call succeeds with a page of two entries. -/
theorem C7_counterexample_extra_hit_not_decoded :
    exampleUnmarshal "bad" = none ∧
    SearchDeviceTrace exampleStore (fun _ _ => .ok ⟨["a", "b", "bad"], 3⟩) exampleUnmarshal
        Context.Background exampleQuery false =
      .returns
        { page :=
            { Object := "list", Limit := 2, After := none, Order := "DESC", HasMore := true,
              Data :=
                [{ AccountID := "a1", DeviceID := "d1", ID := "a", Object := "device-trace",
                   CreatedAt := "1970-01-01T00:00:00.000Z", ETag := "1970-01-01T00:00:00.000Z",
                   Timestamp := "1970-01-01T00:00:00.000Z", Trace := (), Typ := "x" },
                 { AccountID := "a1", DeviceID := "d1", ID := "b", Object := "device-trace",
                   CreatedAt := "1970-01-01T00:00:00.000Z", ETag := "1970-01-01T00:00:00.000Z",
                   Timestamp := "1970-01-01T00:00:00.000Z", Trace := (), Typ := "x" }],
              TotalCount := 0 }
          err := none
          calls := [(searchRequest exampleStore exampleQuery false, Context.Background)] } := by
  decide

theorem foldl_add_bulkClient {Doc : Type}
    (backend : BulkRequest Doc → Context → Except String BulkResponse)
    (f : Trace Doc → Trace Doc) : ∀ (logs : List (Trace Doc)) (r : BulkRequest Doc),
    logs.foldl (fun bulkRequest log => (bulkClient backend).Add bulkRequest (f log)) r =
      { index := r.index, actions := r.actions ++ logs.map f } := by
  intro logs
  induction logs with
  | nil => intro r; simp
  | cons log rest ih =>
    intro r
    rw [List.foldl_cons, ih]
    simp [bulkClient]

/-- C8: `AddDeviceTrace` builds a bulk request for the write target that holds
exactly one index action per input record, in input order, each document being
the input record with `Timestring = Date(Timestamp)` and
`CreatedAt = Date(CloudTimestamp)`; this is the request it submits.  Over any
bulk builder, the request is the result of one `Add` per input record, in
input order, of that document. -/
theorem C8_one_action_per_record {Doc : Type} (esTraceStore : ESTraceStore)
    (backend : BulkRequest Doc → Context → Except String BulkResponse) (ctx : Context)
    (logs : List (Trace Doc)) :
    buildBulkRequest esTraceStore (bulkClient backend) logs =
      { index := esTraceStore.ElasticActiveAlias
        actions := logs.map (fun log =>
          { log with Timestring := Date log.Timestamp, CreatedAt := Date log.CloudTimestamp }) } ∧
    (buildBulkRequest esTraceStore (bulkClient backend) logs).actions.length = logs.length ∧
    (AddDeviceTrace esTraceStore (bulkClient backend) ctx logs).calls =
      [(buildBulkRequest esTraceStore (bulkClient backend) logs, ctx)] ∧
    ∀ (σ : Type) (bulk : BulkService σ Doc),
      buildBulkRequest esTraceStore bulk logs =
        (logs.map (fun log =>
          { log with Timestring := Date log.Timestamp, CreatedAt := Date log.CloudTimestamp })).foldl
          bulk.Add (bulk.Index esTraceStore.ElasticActiveAlias) := by
  have h1 : buildBulkRequest esTraceStore (bulkClient backend) logs =
      { index := esTraceStore.ElasticActiveAlias
        actions := logs.map (fun log =>
          { log with Timestring := Date log.Timestamp, CreatedAt := Date log.CloudTimestamp }) } := by
    unfold buildBulkRequest
    rw [foldl_add_bulkClient]
    simp [bulkClient]
  refine ⟨h1, ?_, ?_, ?_⟩
  · rw [h1]; simp
  · have hn : (bulkClient backend).NumberOfActions
        (buildBulkRequest esTraceStore (bulkClient backend) logs) = (logs.length : Int) := by
      rw [h1]; simp [bulkClient]
    unfold AddDeviceTrace
    simp only [hn, ne_eq, not_true_eq_false, if_false]
    split
    · rfl
    · split <;> rfl
  · intro σ bulk
    unfold buildBulkRequest
    rw [List.foldl_map]

/-- C9: whenever the number of actions the bulk builder reports for the
request built from `N` inputs differs from `N`, `AddDeviceTrace` issues no
backend call and fails with `ErrNotMatchNumberOfRequests`. -/
theorem C9_precheck_short_circuit {σ Doc : Type} (esTraceStore : ESTraceStore)
    (bulk : BulkService σ Doc) (ctx : Context) (logs : List (Trace Doc))
    (h : bulk.NumberOfActions (buildBulkRequest esTraceStore bulk logs) ≠ (logs.length : Int)) :
    (AddDeviceTrace esTraceStore bulk ctx logs).calls = [] ∧
    (AddDeviceTrace esTraceStore bulk ctx logs).err =
      some StoreError.ErrNotMatchNumberOfRequests := by
  unfold AddDeviceTrace
  simp only [h, ne_eq, not_false_eq_true, if_true, and_self]

/-- A builder that reports 0 actions for a batch of one record meets the
hypothesis of C9. -/
theorem C9_precheck_short_circuit_witness :
    (AddDeviceTrace exampleStore miscountingBulk Context.Background [exampleTrace]).calls = [] ∧
    (AddDeviceTrace exampleStore miscountingBulk Context.Background [exampleTrace]).err =
      some StoreError.ErrNotMatchNumberOfRequests :=
  C9_precheck_short_circuit exampleStore miscountingBulk Context.Background [exampleTrace]
    (by decide)

/-- With the library's builder the pre-check of `AddDeviceTrace` always
passes. -/
theorem precheck_passes_bulkClient {Doc : Type} (esTraceStore : ESTraceStore)
    (backend : BulkRequest Doc → Context → Except String BulkResponse)
    (logs : List (Trace Doc)) :
    (bulkClient backend).NumberOfActions
      (buildBulkRequest esTraceStore (bulkClient backend) logs) = (logs.length : Int) := by
  unfold buildBulkRequest
  rw [foldl_add_bulkClient]
  simp [bulkClient]

/-- C10: when the pre-check passes, `AddDeviceTrace` issues exactly one bulk
write (the built request, under the caller's context); it returns nil iff that
call returns a response, not an error, whose `Errors` flag is false; when the
response reports a failed item (`Errors` true) it returns
`ErrCouldNotMakeBulkRequest`; and its result is nil or that one error value,
whatever the per-item failure reasons are. -/
theorem C10_bulk_write_result {σ Doc : Type} (esTraceStore : ESTraceStore)
    (bulk : BulkService σ Doc) (ctx : Context) (logs : List (Trace Doc))
    (hpre : bulk.NumberOfActions (buildBulkRequest esTraceStore bulk logs) = (logs.length : Int)) :
    (AddDeviceTrace esTraceStore bulk ctx logs).calls =
      [(buildBulkRequest esTraceStore bulk logs, ctx)] ∧
    ((AddDeviceTrace esTraceStore bulk ctx logs).err = none ↔
      ∃ response, bulk.Do (buildBulkRequest esTraceStore bulk logs) ctx = .ok response ∧
        response.Errors = false) ∧
    (∀ response, bulk.Do (buildBulkRequest esTraceStore bulk logs) ctx = .ok response →
      response.Errors = true →
      (AddDeviceTrace esTraceStore bulk ctx logs).err =
        some StoreError.ErrCouldNotMakeBulkRequest) ∧
    ((AddDeviceTrace esTraceStore bulk ctx logs).err = none ∨
      (AddDeviceTrace esTraceStore bulk ctx logs).err =
        some StoreError.ErrCouldNotMakeBulkRequest) := by
  unfold AddDeviceTrace
  simp only [hpre, ne_eq, not_true_eq_false, if_false]
  cases hdo : bulk.Do (buildBulkRequest esTraceStore bulk logs) ctx with
  | error e => simp
  | ok response =>
    cases he : response.Errors <;> simp [he]

/-- A batch of one record on the library's builder, the backend answering
without error, meets the hypothesis of C10. -/
theorem C10_bulk_write_result_witness :
    (AddDeviceTrace exampleStore (bulkClient (fun _ _ => .ok ⟨false, []⟩)) Context.Background
      [exampleTrace]).err = none :=
  ((C10_bulk_write_result exampleStore (bulkClient (fun _ _ => .ok ⟨false, []⟩))
    Context.Background [exampleTrace] (by decide)).2.1).mpr ⟨⟨false, []⟩, rfl, rfl⟩

end Storage

namespace Routes

open Muuid Storage

/-! ## The cloud timestamp (claim C5) -/

/-- C5: for every generator and every clock reading `ms` with
`0 ≤ ms < 2^48` that the generator observes as a new millisecond,
`timestampFromUUID` of the identifier `UUID()` returns is `ms`; so the record
the POST handler builds has `CloudTimestamp = ms`, the generation time held in
the first six bytes of the identifier that its `ID` spells. -/
theorem C5_cloud_timestamp {Doc : Type} (g : MUUIDGenerator) (ms : Int)
    (h0 : 0 ≤ ms) (h1 : ms < 2 ^ 48) (hnew : ms ≠ g.lastTimestampMs)
    (deviceID accountID : String) (timestamp : Time) (log : PostTrace Doc) :
    timestampFromUUID (UUID g ms).1 = ms ∧
    (newTrace g ms deviceID accountID timestamp log).1.CloudTimestamp = ms ∧
    (newTrace g ms deviceID accountID timestamp log).1.ID = MUUID.String (UUID g ms).1 := by
  have key : timestampFromUUID (UUID g ms).1 = ms := by
    rw [UUID_fst]
    unfold idOf
    rw [UUID_ts_new g ms hnew, encodeMs_toList]
    have e : ∀ x : Int, ((x % 256).toNat : Int) = x % 256 :=
      fun x => Int.toNat_of_nonneg (Int.emod_nonneg x (by norm_num))
    simp only [timestampFromUUID, List.range, List.range.loop, List.foldl_cons, List.foldl_nil,
      List.cons_append, List.getD_cons_zero, List.getD_cons_succ, e]
    norm_num at h1 ⊢
    omega
  refine ⟨key, ?_, ?_⟩
  · unfold newTrace
    exact key
  · unfold newTrace
    rfl

/-- The generator of main.go, fresh from `Build`, at 1672531200000 ms. -/
theorem C5_cloud_timestamp_witness :
    timestampFromUUID (UUID (newGenerator exampleMAC 1) 1672531200000).1 = 1672531200000 ∧
    (newTrace (newGenerator exampleMAC 1) 1672531200000 "d1" "a1" (Time.Unix 1672531200 0)
      (⟨"2023-01-01T00:00:00Z", (), "x"⟩ : PostTrace Unit)).1.CloudTimestamp = 1672531200000 ∧
    (newTrace (newGenerator exampleMAC 1) 1672531200000 "d1" "a1" (Time.Unix 1672531200 0)
      (⟨"2023-01-01T00:00:00Z", (), "x"⟩ : PostTrace Unit)).1.ID =
        MUUID.String (UUID (newGenerator exampleMAC 1) 1672531200000).1 :=
  C5_cloud_timestamp (newGenerator exampleMAC 1) 1672531200000 (by norm_num) (by norm_num)
    (by simp [newGenerator]) "d1" "a1" (Time.Unix 1672531200 0) ⟨"2023-01-01T00:00:00Z", (), "x"⟩

end Routes

namespace Storage

/-! ## The query translator (claims C11 to C13) -/

/-- The time-range criterion of a query, when it has one. -/
theorem buildESBoolQuery_filterClauses {Val : Type} (query : TraceQuery Val) :
    (buildESBoolQuery query).filterClauses =
      if query.Before.IsZero = true ∧ query.After.IsZero = true then []
      else
        [Query.Range
          { name := "timestamp"
            lower := if query.After.IsZero = true then none
              else some (unixMilliseconds query.After)
            upper := if query.Before.IsZero = true then none
              else some (unixMilliseconds query.Before)
            includeLower := true
            includeUpper := true }] := by
  unfold buildESBoolQuery
  cases hb : query.Before.IsZero <;> cases ha : query.After.IsZero <;>
    simp [NewBoolQuery, BoolQuery.Must, BoolQuery.Filter, NewRangeQuery, RangeQuery.Lte,
      RangeQuery.Gte] <;>
    (split_ifs <;> rfl)

/-- The criteria of a query other than the time range. -/
theorem buildESBoolQuery_mustClauses {Val : Type} (query : TraceQuery Val) :
    (buildESBoolQuery query).mustClauses =
      (if query.Device.length > 0 then [Query.Terms "device_id" query.Device] else []) ++
      (if query.Account ≠ "" then [Query.Term "account_id" query.Account] else []) ++
      (if query.Typ ≠ "" then [Query.Match "type" query.Typ] else []) ++
      (if query.ID ≠ "" then [Query.Term "id" query.ID] else []) := by
  unfold buildESBoolQuery
  by_cases h1 : query.Device.length > 0 <;> by_cases h2 : query.Account = "" <;>
    by_cases h3 : query.Typ = "" <;> by_cases h4 : query.ID = "" <;>
    cases hb : query.Before.IsZero <;> cases ha : query.After.IsZero <;>
    simp [NewBoolQuery, BoolQuery.Must, BoolQuery.Filter, h1, h2, h3, h4]

/-- C11: for every `TraceQuery`, a range criterion built by
`buildESBoolQuery` carries a lower bound iff `After` is not the zero time and
an upper bound iff `Before` is not the zero time, the bounds being the
millisecond values of `After` and `Before`; when both are the zero time no
range criterion is emitted at all, and otherwise exactly one is, on the field
`timestamp`. -/
theorem C11_time_range_bounds {Val : Type} (query : TraceQuery Val) :
    (∀ r, Query.Range r ∈ (buildESBoolQuery query).mustClauses ++
        (buildESBoolQuery query).filterClauses →
      r.name = "timestamp" ∧
      (r.lower.isSome = true ↔ query.After.IsZero = false) ∧
      (r.upper.isSome = true ↔ query.Before.IsZero = false) ∧
      (query.After.IsZero = false → r.lower = some (unixMilliseconds query.After)) ∧
      (query.Before.IsZero = false → r.upper = some (unixMilliseconds query.Before))) ∧
    (query.After.IsZero = true ∧ query.Before.IsZero = true →
      ∀ r, Query.Range r ∉ (buildESBoolQuery query).mustClauses ++
        (buildESBoolQuery query).filterClauses) ∧
    (¬ (query.After.IsZero = true ∧ query.Before.IsZero = true) →
      ∃ r, (buildESBoolQuery query).filterClauses = [Query.Range r]) := by
  rw [buildESBoolQuery_filterClauses, buildESBoolQuery_mustClauses]
  cases hb : query.Before.IsZero <;> cases ha : query.After.IsZero <;>
    refine ⟨?_, ?_, ?_⟩ <;>
    simp

/-- C12: for every `TraceQuery`, the conjunction `buildESBoolQuery` returns
has exactly these clauses: a membership (terms) test on `device_id` over all
query devices iff the device list is non-empty, an exact (term) test on
`account_id` iff `Account` is non-empty, a test on `type` iff `Type` is
non-empty, an exact (term) test on `id` iff `ID` is non-empty, and one range
test on `timestamp` iff at least one time bound is not the zero time. -/
theorem C12_clauses_of_populated_fields {Val : Type} (query : TraceQuery Val) :
    (buildESBoolQuery query).mustClauses =
      (if query.Device ≠ [] then [Query.Terms "device_id" query.Device] else []) ++
      (if query.Account ≠ "" then [Query.Term "account_id" query.Account] else []) ++
      (if query.Typ ≠ "" then [Query.Match "type" query.Typ] else []) ++
      (if query.ID ≠ "" then [Query.Term "id" query.ID] else []) ∧
    (buildESBoolQuery query).filterClauses =
      (if query.Before.IsZero = true ∧ query.After.IsZero = true then []
       else
        [Query.Range
          { name := "timestamp"
            lower := if query.After.IsZero = true then none
              else some (unixMilliseconds query.After)
            upper := if query.Before.IsZero = true then none
              else some (unixMilliseconds query.Before)
            includeLower := true
            includeUpper := true }]) := by
  refine ⟨?_, buildESBoolQuery_filterClauses query⟩
  rw [buildESBoolQuery_mustClauses]
  have e : (query.Device.length > 0) ↔ query.Device ≠ [] := by
    rw [gt_iff_lt, List.length_pos]
  simp only [e]

/-- C13, as amended: for every `TraceQuery` with a non-empty `Type`, the
criterion `buildESBoolQuery` emits for `type` is a match test (`Match`) of the
field `type` against `query.Type`, placed in the same conjunction as the term
tests (`Term`) emitted for `account_id` and `id`; no term test on `type` is
emitted. -/
theorem C13_type_is_match_test {Val : Type} (query : TraceQuery Val) (h : query.Typ ≠ "") :
    Query.Match "type" query.Typ ∈ (buildESBoolQuery query).mustClauses ∧
    (∀ q ∈ (buildESBoolQuery query).mustClauses ++ (buildESBoolQuery query).filterClauses,
      ∀ v, q ≠ Query.Term "type" v) ∧
    (∀ name text, Query.Match name text ∈ (buildESBoolQuery query).mustClauses ++
        (buildESBoolQuery query).filterClauses → name = "type" ∧ text = query.Typ) ∧
    (query.Account ≠ "" →
      Query.Term "account_id" query.Account ∈ (buildESBoolQuery query).mustClauses) ∧
    (query.ID ≠ "" → Query.Term "id" query.ID ∈ (buildESBoolQuery query).mustClauses) := by
  rw [buildESBoolQuery_filterClauses, buildESBoolQuery_mustClauses]
  refine ⟨?_, ?_, ?_, ?_, ?_⟩
  · simp [h]
  · intro q hq v hv
    subst hv
    simp only [List.mem_append] at hq
    rcases hq with (((hq | hq) | hq) | hq) | hq <;> split_ifs at hq <;> simp at hq
  · intro name text hq
    simp only [List.mem_append] at hq
    rcases hq with (((hq | hq) | hq) | hq) | hq <;> split_ifs at hq <;> simp at hq
    exact ⟨hq.1, hq.2⟩
  · intro ha; simp [ha]
  · intro hi; simp [hi]

/-- A query for the type `x` meets the hypothesis of C13 as amended. -/
theorem C13_type_is_match_test_witness :
    Query.Match "type" "x" ∈ (buildESBoolQuery { exampleQuery with Typ := "x" }).mustClauses :=
  (C13_type_is_match_test { exampleQuery with Typ := "x" } (by decide)).1

/-- C13 as stated fails: for the account `a1` and the type `x` the criteria
are a term test on `account_id` and a match test on `type`; the test on
`type` is not of the kind used for `account_id`. -/
theorem C13_counterexample_match_not_term :
    buildESBoolQuery { exampleQuery with Typ := "x" } =
      { mustClauses := [Query.Term "account_id" "a1", Query.Match "type" "x"]
        filterClauses := [] } ∧
    Query.Match "type" "x" ≠ Query.Term "type" "x" := by
  decide

end Storage

namespace Storage

/-! ## The page (claims C14 to C17) -/

/-- The return of `SearchDeviceTrace` when the search fails. -/
theorem SearchDeviceTrace_query_error {Doc Val Source : Type} (esTraceStore : ESTraceStore)
    (searchDo : SearchRequest Val → Context → Except String (SearchResult Source))
    (unmarshal : Source → Option (Trace Doc)) (ctx : Context) (query : TraceQuery Val)
    (includeTotalCount : Bool) (msg : String)
    (hdo : searchDo (searchRequest esTraceStore query includeTotalCount) Context.Background =
      .error msg) :
    SearchDeviceTrace esTraceStore searchDo unmarshal ctx query includeTotalCount =
      .returns
        { page := TracePage.zero
          err := some StoreError.ErrCouldNotQueryLogs
          calls := [(searchRequest esTraceStore query includeTotalCount, Context.Background)] } := by
  unfold SearchDeviceTrace
  simp only [hdo]

/-- The end of `SearchDeviceTrace` on an empty cursor that is not nil. -/
theorem SearchDeviceTrace_panics {Doc Val Source : Type} (esTraceStore : ESTraceStore)
    (searchDo : SearchRequest Val → Context → Except String (SearchResult Source))
    (unmarshal : Source → Option (Trace Doc)) (ctx : Context) (query : TraceQuery Val)
    (includeTotalCount : Bool) (result : SearchResult Source) (data : List (TraceResponse Doc))
    (hdo : searchDo (searchRequest esTraceStore query includeTotalCount) Context.Background =
      .ok result)
    (hdata : pageData unmarshal query.Limit result = some data)
    (hcursor : query.AfterCursor = some []) :
    SearchDeviceTrace esTraceStore searchDo unmarshal ctx query includeTotalCount =
      .panics "index out of range [0] with length 0" := by
  unfold pageData at hdata
  unfold SearchDeviceTrace
  simp only [hdo]
  cases includeTotalCount <;> simp only [Bool.false_eq_true, if_false, if_true] <;>
    rw [hdata] <;> simp only [hcursor]

/-- A successful return of `SearchDeviceTrace` is the page of
`SearchDeviceTrace_ok`. -/
theorem SearchDeviceTrace_success {Doc Val Source : Type} (esTraceStore : ESTraceStore)
    (searchDo : SearchRequest Val → Context → Except String (SearchResult Source))
    (unmarshal : Source → Option (Trace Doc)) (ctx : Context) (query : TraceQuery Val)
    (includeTotalCount : Bool) (out : SearchOutcome Doc Val)
    (hret : SearchDeviceTrace esTraceStore searchDo unmarshal ctx query includeTotalCount =
      .returns out)
    (herr : out.err = none) :
    ∃ result data,
      searchDo (searchRequest esTraceStore query includeTotalCount) Context.Background =
        .ok result ∧
      pageData unmarshal query.Limit result = some data ∧
      query.AfterCursor ≠ some [] ∧
      out =
        { page :=
            { Object := "list"
              Limit := query.Limit
              After := query.AfterCursor.bind List.head?
              Order := if query.SortAsc = true then "ASC" else "DESC"
              HasMore := decide ((result.hits.length : Int) > int64 query.Limit)
              Data := data
              TotalCount := if includeTotalCount then uint64 result.totalHits else 0 }
          err := none
          calls := [(searchRequest esTraceStore query includeTotalCount, Context.Background)] } := by
  cases hdo : searchDo (searchRequest esTraceStore query includeTotalCount) Context.Background with
  | error msg =>
    rw [SearchDeviceTrace_query_error esTraceStore searchDo unmarshal ctx query
      includeTotalCount msg hdo] at hret
    injection hret with hret
    subst hret
    simp at herr
  | ok result =>
    cases hdata : @pageData Doc Source unmarshal query.Limit result with
    | none =>
      rw [SearchDeviceTrace_decode_error esTraceStore searchDo unmarshal ctx query
        includeTotalCount result hdo hdata] at hret
      injection hret with hret
      subst hret
      simp at herr
    | some data =>
      by_cases hcursor : query.AfterCursor = some []
      · rw [SearchDeviceTrace_panics esTraceStore searchDo unmarshal ctx query
          includeTotalCount result data hdo hdata hcursor] at hret
        cases hret
      · rw [SearchDeviceTrace_ok esTraceStore searchDo unmarshal ctx query
          includeTotalCount result data hdo hdata hcursor] at hret
        injection hret with hret
        exact ⟨result, data, rfl, hdata, hcursor, hret.symm⟩

/-- Whatever the loop returns is what it was given plus the responses of a
prefix of the remaining hits, each of them decoded. -/
theorem decodeHits_some {Doc Source : Type} (unmarshal : Source → Option (Trace Doc))
    (limit : Int) : ∀ (hits : List Source) (i : Nat) (data out : List (TraceResponse Doc)),
    decodeHits unmarshal limit i hits data = some out →
    ∃ traces : List (Trace Doc), out = data ++ traces.map traceResponse ∧
      (hits.take traces.length).map unmarshal = traces.map some := by
  intro hits
  induction hits with
  | nil =>
    intro i data out h
    simp only [decodeHits, Option.some.injEq] at h
    exact ⟨[], by simp [h], by simp⟩
  | cons hit rest ih =>
    intro i data out h
    rw [decodeHits] at h
    by_cases hi : (i : Int) ≥ limit
    · rw [if_pos hi] at h
      simp only [Option.some.injEq] at h
      exact ⟨[], by simp [h], by simp⟩
    · rw [if_neg hi] at h
      cases hu : unmarshal hit with
      | none => simp [hu] at h
      | some trace =>
        simp only [hu] at h
        obtain ⟨traces, h1, h2⟩ := ih (i + 1) _ out h
        refine ⟨trace :: traces, ?_, ?_⟩
        · rw [h1]; simp
        · simp [hu, h2]

/-- The data of a page are the responses of decoded leading hits. -/
theorem pageData_some {Doc Source : Type} (unmarshal : Source → Option (Trace Doc))
    (limit : Nat) (result : SearchResult Source) (data : List (TraceResponse Doc))
    (h : pageData unmarshal limit result = some data) :
    ∃ traces : List (Trace Doc), data = traces.map traceResponse ∧
      (result.hits.take traces.length).map unmarshal = traces.map some := by
  unfold pageData at h
  by_cases ht : result.totalHits > 0
  · rw [if_pos ht] at h
    obtain ⟨traces, h1, h2⟩ := decodeHits_some unmarshal _ _ _ _ _ h
    exact ⟨traces, by simpa using h1, h2⟩
  · rw [if_neg ht] at h
    simp only [Option.some.injEq] at h
    exact ⟨[], by simp [← h], by simp⟩

/-- C14: for every call of `SearchDeviceTrace` that returns without error, the
page's `After` is the first element of the input cursor when a cursor was
supplied and nil otherwise, whatever the backend returned. -/
theorem C14_after_echoes_cursor {Doc Val Source : Type} (esTraceStore : ESTraceStore)
    (searchDo : SearchRequest Val → Context → Except String (SearchResult Source))
    (unmarshal : Source → Option (Trace Doc)) (ctx : Context) (query : TraceQuery Val)
    (includeTotalCount : Bool) (out : SearchOutcome Doc Val)
    (hret : SearchDeviceTrace esTraceStore searchDo unmarshal ctx query includeTotalCount =
      .returns out)
    (herr : out.err = none) :
    (query.AfterCursor = none → out.page.After = none) ∧
    (∀ first rest, query.AfterCursor = some (first :: rest) → out.page.After = some first) ∧
    out.page.After = query.AfterCursor.bind List.head? := by
  obtain ⟨result, data, _, _, _, hout⟩ := SearchDeviceTrace_success esTraceStore searchDo
    unmarshal ctx query includeTotalCount out hret herr
  subst hout
  refine ⟨?_, ?_, rfl⟩
  · intro h; simp [h]
  · intro first rest h; simp [h]

/-- A search with the cursor `c1` that returns three hits meets the hypotheses
of C14: the page's `After` is `c1`, not the id of a hit. -/
theorem C14_after_echoes_cursor_witness :
    (∃ out, SearchDeviceTrace exampleStore (fun _ _ => .ok ⟨["a", "b", "c"], 3⟩) exampleUnmarshal
        Context.Background { exampleQuery with AfterCursor := some ["c1"] } false =
          .returns out ∧ out.err = none ∧ out.page.After = some "c1") :=
  ⟨_, rfl, rfl,
    (C14_after_echoes_cursor exampleStore (fun _ _ => .ok ⟨["a", "b", "c"], 3⟩) exampleUnmarshal
      Context.Background { exampleQuery with AfterCursor := some ["c1"] } false _ rfl rfl).2.1
      "c1" [] rfl⟩

/-- C15: for every call of `SearchDeviceTrace` that returns without error,
exactly one search was issued; when `includeTotalCount` is false the page's
`TotalCount` is 0, so it is left out of the JSON output, and the request does
not ask for an exact total; when it is true the request asks for an exact
total and `TotalCount` is the backend's reported total converted to uint64,
which is that total whenever it is a count (`0 ≤ total < 2^64`). -/
theorem C15_total_count {Doc Val Source : Type} (esTraceStore : ESTraceStore)
    (searchDo : SearchRequest Val → Context → Except String (SearchResult Source))
    (unmarshal : Source → Option (Trace Doc)) (ctx : Context) (query : TraceQuery Val)
    (includeTotalCount : Bool) (out : SearchOutcome Doc Val)
    (hret : SearchDeviceTrace esTraceStore searchDo unmarshal ctx query includeTotalCount =
      .returns out)
    (herr : out.err = none) :
    ∃ request result, out.calls = [(request, Context.Background)] ∧
      searchDo request Context.Background = .ok result ∧
      (includeTotalCount = false →
        out.page.TotalCount = 0 ∧ out.page.totalCountPresent = false ∧
        request.trackTotalHits = none) ∧
      (includeTotalCount = true →
        request.trackTotalHits = some true ∧
        out.page.TotalCount = uint64 result.totalHits ∧
        (0 ≤ result.totalHits → result.totalHits < 2 ^ 64 →
          (out.page.TotalCount : Int) = result.totalHits)) := by
  obtain ⟨result, data, hdo, _, _, hout⟩ := SearchDeviceTrace_success esTraceStore searchDo
    unmarshal ctx query includeTotalCount out hret herr
  subst hout
  refine ⟨_, result, rfl, hdo, ?_, ?_⟩
  · intro h
    subst h
    refine ⟨rfl, rfl, ?_⟩
    unfold searchRequest
    cases query.AfterCursor <;> rfl
  · intro h
    subst h
    refine ⟨?_, rfl, ?_⟩
    · unfold searchRequest
      cases query.AfterCursor <;> rfl
    · intro h0 h1
      simp only [if_true, uint64]
      rw [Int.emod_eq_of_lt h0 h1]
      exact Int.toNat_of_nonneg h0

/-- A search that asks for the total and is answered with the total 3 meets
the hypotheses of C15: the page's `TotalCount` is 3. -/
theorem C15_total_count_witness :
    ∃ out, SearchDeviceTrace exampleStore (fun _ _ => .ok ⟨["a", "b", "c"], 3⟩) exampleUnmarshal
        Context.Background exampleQuery true = .returns out ∧
      out.page.TotalCount = 3 := by
  refine ⟨_, rfl, ?_⟩
  obtain ⟨request, result, _, hdo, _, htrue⟩ :=
    C15_total_count exampleStore (fun _ _ => .ok ⟨["a", "b", "c"], 3⟩) exampleUnmarshal
      Context.Background exampleQuery true _ rfl rfl
  have hres : result = ⟨["a", "b", "c"], 3⟩ := by
    injection hdo with h
    exact h.symm
  rw [(htrue rfl).2.1, hres]
  decide

/-- Hits that decode to `traces` are related entry by entry to the responses
built from `traces`. -/
theorem forall2_traceResponse {Doc Source : Type} (unmarshal : Source → Option (Trace Doc)) :
    ∀ (traces : List (Trace Doc)) (hits : List Source),
    hits.map unmarshal = traces.map some →
    List.Forall₂
      (fun hit (r : TraceResponse Doc) => ∃ trace, unmarshal hit = some trace ∧
        r.AccountID = trace.AccountID ∧ r.DeviceID = trace.DeviceID ∧ r.ID = trace.ID ∧
        r.Trace = trace.Trace ∧ r.Typ = trace.Typ ∧ r.Object = "device-trace" ∧
        r.CreatedAt = trace.CreatedAt ∧ r.ETag = trace.CreatedAt ∧
        r.Timestamp = trace.Timestring)
      hits (traces.map traceResponse) := by
  intro traces
  induction traces with
  | nil =>
    intro hits h2
    cases hits with
    | nil => exact List.Forall₂.nil
    | cons h t => simp at h2
  | cons trace rest ih =>
    intro hits h2
    cases hits with
    | nil => simp at h2
    | cons h t =>
      simp only [List.map_cons, List.cons.injEq] at h2
      exact List.Forall₂.cons ⟨trace, h2.1, rfl, rfl, rfl, rfl, rfl, rfl, rfl, rfl, rfl⟩
        (ih t h2.2)

/-- C16: for every call of `SearchDeviceTrace` that returns without error, the
entries of `Data` are, in order, built from the leading hits of the backend
result: each hit decodes to a stored record, and the entry has `AccountID`,
`DeviceID`, `ID`, `Trace` and `Type` equal to the record's, `Object` equal to
`device-trace`, `CreatedAt` and `ETag` both equal to the record's `CreatedAt`,
and `Timestamp` equal to the record's `Timestring`. -/
theorem C16_response_fields {Doc Val Source : Type} (esTraceStore : ESTraceStore)
    (searchDo : SearchRequest Val → Context → Except String (SearchResult Source))
    (unmarshal : Source → Option (Trace Doc)) (ctx : Context) (query : TraceQuery Val)
    (includeTotalCount : Bool) (out : SearchOutcome Doc Val) (result : SearchResult Source)
    (hret : SearchDeviceTrace esTraceStore searchDo unmarshal ctx query includeTotalCount =
      .returns out)
    (herr : out.err = none)
    (hdo : searchDo (searchRequest esTraceStore query includeTotalCount) Context.Background =
      .ok result) :
    List.Forall₂
      (fun hit (r : TraceResponse Doc) => ∃ trace, unmarshal hit = some trace ∧
        r.AccountID = trace.AccountID ∧ r.DeviceID = trace.DeviceID ∧ r.ID = trace.ID ∧
        r.Trace = trace.Trace ∧ r.Typ = trace.Typ ∧ r.Object = "device-trace" ∧
        r.CreatedAt = trace.CreatedAt ∧ r.ETag = trace.CreatedAt ∧
        r.Timestamp = trace.Timestring)
      (result.hits.take out.page.Data.length) out.page.Data := by
  obtain ⟨result', data, hdo', hdata, _, hout⟩ := SearchDeviceTrace_success esTraceStore
    searchDo unmarshal ctx query includeTotalCount out hret herr
  rw [hdo] at hdo'
  injection hdo' with hres
  subst hres
  subst hout
  obtain ⟨traces, h1, h2⟩ := pageData_some unmarshal query.Limit result data hdata
  subst h1
  simp only [List.length_map]
  exact forall2_traceResponse unmarshal traces _ h2

/-- A search answered with three decodable hits for the limit 2 meets the
hypotheses of C16. -/
theorem C16_response_fields_witness :
    ∃ out, SearchDeviceTrace exampleStore (fun _ _ => .ok ⟨["a", "b", "c"], 3⟩) exampleUnmarshal
        Context.Background exampleQuery false = .returns out ∧ out.page.Data.length = 2 ∧
      List.Forall₂
        (fun hit (r : TraceResponse Unit) => ∃ trace, exampleUnmarshal hit = some trace ∧
          r.AccountID = trace.AccountID ∧ r.DeviceID = trace.DeviceID ∧ r.ID = trace.ID ∧
          r.Trace = trace.Trace ∧ r.Typ = trace.Typ ∧ r.Object = "device-trace" ∧
          r.CreatedAt = trace.CreatedAt ∧ r.ETag = trace.CreatedAt ∧
          r.Timestamp = trace.Timestring)
        (["a", "b", "c"].take out.page.Data.length) out.page.Data :=
  ⟨_, rfl, rfl,
    C16_response_fields exampleStore (fun _ _ => .ok ⟨["a", "b", "c"], 3⟩) exampleUnmarshal
      Context.Background exampleQuery false _ ⟨["a", "b", "c"], 3⟩ rfl rfl rfl⟩

/-- Decoding the JSON object written for a record gives the record back. -/
theorem unmarshalTrace_marshalTrace {Doc : Type} (nilDoc : Doc) (t : Trace Doc) :
    unmarshalTrace nilDoc (marshalTrace t) = some t := by
  simp [unmarshalTrace, marshalTrace, setMembers, setMember]

/-- The documents of the bulk request built with the library's builder. -/
theorem buildBulkRequest_actions {Doc : Type} (esTraceStore : ESTraceStore)
    (backend : BulkRequest Doc → Context → Except String BulkResponse)
    (logs : List (Trace Doc)) :
    (buildBulkRequest esTraceStore (bulkClient backend) logs).actions =
      logs.map (fun log =>
        { log with Timestring := Date log.Timestamp, CreatedAt := Date log.CloudTimestamp }) := by
  unfold buildBulkRequest
  rw [foldl_add_bulkClient]
  simp [bulkClient]

/-- C17: a record submitted to `AddDeviceTrace` and later returned as a hit by
`SearchDeviceTrace`, the backend returning the JSON document that was written
for it, comes back with its `DeviceID`, `AccountID`, `Type` and `Trace`
document as they were before the write.  First: in every call that returns
without error, an entry of `Data` whose hit is the document written for a
record `t` has these four fields equal to those of `t`.  Second: when the hits
are, in this order, the documents written for `logs` (reported total
positive, limit below `2^63`, cursor nil or non-empty), the call does return
without error and the entries of `Data` have, in order, the four fields of the
first `limit` records of `logs`. -/
theorem C17_round_trip {Doc Val : Type} (nilDoc : Doc) (writeStore esTraceStore : ESTraceStore)
    (backend : BulkRequest Doc → Context → Except String BulkResponse)
    (searchDo : SearchRequest Val → Context →
      Except String (SearchResult (List (String × JSONValue Doc))))
    (ctx : Context) (query : TraceQuery Val) (includeTotalCount : Bool)
    (result : SearchResult (List (String × JSONValue Doc)))
    (hdo : searchDo (searchRequest esTraceStore query includeTotalCount) Context.Background =
      .ok result) :
    (∀ out, SearchDeviceTrace esTraceStore searchDo (unmarshalTrace nilDoc) ctx query
        includeTotalCount = .returns out → out.err = none →
      List.Forall₂
        (fun hit (r : TraceResponse Doc) => ∀ t : Trace Doc,
          [hit] = (buildBulkRequest writeStore (bulkClient backend) [t]).actions.map
            marshalTrace →
          r.DeviceID = t.DeviceID ∧ r.AccountID = t.AccountID ∧ r.Typ = t.Typ ∧
            r.Trace = t.Trace)
        (result.hits.take out.page.Data.length) out.page.Data) ∧
    (∀ logs : List (Trace Doc),
      result.hits =
        (buildBulkRequest writeStore (bulkClient backend) logs).actions.map marshalTrace →
      0 < result.totalHits → query.Limit < 2 ^ 63 → query.AfterCursor ≠ some [] →
      ∃ out, SearchDeviceTrace esTraceStore searchDo (unmarshalTrace nilDoc) ctx query
          includeTotalCount = .returns out ∧
        out.err = none ∧
        out.page.Data.map (fun r => (r.DeviceID, r.AccountID, r.Typ, r.Trace)) =
          (logs.take query.Limit).map (fun t => (t.DeviceID, t.AccountID, t.Typ, t.Trace))) := by
  constructor
  · intro out hret herr
    obtain ⟨result', data, hdo', hdata, _, hout⟩ := SearchDeviceTrace_success esTraceStore
      searchDo (unmarshalTrace nilDoc) ctx query includeTotalCount out hret herr
    rw [hdo] at hdo'
    injection hdo' with hres
    subst hres
    subst hout
    obtain ⟨traces, h1, h2⟩ := pageData_some (unmarshalTrace nilDoc) query.Limit result data
      hdata
    subst h1
    simp only [List.length_map]
    refine List.Forall₂.imp ?_ (forall2_traceResponse (unmarshalTrace nilDoc) traces _ h2)
    intro hit r ⟨trace, hdec, hA, hD, _, hT, hTy, _⟩ t ht
    rw [buildBulkRequest_actions] at ht
    simp only [List.map_cons, List.map_nil, List.cons.injEq, and_true] at ht
    rw [ht, unmarshalTrace_marshalTrace] at hdec
    cases hdec
    exact ⟨hD, hA, hTy, hT⟩
  · intro logs hhits htotal hlimit hcursor
    rw [buildBulkRequest_actions, List.map_map] at hhits
    have hdec : ∀ h ∈ result.hits.take (query.Limit - 0),
        (unmarshalTrace nilDoc h).isSome := by
      intro h hh
      have hh' := List.mem_of_mem_take hh
      rw [hhits] at hh'
      obtain ⟨t, _, rfl⟩ := List.mem_map.mp hh'
      simp [unmarshalTrace_marshalTrace]
    obtain ⟨more, h1, h2⟩ := decodeHits_all (unmarshalTrace nilDoc) query.Limit result.hits 0 []
      hdec
    have hdata : pageData (unmarshalTrace nilDoc) query.Limit result = some more := by
      unfold pageData
      rw [if_pos htotal, int64_of_lt query.Limit hlimit, h1]
      simp
    refine ⟨_, SearchDeviceTrace_ok esTraceStore searchDo (unmarshalTrace nilDoc) ctx query
      includeTotalCount result more hdo hdata hcursor, rfl, ?_⟩
    simp only [Nat.sub_zero, hhits, ← List.map_take, List.map_map] at h2
    have h3 : more = (logs.take query.Limit).map (fun log => traceResponse
        { log with Timestring := Date log.Timestamp, CreatedAt := Date log.CloudTimestamp }) := by
      apply List.map_injective_iff.mpr (Option.some_injective _)
      rw [← h2, List.map_map]
      apply List.map_congr_left
      intro t _
      simp [unmarshalTrace_marshalTrace]
    simp only [h3, List.map_map]
    apply List.map_congr_left
    intro t _
    rfl

/-- One record written and read back meets the hypotheses of C17. -/
theorem C17_round_trip_witness :
    ∃ out, SearchDeviceTrace exampleStore
        (fun _ _ => .ok ⟨(buildBulkRequest exampleStore
          (bulkClient (fun _ _ => .ok ⟨false, []⟩)) [exampleTrace]).actions.map marshalTrace, 1⟩)
        (unmarshalTrace ()) Context.Background exampleQuery true = .returns out ∧
      out.err = none ∧
      out.page.Data.map (fun r => (r.DeviceID, r.AccountID, r.Typ, r.Trace)) =
        ([exampleTrace].take exampleQuery.Limit).map
          (fun t => (t.DeviceID, t.AccountID, t.Typ, t.Trace)) :=
  (C17_round_trip () exampleStore exampleStore (fun _ _ => .ok ⟨false, []⟩)
    (fun _ _ => .ok ⟨(buildBulkRequest exampleStore
      (bulkClient (fun _ _ => .ok ⟨false, []⟩)) [exampleTrace]).actions.map marshalTrace, 1⟩)
    Context.Background exampleQuery true _ rfl).2 [exampleTrace] rfl (by decide) (by decide)
    (by decide)

end Storage

namespace Routes

open Muuid Storage

/-! ## The POST handler (claim C20) -/

theorem MinTime_unixNano : MinTime.unixNano = 0 := by decide

theorem MaxTime_unixNano : MaxTime.unixNano = 9223372036854 * 1000000 := by decide

/-- The stored `Timestamp` of a record whose parsed instant is in the supported
range: the instant in whole milliseconds. -/
theorem newTrace_Timestamp {Doc : Type} (generator : MUUIDGenerator) (nowMs : Int)
    (deviceID accountID : String) (timestamp : Time) (log : PostTrace Doc)
    (h0 : 0 ≤ timestamp.unixNano) (h1 : timestamp.unixNano ≤ 9223372036854 * 1000000) :
    (newTrace generator nowMs deviceID accountID timestamp log).1.Timestamp =
      timestamp.unixNano / 1000000 ∧
    0 ≤ (newTrace generator nowMs deviceID accountID timestamp log).1.Timestamp ∧
    (newTrace generator nowMs deviceID accountID timestamp log).1.Timestamp ≤ MaxTimestamp := by
  have e1 : Storage.int64 timestamp.unixNano = timestamp.unixNano := by
    unfold Storage.int64
    omega
  have e2 : Int.tdiv timestamp.unixNano 1000000 = timestamp.unixNano / 1000000 :=
    Int.tdiv_eq_ediv h0 (by norm_num)
  have e3 : Storage.int64 (timestamp.unixNano / 1000000) = timestamp.unixNano / 1000000 := by
    unfold Storage.int64
    omega
  have e : (newTrace generator nowMs deviceID accountID timestamp log).1.Timestamp =
      timestamp.unixNano / 1000000 := by
    show Storage.int64 (Int.tdiv timestamp.UnixNano 1000000) = _
    unfold Time.UnixNano
    rw [e1, e2, e3]
  rw [e]
  unfold MaxTimestamp
  refine ⟨rfl, ?_, ?_⟩ <;> omega

/-- The loop of the POST handler stops with an error as soon as an entry is
refused. -/
theorem buildLogs_refused {Doc : Type} (env : PostEnv Doc) (requestID accountID deviceID : String) :
    ∀ (logs : List (PostTrace Doc)) (index : Nat) (generator : MUUIDGenerator),
    (∃ log ∈ logs, Refused env log) →
    ∃ e, (buildLogs env requestID accountID deviceID logs index generator).1 = .error e := by
  intro logs
  induction logs with
  | nil => intro index generator h; simp at h
  | cons log rest ih =>
    intro index generator h
    rw [buildLogs]
    cases hp : env.parseRFC3339 log.Timestamp with
    | none => exact ⟨_, rfl⟩
    | some timestamp =>
      simp only []
      by_cases hr : (timeBefore timestamp MinTime || timeAfter timestamp MaxTime) = true
      · rw [if_pos hr]
        exact ⟨_, rfl⟩
      · rw [if_neg hr]
        have hrest : ∃ l ∈ rest, Refused env l := by
          obtain ⟨l, hl, hbad⟩ := h
          simp only [List.mem_cons] at hl
          rcases hl with rfl | hl
          · exfalso
            apply hr
            unfold Refused at hbad
            rw [hp] at hbad
            rcases hbad with hbad | ⟨t, ht, hbad⟩
            · cases hbad
            · injection ht with ht
              subst ht
              simp only [timeBefore, timeAfter, MinTime_unixNano, MaxTime_unixNano,
                Bool.or_eq_true, decide_eq_true_eq]
              unfold MaxTimestamp at hbad
              omega
          · exact ⟨l, hl, hbad⟩
        obtain ⟨e, he⟩ := ih (index + 1)
          (newTrace generator (env.clock index) deviceID accountID timestamp log).2 hrest
        revert he
        cases buildLogs env requestID accountID deviceID rest (index + 1)
          (newTrace generator (env.clock index) deviceID accountID timestamp log).2 with
        | mk r g =>
          intro he
          simp only at he
          subst he
          exact ⟨e, rfl⟩

/-- The records the loop of the POST handler builds, when it builds them, are
entry by entry those of accepted entries. -/
theorem buildLogs_ok {Doc : Type} (env : PostEnv Doc) (requestID accountID deviceID : String) :
    ∀ (logs : List (PostTrace Doc)) (index : Nat) (generator : MUUIDGenerator)
      (Logs : List (Trace Doc)),
    (buildLogs env requestID accountID deviceID logs index generator).1 = .ok Logs →
    List.Forall₂ (Accepted env) logs Logs := by
  intro logs
  induction logs with
  | nil =>
    intro index generator Logs h
    simp only [buildLogs] at h
    injection h with h
    subst h
    exact List.Forall₂.nil
  | cons log rest ih =>
    intro index generator Logs h
    rw [buildLogs] at h
    cases hp : env.parseRFC3339 log.Timestamp with
    | none => simp [hp] at h
    | some timestamp =>
      simp only [hp] at h
      by_cases hr : (timeBefore timestamp MinTime || timeAfter timestamp MaxTime) = true
      · rw [if_pos hr] at h
        cases h
      · rw [if_neg hr] at h
        simp only [timeBefore, timeAfter, MinTime_unixNano, MaxTime_unixNano,
          Bool.or_eq_true, decide_eq_true_eq, not_or, not_lt] at hr
        have hts := newTrace_Timestamp generator (env.clock index) deviceID accountID timestamp
          log hr.1 (by omega)
        have ih' := ih (index + 1)
          (newTrace generator (env.clock index) deviceID accountID timestamp log).2
        revert h ih'
        cases buildLogs env requestID accountID deviceID rest (index + 1)
          (newTrace generator (env.clock index) deviceID accountID timestamp log).2 with
        | mk r g =>
          cases r with
          | error e => intro h; cases h
          | ok restLogs =>
            intro h ih'
            simp only at h
            injection h with h
            subst h
            exact List.Forall₂.cons ⟨timestamp, hp, hts.1, hts.2.1, hts.2.2⟩ (ih' restLogs rfl)

/-- When no entry is refused the loop of the POST handler builds a record for
every entry. -/
theorem buildLogs_accepts {Doc : Type} (env : PostEnv Doc)
    (requestID accountID deviceID : String) :
    ∀ (logs : List (PostTrace Doc)) (index : Nat) (generator : MUUIDGenerator),
    (∀ log ∈ logs, ¬ Refused env log) →
    ∃ Logs, (buildLogs env requestID accountID deviceID logs index generator).1 = .ok Logs := by
  intro logs
  induction logs with
  | nil => intro index generator _; exact ⟨[], rfl⟩
  | cons log rest ih =>
    intro index generator h
    have hlog := h log (by simp)
    rw [buildLogs]
    cases hp : env.parseRFC3339 log.Timestamp with
    | none => exact absurd (Or.inl hp) hlog
    | some timestamp =>
      simp only []
      have hr : ¬ (timeBefore timestamp MinTime || timeAfter timestamp MaxTime) = true := by
        intro hr
        apply hlog
        right
        refine ⟨timestamp, hp, ?_⟩
        simp only [timeBefore, timeAfter, MinTime_unixNano, MaxTime_unixNano,
          Bool.or_eq_true, decide_eq_true_eq] at hr
        unfold MaxTimestamp
        omega
      rw [if_neg hr]
      obtain ⟨restLogs, hrest⟩ := ih (index + 1)
        (newTrace generator (env.clock index) deviceID accountID timestamp log).2
        (fun l hl => h l (by simp [hl]))
      revert hrest
      cases buildLogs env requestID accountID deviceID rest (index + 1)
        (newTrace generator (env.clock index) deviceID accountID timestamp log).2 with
      | mk r g =>
        intro hrest
        simp only at hrest
        subst hrest
        exact ⟨_, rfl⟩

/-- C20: for every POST body that decodes to a batch of entries: if some
entry's timestamp is refused (not parseable as RFC3339, before the epoch or
after 9223372036854 ms) the handler answers 400 and never calls
`AddDeviceTrace`; if none is refused, the relay id is not empty and the batch
is not empty, it calls `AddDeviceTrace` once; and the records of every call it
makes are, entry by entry, those of the batch, each with `Timestamp` equal to
the parsed instant in whole milliseconds since the epoch, in
`[0, 9223372036854]`. -/
theorem C20_post_timestamps {Doc : Type} (env : PostEnv Doc) (generator : MUUIDGenerator)
    (requestID accountID deviceID data : String) (logs : List (PostTrace Doc))
    (hdec : env.UnmarshalJSON data = .ok logs) :
    ((∃ log ∈ logs, Refused env log) →
      (postHandler env generator requestID accountID deviceID (.ok data)).status = 400 ∧
      (postHandler env generator requestID accountID deviceID (.ok data)).addCalls = []) ∧
    ((∀ log ∈ logs, ¬ Refused env log) → deviceID ≠ "" → logs ≠ [] →
      ∃ ctx Logs,
        (postHandler env generator requestID accountID deviceID (.ok data)).addCalls =
          [(ctx, Logs)] ∧
        List.Forall₂ (Accepted env) logs Logs) ∧
    (∀ call ∈ (postHandler env generator requestID accountID deviceID (.ok data)).addCalls,
      List.Forall₂ (Accepted env) logs call.2) := by
  have hdev : deviceID.data.length = 0 ↔ deviceID = "" := by
    rw [List.length_eq_zero]
    constructor
    · intro h
      exact String.ext h
    · intro h
      rw [h]
  unfold postHandler
  simp only [hdec]
  by_cases hd : deviceID.data.length = 0
  · rw [if_pos hd]
    refine ⟨fun _ => ⟨rfl, rfl⟩, fun _ hne _ => absurd (hdev.mp hd) hne, ?_⟩
    intro call hcall
    simp at hcall
  · rw [if_neg hd]
    have hok := buildLogs_ok env requestID accountID deviceID logs 0 generator
    have hrefused := buildLogs_refused env requestID accountID deviceID logs 0 generator
    have haccepts := buildLogs_accepts env requestID accountID deviceID logs 0 generator
    revert hok hrefused haccepts
    cases buildLogs env requestID accountID deviceID logs 0 generator with
    | mk r g =>
      cases r with
      | error e =>
        intro hok hrefused haccepts
        refine ⟨fun _ => ⟨rfl, rfl⟩, ?_, ?_⟩
        · intro hall _ _
          obtain ⟨Logs, hLogs⟩ := haccepts hall
          cases hLogs
        · intro call hcall
          simp at hcall
      | ok Logs =>
        intro hok hrefused haccepts
        have hforall := hok Logs rfl
        refine ⟨?_, ?_, ?_⟩
        · intro hbad
          obtain ⟨e, he⟩ := hrefused hbad
          cases he
        · intro _ _ hne
          have hlen : logs.length > 0 := List.length_pos.mpr hne
          simp only [hlen, if_true]
          cases env.AddDeviceTrace
            (Context.WithTimeout (buildContextWithValue requestID accountID) CtxTimeout) Logs with
          | none => exact ⟨_, Logs, rfl, hforall⟩
          | some err => exact ⟨_, Logs, rfl, hforall⟩
        · intro call hcall
          by_cases hlen : logs.length > 0
          · simp only [hlen, if_true] at hcall
            cases hadd : env.AddDeviceTrace
              (Context.WithTimeout (buildContextWithValue requestID accountID) CtxTimeout)
              Logs with
            | none =>
              simp only [hadd, List.mem_singleton] at hcall
              subst hcall
              exact hforall
            | some err =>
              simp only [hadd, List.mem_singleton] at hcall
              subst hcall
              exact hforall
          · simp only [hlen, if_false] at hcall
            simp at hcall

/-- A body of two entries in the supported range is written as two records
with the timestamps 1672531200000 and 1685620800500 ms; the same body with a
second entry after the supported maximum is answered 400 and nothing is
written. -/
theorem C20_post_timestamps_witness :
    ((postHandler examplePostEnv (newGenerator exampleMAC 1) "r1" "a1" "d1"
        (.ok "body")).addCalls.map (fun call => call.2.map (fun record => record.Timestamp)) =
      [[1672531200000, 1685620800500]]) ∧
    ((postHandler examplePostEnvBad (newGenerator exampleMAC 1) "r1" "a1" "d1"
        (.ok "body")).status = 400 ∧
     (postHandler examplePostEnvBad (newGenerator exampleMAC 1) "r1" "a1" "d1"
        (.ok "body")).addCalls = []) :=
  ⟨by decide,
    (C20_post_timestamps examplePostEnvBad (newGenerator exampleMAC 1) "r1" "a1" "d1" "body"
      [⟨"2023-01-01T00:00:00Z", (), "x"⟩, ⟨"2262-04-12T00:00:00Z", (), "y"⟩] rfl).1
      ⟨⟨"2262-04-12T00:00:00Z", (), "y"⟩, by simp,
        Or.inr ⟨Time.Unix 9223372800 0, by decide, Or.inr (by decide)⟩⟩⟩

end Routes

namespace Routes

open Muuid Storage

/-! ## The GET handlers (claims C18 and C19) -/

/-- What an accepted query field did to the local variables. -/
theorem checkField_accepted {Doc : Type} (env : GetEnv Doc) (p p' : TraceParams)
    (field value : String) (h : checkField env p field value = .accepted p') :
    (field = "timestamp__gte" ∧ env.parseRFC3339 value = some p'.afterTime ∧
      p' = { p with afterTime := p'.afterTime }) ∨
    (field = "timestamp__lte" ∧ env.parseRFC3339 value = some p'.beforeTime ∧
      p' = { p with beforeTime := p'.beforeTime }) ∨
    (field = "type__eq" ∧ value ≠ "" ∧ p' = { p with typ := value }) ∨
    (field = "limit" ∧ value ≠ "" ∧ env.parseUint value = .ok p'.limit ∧
      MinLimit ≤ p'.limit ∧ p'.limit ≤ MaxLimit ∧ p' = { p with limit := p'.limit }) ∨
    (field = "order" ∧ value ≠ "" ∧
      ((toLower value = "asc" ∧ p' = { p with sort := true }) ∨
       (toLower value = "desc" ∧ p' = p))) ∨
    (field = "after" ∧ value ≠ "" ∧ isValidUUID value = true ∧
      p' = { p with after := some [toLower value] }) ∨
    (field = "include" ∧ value ≠ "" ∧
      p' = { p with includeTotal := p.includeTotal || decide (value = "total_count") }) := by
  by_cases h1 : field = "timestamp__gte"
  · subst h1
    left
    cases hp : env.parseRFC3339 value with
    | none => simp [checkField, hp] at h
    | some t =>
      simp only [checkField, if_true, hp, FieldCheck.accepted.injEq] at h
      subst h
      exact ⟨rfl, rfl, rfl⟩
  by_cases h2 : field = "timestamp__lte"
  · subst h2
    right; left
    cases hp : env.parseRFC3339 value with
    | none => simp [checkField, hp] at h
    | some t =>
      simp [checkField, hp] at h
      subst h
      exact ⟨rfl, rfl, rfl⟩
  by_cases h3 : field = "type__eq"
  · subst h3
    right; right; left
    by_cases hv : value = ""
    · simp [checkField, hv] at h
    · simp [checkField, hv] at h
      subst h
      exact ⟨rfl, hv, rfl⟩
  by_cases h4 : field = "limit"
  · subst h4
    right; right; right; left
    by_cases hv : value = ""
    · simp [checkField, hv] at h
    · cases hp : env.parseUint value with
      | error msg => simp [checkField, hv, hp] at h
      | ok limit =>
        by_cases hl : limit > MaxLimit ∨ limit < MinLimit
        · simp [checkField, hv, hp, hl] at h
        · simp only [checkField, hv, hp, if_neg hl, FieldCheck.accepted.injEq] at h
          simp [hv] at h
          subst h
          simp only [not_or, not_lt, gt_iff_lt] at hl
          exact ⟨rfl, hv, rfl, hl.2, hl.1, rfl⟩
  by_cases h5 : field = "order"
  · subst h5
    right; right; right; right; left
    by_cases hv : value = ""
    · simp [checkField, hv] at h
    · by_cases ha : toLower value = "asc"
      · simp [checkField, hv, ha] at h
        subst h
        exact ⟨rfl, hv, Or.inl ⟨ha, rfl⟩⟩
      · by_cases hd : toLower value = "desc"
        · simp [checkField, hv, ha, hd] at h
          subst h
          exact ⟨rfl, hv, Or.inr ⟨hd, rfl⟩⟩
        · simp [checkField, hv, ha, hd] at h
  by_cases h6 : field = "after"
  · subst h6
    right; right; right; right; right; left
    by_cases hv : value = ""
    · simp [checkField, hv] at h
    · by_cases hu : isValidUUID value = true
      · simp [checkField, hv, hu] at h
        subst h
        exact ⟨rfl, hv, hu, rfl⟩
      · simp [checkField, hv, hu] at h
  by_cases h7 : field = "include"
  · subst h7
    right; right; right; right; right; right
    by_cases hv : value = ""
    · simp [checkField, hv] at h
    · by_cases ht : value = "total_count"
      · simp [checkField, hv, ht] at h
        subst h
        exact ⟨rfl, hv, by simp [ht]⟩
      · simp [checkField, hv, ht] at h
        subst h
        exact ⟨rfl, hv, by simp [ht]⟩
  simp [checkField, h1, h2, h3, h4, h5, h6, h7] at h

theorem verifyFields_cons_ok {Doc : Type} (env : GetEnv Doc) (requestID : String)
    (k v : String) (rest : List (String × String)) (p p' : TraceParams)
    (h : verifyFields env requestID ((k, v) :: rest) p = .ok p') :
    ∃ p1, checkField env p k v = .accepted p1 ∧ verifyFields env requestID rest p1 = .ok p' := by
  rw [verifyFields] at h
  cases hc : checkField env p k v with
  | accepted p1 =>
    rw [hc] at h
    exact ⟨p1, rfl, h⟩
  | fieldErr msg => rw [hc] at h; cases h
  | unknownField => rw [hc] at h; cases h

theorem hasField_cons (k v : String) (rest : List (String × String)) (f : String) :
    hasField ((k, v) :: rest) f = (k == f || hasField rest f) := by
  simp [hasField]

/-- A local variable that only the field `f` can change keeps its value when
the query does not have the field `f`. -/
theorem verifyFields_absent {Doc α : Type} (env : GetEnv Doc) (requestID : String)
    (g : TraceParams → α) (f : String)
    (hg : ∀ p p1 k v, checkField env p k v = .accepted p1 → k ≠ f → g p1 = g p) :
    ∀ (query : List (String × String)) (p p' : TraceParams),
    verifyFields env requestID query p = .ok p' → hasField query f = false → g p' = g p := by
  intro query
  induction query with
  | nil =>
    intro p p' h _
    simp only [verifyFields, Except.ok.injEq] at h
    rw [h]
  | cons kv rest ih =>
    obtain ⟨k, v⟩ := kv
    intro p p' h hf
    obtain ⟨p1, hc, hrest⟩ := verifyFields_cons_ok env requestID k v rest p p' h
    rw [hasField_cons, Bool.or_eq_false_iff] at hf
    have hk : k ≠ f := by
      intro e
      simp [e] at hf
    rw [ih p1 p' hrest hf.2, hg p p1 k v hc hk]

/-- A local variable that only the field `f` can change has the value that the
field's value gives it, when the query has the field `f`: `P value before
after` relates the field's value and the variable before and after the loop. -/
theorem verifyFields_present {Doc α : Type} (env : GetEnv Doc) (requestID : String)
    (g : TraceParams → α) (f : String)
    (hg : ∀ p p1 k v, checkField env p k v = .accepted p1 → k ≠ f → g p1 = g p)
    (P : String → α → α → Prop)
    (hP : ∀ p p1 v, checkField env p f v = .accepted p1 → P v (g p) (g p1)) :
    ∀ (query : List (String × String)) (p p' : TraceParams),
    verifyFields env requestID query p = .ok p' → (query.map Prod.fst).Nodup →
    ∀ v, (f, v) ∈ query → P v (g p) (g p') := by
  intro query
  induction query with
  | nil => intro p p' _ _ v hv; simp at hv
  | cons kv rest ih =>
    obtain ⟨k, w⟩ := kv
    intro p p' h hnodup v hv
    obtain ⟨p1, hc, hrest⟩ := verifyFields_cons_ok env requestID k w rest p p' h
    simp only [List.map_cons, List.nodup_cons] at hnodup
    simp only [List.mem_cons, Prod.mk.injEq] at hv
    rcases hv with ⟨rfl, rfl⟩ | hv
    · have habs : hasField rest f = false := by
        simp only [hasField, List.any_eq_false, beq_iff_eq]
        intro kv hkv e
        exact hnodup.1 (List.mem_map.mpr ⟨kv, hkv, e⟩)
      rw [verifyFields_absent env requestID g f hg rest p1 p' hrest habs]
      exact hP p p1 v hc
    · have hk : k ≠ f := by
        intro e
        exact hnodup.1 (List.mem_map.mpr ⟨(f, v), hv, e.symm⟩)
      rw [← hg p p1 k w hc hk]
      exact ih p1 p' hrest hnodup.2 v hv

/-- A query field whose value the loop does not accept makes the loop answer
with an error. -/
theorem verifyFields_rejects {Doc : Type} (env : GetEnv Doc) (requestID : String)
    (f v : String) (hbad : ∀ p p1, checkField env p f v ≠ .accepted p1) :
    ∀ (query : List (String × String)) (p : TraceParams), (f, v) ∈ query →
    ∃ e, verifyFields env requestID query p = .error e ∧ e.Code = 400 := by
  intro query
  induction query with
  | nil => intro p h; simp at h
  | cons kv rest ih =>
    obtain ⟨k, w⟩ := kv
    intro p h
    rw [verifyFields]
    cases hc : checkField env p k w with
    | fieldErr msg => exact ⟨_, rfl, rfl⟩
    | unknownField => exact ⟨_, rfl, rfl⟩
    | accepted p1 =>
      simp only [List.mem_cons, Prod.mk.injEq] at h
      rcases h with ⟨rfl, rfl⟩ | h
      · exact absurd hc (hbad p p1)
      · exact ih p1 h

/-- The fields other than `limit` leave the limit alone. -/
theorem checkField_limit {Doc : Type} (env : GetEnv Doc) (p p1 : TraceParams) (k v : String)
    (h : checkField env p k v = .accepted p1) (hk : k ≠ "limit") : p1.limit = p.limit := by
  rcases checkField_accepted env p p1 k v h with
    ⟨_, _, e⟩ | ⟨_, _, e⟩ | ⟨_, _, e⟩ | ⟨hf, _⟩ | ⟨_, _, ⟨_, e⟩ | ⟨_, e⟩⟩ | ⟨_, _, _, e⟩ | ⟨_, _, e⟩
  · exact (congrArg TraceParams.limit e).trans rfl
  · exact (congrArg TraceParams.limit e).trans rfl
  · exact (congrArg TraceParams.limit e).trans rfl
  · exact absurd hf hk
  · exact (congrArg TraceParams.limit e).trans rfl
  · exact (congrArg TraceParams.limit e).trans rfl
  · exact (congrArg TraceParams.limit e).trans rfl
  · exact (congrArg TraceParams.limit e).trans rfl

/-- The fields other than `order` leave the sort direction alone. -/
theorem checkField_sort {Doc : Type} (env : GetEnv Doc) (p p1 : TraceParams) (k v : String)
    (h : checkField env p k v = .accepted p1) (hk : k ≠ "order") : p1.sort = p.sort := by
  rcases checkField_accepted env p p1 k v h with
    ⟨_, _, e⟩ | ⟨_, _, e⟩ | ⟨_, _, e⟩ | ⟨_, _, _, _, _, e⟩ | ⟨hf, _⟩ | ⟨_, _, _, e⟩ | ⟨_, _, e⟩
  · exact (congrArg TraceParams.sort e).trans rfl
  · exact (congrArg TraceParams.sort e).trans rfl
  · exact (congrArg TraceParams.sort e).trans rfl
  · exact (congrArg TraceParams.sort e).trans rfl
  · exact absurd hf hk
  · exact (congrArg TraceParams.sort e).trans rfl
  · exact (congrArg TraceParams.sort e).trans rfl

/-- The fields other than `after` leave the cursor alone. -/
theorem checkField_after {Doc : Type} (env : GetEnv Doc) (p p1 : TraceParams) (k v : String)
    (h : checkField env p k v = .accepted p1) (hk : k ≠ "after") : p1.after = p.after := by
  rcases checkField_accepted env p p1 k v h with
    ⟨_, _, e⟩ | ⟨_, _, e⟩ | ⟨_, _, e⟩ | ⟨_, _, _, _, _, e⟩ | ⟨_, _, ⟨_, e⟩ | ⟨_, e⟩⟩ |
      ⟨hf, _⟩ | ⟨_, _, e⟩
  · exact (congrArg TraceParams.after e).trans rfl
  · exact (congrArg TraceParams.after e).trans rfl
  · exact (congrArg TraceParams.after e).trans rfl
  · exact (congrArg TraceParams.after e).trans rfl
  · exact (congrArg TraceParams.after e).trans rfl
  · exact (congrArg TraceParams.after e).trans rfl
  · exact absurd hf hk
  · exact (congrArg TraceParams.after e).trans rfl

/-- The fields other than `timestamp__gte` leave the lower time bound alone. -/
theorem checkField_afterTime {Doc : Type} (env : GetEnv Doc) (p p1 : TraceParams) (k v : String)
    (h : checkField env p k v = .accepted p1) (hk : k ≠ "timestamp__gte") :
    p1.afterTime = p.afterTime := by
  rcases checkField_accepted env p p1 k v h with
    ⟨hf, _⟩ | ⟨_, _, e⟩ | ⟨_, _, e⟩ | ⟨_, _, _, _, _, e⟩ | ⟨_, _, ⟨_, e⟩ | ⟨_, e⟩⟩ |
      ⟨_, _, _, e⟩ | ⟨_, _, e⟩
  · exact absurd hf hk
  · exact (congrArg TraceParams.afterTime e).trans rfl
  · exact (congrArg TraceParams.afterTime e).trans rfl
  · exact (congrArg TraceParams.afterTime e).trans rfl
  · exact (congrArg TraceParams.afterTime e).trans rfl
  · exact (congrArg TraceParams.afterTime e).trans rfl
  · exact (congrArg TraceParams.afterTime e).trans rfl
  · exact (congrArg TraceParams.afterTime e).trans rfl

/-- The fields other than `timestamp__lte` leave the upper time bound alone. -/
theorem checkField_beforeTime {Doc : Type} (env : GetEnv Doc) (p p1 : TraceParams) (k v : String)
    (h : checkField env p k v = .accepted p1) (hk : k ≠ "timestamp__lte") :
    p1.beforeTime = p.beforeTime := by
  rcases checkField_accepted env p p1 k v h with
    ⟨_, _, e⟩ | ⟨hf, _⟩ | ⟨_, _, e⟩ | ⟨_, _, _, _, _, e⟩ | ⟨_, _, ⟨_, e⟩ | ⟨_, e⟩⟩ |
      ⟨_, _, _, e⟩ | ⟨_, _, e⟩
  · exact (congrArg TraceParams.beforeTime e).trans rfl
  · exact absurd hf hk
  · exact (congrArg TraceParams.beforeTime e).trans rfl
  · exact (congrArg TraceParams.beforeTime e).trans rfl
  · exact (congrArg TraceParams.beforeTime e).trans rfl
  · exact (congrArg TraceParams.beforeTime e).trans rfl
  · exact (congrArg TraceParams.beforeTime e).trans rfl
  · exact (congrArg TraceParams.beforeTime e).trans rfl

/-- The parameter loop keeps the limit within `[MinLimit, MaxLimit]`. -/
theorem verifyFields_limit_bounds {Doc : Type} (env : GetEnv Doc) (requestID : String) :
    ∀ (query : List (String × String)) (p p' : TraceParams),
    verifyFields env requestID query p = .ok p' →
    MinLimit ≤ p.limit ∧ p.limit ≤ MaxLimit → MinLimit ≤ p'.limit ∧ p'.limit ≤ MaxLimit := by
  intro query
  induction query with
  | nil =>
    intro p p' h hb
    simp only [verifyFields, Except.ok.injEq] at h
    rw [← h]
    exact hb
  | cons kv rest ih =>
    obtain ⟨k, v⟩ := kv
    intro p p' h hb
    obtain ⟨p1, hc, hrest⟩ := verifyFields_cons_ok env requestID k v rest p p' h
    apply ih p1 p' hrest
    by_cases hk : k = "limit"
    · rcases checkField_accepted env p p1 k v hc with
        ⟨hf, _⟩ | ⟨hf, _⟩ | ⟨hf, _⟩ | ⟨_, _, _, h1, h2, _⟩ | ⟨hf, _⟩ | ⟨hf, _⟩ | ⟨hf, _⟩
      · rw [hk] at hf; simp at hf
      · rw [hk] at hf; simp at hf
      · rw [hk] at hf; simp at hf
      · exact ⟨h1, h2⟩
      · rw [hk] at hf; simp at hf
      · rw [hk] at hf; simp at hf
      · rw [hk] at hf; simp at hf
    · rw [checkField_limit env p p1 k v hc hk]
      exact hb

/-- When the parameter loop answers with an error, so does the handler. -/
theorem TraceHandler_error {Doc : Type} (env : GetEnv Doc) (requestID accountID : String)
    (query : List (String × String)) (devices : List String) (e : PublicError)
    (h : verifyFields env requestID query TraceParams.init = .error e) :
    TraceHandler env requestID accountID query devices =
      { status := 400, body := .error e, searchCalls := [] } := by
  unfold TraceHandler
  rw [h]

/-- Every search of `TraceHandler` is made with the query of `storeQuery`. -/
theorem TraceHandler_calls {Doc : Type} (env : GetEnv Doc) (requestID accountID : String)
    (query : List (String × String)) (devices : List String) (p : TraceParams)
    (h : verifyFields env requestID query TraceParams.init = .ok p) :
    ∀ call ∈ (TraceHandler env requestID accountID query devices).searchCalls,
      call = (buildContextWithValue requestID accountID,
        storeQuery query devices accountID p, p.includeTotal) := by
  intro call hcall
  unfold TraceHandler at hcall
  rw [h] at hcall
  simp only at hcall
  split_ifs at hcall
  · simp at hcall
  · simp at hcall
  · revert hcall
    cases env.SearchDeviceTrace (buildContextWithValue requestID accountID)
      (storeQuery query devices accountID p) p.includeTotal with
    | mk results err =>
      cases err with
      | none => intro hcall; simpa using hcall
      | some err => intro hcall; simpa using hcall

/-- The single-trace route searches once, with the query of
`singleTraceQuery`, unless the request has query fields. -/
theorem singleTraceHandler_calls {Doc : Type} (env : GetEnv Doc) (requestID accountID : String)
    (query : List (String × String)) (id : String) (out : GetOutcome Doc)
    (hout : singleTraceHandler env requestID accountID query id = .returns out) :
    (out.searchCalls = [] ∧ query ≠ []) ∨
    (out.searchCalls =
      [(buildContextWithValue requestID accountID, singleTraceQuery accountID id, true)] ∧
      query = []) := by
  unfold singleTraceHandler at hout
  by_cases hq : query.length > 0
  · rw [if_pos hq] at hout
    injection hout with hout
    subst hout
    exact Or.inl ⟨rfl, List.length_pos.mp hq⟩
  · rw [if_neg hq] at hout
    have hnil : query = [] := by
      cases query with
      | nil => rfl
      | cons a b => simp at hq
    right
    refine ⟨?_, hnil⟩
    simp only [] at hout
    generalize env.SearchDeviceTrace (buildContextWithValue requestID accountID)
      (singleTraceQuery accountID id) true = res at hout
    obtain ⟨results, err⟩ := res
    cases err with
    | some err =>
      simp only at hout
      injection hout with hout
      subst hout
      rfl
    | none =>
      simp only at hout
      by_cases hz : results.TotalCount = 0
      · rw [if_pos hz] at hout
        injection hout with hout
        subst hout
        rfl
      · rw [if_neg hz] at hout
        cases hd : results.Data with
        | nil => rw [hd] at hout; cases hout
        | cons first rest =>
          rw [hd] at hout
          simp only at hout
          injection hout with hout
          subst hout
          rfl

/-- C19: every `TraceQuery` that `TraceHandler` or the single-trace route
passes to `SearchDeviceTrace` has `2 ≤ Limit ≤ 1000`: without a `limit`
parameter the limit is 100 (and a request without any parameter does reach the
store, with 100); a `limit` parameter that is empty, does not parse or is
outside `[2, 1000]` is answered 400 without a call of the store; the
single-trace route calls the store with the limit 2. -/
theorem C19_limit_bounds {Doc : Type} (env : GetEnv Doc) (requestID accountID : String)
    (query : List (String × String)) (devices : List String) (id : String) :
    (∀ call ∈ (TraceHandler env requestID accountID query devices).searchCalls,
      2 ≤ call.2.1.Limit ∧ call.2.1.Limit ≤ 1000) ∧
    (hasField query "limit" = false →
      ∀ call ∈ (TraceHandler env requestID accountID query devices).searchCalls,
        call.2.1.Limit = 100) ∧
    ((TraceHandler env requestID accountID [] devices).searchCalls.map
      (fun call => call.2.1.Limit) = [100]) ∧
    (∀ v, ("limit", v) ∈ query →
      (v = "" ∨ (∃ msg, env.parseUint v = .error msg) ∨
        ∃ n, env.parseUint v = .ok n ∧ (n < 2 ∨ 1000 < n)) →
      (TraceHandler env requestID accountID query devices).status = 400 ∧
      (TraceHandler env requestID accountID query devices).searchCalls = []) ∧
    (∀ out, singleTraceHandler env requestID accountID query id = .returns out →
      ∀ call ∈ out.searchCalls, call.2.1.Limit = 2) ∧
    (∀ out, singleTraceHandler env requestID accountID [] id = .returns out →
      out.searchCalls.map (fun call => call.2.1.Limit) = [2]) := by
  refine ⟨?_, ?_, ?_, ?_, ?_, ?_⟩
  · intro call hcall
    cases hv : verifyFields env requestID query TraceParams.init with
    | error e =>
      rw [TraceHandler_error env requestID accountID query devices e hv] at hcall
      simp at hcall
    | ok p =>
      rw [TraceHandler_calls env requestID accountID query devices p hv call hcall]
      exact verifyFields_limit_bounds env requestID query _ p hv (by decide)
  · intro habs call hcall
    cases hv : verifyFields env requestID query TraceParams.init with
    | error e =>
      rw [TraceHandler_error env requestID accountID query devices e hv] at hcall
      simp at hcall
    | ok p =>
      rw [TraceHandler_calls env requestID accountID query devices p hv call hcall]
      exact verifyFields_absent env requestID TraceParams.limit "limit"
        (checkField_limit env) query _ p hv habs
  · unfold TraceHandler
    simp only [verifyFields]
    have h1 : (hasField [] "timestamp__gte" && hasField [] "timestamp__lte" &&
        timeBefore TraceParams.init.beforeTime TraceParams.init.afterTime) = false := by decide
    have h2 : (timeAfter TraceParams.init.afterTime MaxTime ||
        (hasField [] "timestamp__lte" && timeBefore TraceParams.init.beforeTime MinTime)) =
          false := by decide
    simp only [h1, h2, Bool.false_eq_true, if_false]
    cases env.SearchDeviceTrace (buildContextWithValue requestID accountID)
      (storeQuery [] devices accountID TraceParams.init) TraceParams.init.includeTotal with
    | mk results err =>
      cases err <;> rfl
  · intro v hv hbad
    have hrej : ∀ p p1, checkField env p "limit" v ≠ .accepted p1 := by
      intro p p1 hc
      rcases checkField_accepted env p p1 "limit" v hc with
        ⟨hf, _⟩ | ⟨hf, _⟩ | ⟨hf, _⟩ | ⟨_, hne, hparse, h1, h2, _⟩ | ⟨hf, _⟩ | ⟨hf, _⟩ | ⟨hf, _⟩
      · simp at hf
      · simp at hf
      · simp at hf
      · rcases hbad with hbad | ⟨msg, hbad⟩ | ⟨n, hbad, hn⟩
        · exact hne hbad
        · rw [hbad] at hparse; cases hparse
        · rw [hbad] at hparse
          injection hparse with hparse
          subst hparse
          unfold MinLimit at h1
          unfold MaxLimit at h2
          omega
      · simp at hf
      · simp at hf
      · simp at hf
    obtain ⟨e, he, _⟩ := verifyFields_rejects env requestID "limit" v hrej query
      TraceParams.init hv
    rw [TraceHandler_error env requestID accountID query devices e he]
    exact ⟨rfl, rfl⟩
  · intro out hout call hcall
    rcases singleTraceHandler_calls env requestID accountID query id out hout with h | h
    · rw [h.1] at hcall
      simp at hcall
    · rw [h.1] at hcall
      simp only [List.mem_singleton] at hcall
      subst hcall
      rfl
  · intro out hout
    rcases singleTraceHandler_calls env requestID accountID [] id out hout with h | h
    · exact absurd rfl h.2
    · rw [h.1]
      rfl

theorem hasField_of_mem (query : List (String × String)) (f v : String)
    (h : (f, v) ∈ query) : hasField query f = true := by
  simp only [hasField, List.any_eq_true, beq_iff_eq]
  exact ⟨(f, v), h, rfl⟩

theorem mem_of_hasField (query : List (String × String)) (f : String)
    (h : hasField query f = true) : ∃ v, (f, v) ∈ query := by
  simp only [hasField, List.any_eq_true, beq_iff_eq] at h
  obtain ⟨⟨k, v⟩, hkv, hk⟩ := h
  simp only at hk
  subst hk
  exact ⟨v, hkv⟩

/-- The lower time bound after the loop is the parsed `timestamp__gte`. -/
theorem verifyFields_afterTime {Doc : Type} (env : GetEnv Doc) (requestID : String)
    (query : List (String × String)) (p p' : TraceParams)
    (h : verifyFields env requestID query p = .ok p') (hkeys : (query.map Prod.fst).Nodup)
    (v : String) (hv : ("timestamp__gte", v) ∈ query) :
    env.parseRFC3339 v = some p'.afterTime := by
  refine verifyFields_present env requestID TraceParams.afterTime "timestamp__gte"
    (checkField_afterTime env) (fun v _ t => env.parseRFC3339 v = some t) ?_ query p p' h hkeys
    v hv
  intro p p1 v hc
  rcases checkField_accepted env p p1 "timestamp__gte" v hc with
    ⟨_, e, _⟩ | ⟨hf, _⟩ | ⟨hf, _⟩ | ⟨hf, _⟩ | ⟨hf, _⟩ | ⟨hf, _⟩ | ⟨hf, _⟩
  · exact e
  all_goals simp at hf

/-- The upper time bound after the loop is the parsed `timestamp__lte`. -/
theorem verifyFields_beforeTime {Doc : Type} (env : GetEnv Doc) (requestID : String)
    (query : List (String × String)) (p p' : TraceParams)
    (h : verifyFields env requestID query p = .ok p') (hkeys : (query.map Prod.fst).Nodup)
    (v : String) (hv : ("timestamp__lte", v) ∈ query) :
    env.parseRFC3339 v = some p'.beforeTime := by
  refine verifyFields_present env requestID TraceParams.beforeTime "timestamp__lte"
    (checkField_beforeTime env) (fun v _ t => env.parseRFC3339 v = some t) ?_ query p p' h hkeys
    v hv
  intro p p1 v hc
  rcases checkField_accepted env p p1 "timestamp__lte" v hc with
    ⟨hf, _⟩ | ⟨_, e, _⟩ | ⟨hf, _⟩ | ⟨hf, _⟩ | ⟨hf, _⟩ | ⟨hf, _⟩ | ⟨hf, _⟩
  · simp at hf
  · exact e
  all_goals simp at hf

/-- The limit after the loop is the parsed `limit`. -/
theorem verifyFields_limit {Doc : Type} (env : GetEnv Doc) (requestID : String)
    (query : List (String × String)) (p p' : TraceParams)
    (h : verifyFields env requestID query p = .ok p') (hkeys : (query.map Prod.fst).Nodup)
    (v : String) (hv : ("limit", v) ∈ query) :
    env.parseUint v = .ok p'.limit := by
  refine verifyFields_present env requestID TraceParams.limit "limit"
    (checkField_limit env) (fun v _ l => env.parseUint v = .ok l) ?_ query p p' h hkeys v hv
  intro p p1 v hc
  rcases checkField_accepted env p p1 "limit" v hc with
    ⟨hf, _⟩ | ⟨hf, _⟩ | ⟨hf, _⟩ | ⟨_, _, e, _⟩ | ⟨hf, _⟩ | ⟨hf, _⟩ | ⟨hf, _⟩
  · simp at hf
  · simp at hf
  · simp at hf
  · exact e
  all_goals simp at hf

/-- The sort direction after the loop is ascending iff `order` is `asc` in
any letter case, or it was ascending before. -/
theorem verifyFields_sort {Doc : Type} (env : GetEnv Doc) (requestID : String)
    (query : List (String × String)) (p p' : TraceParams)
    (h : verifyFields env requestID query p = .ok p') (hkeys : (query.map Prod.fst).Nodup)
    (v : String) (hv : ("order", v) ∈ query) :
    p'.sort = (decide (toLower v = "asc") || p.sort) := by
  refine verifyFields_present env requestID TraceParams.sort "order"
    (checkField_sort env) (fun v s s' => s' = (decide (toLower v = "asc") || s)) ?_ query p p' h
    hkeys v hv
  intro p p1 v hc
  rcases checkField_accepted env p p1 "order" v hc with
    ⟨hf, _⟩ | ⟨hf, _⟩ | ⟨hf, _⟩ | ⟨hf, _⟩ | ⟨_, _, ⟨ha, e⟩ | ⟨hd, e⟩⟩ | ⟨hf, _⟩ | ⟨hf, _⟩
  · simp at hf
  · simp at hf
  · simp at hf
  · simp at hf
  · rw [e]; simp [ha]
  · rw [e]
    have : toLower v ≠ "asc" := by rw [hd]; decide
    simp [this]
  all_goals simp at hf

/-- The cursor after the loop is the `after` parameter in lower case. -/
theorem verifyFields_after {Doc : Type} (env : GetEnv Doc) (requestID : String)
    (query : List (String × String)) (p p' : TraceParams)
    (h : verifyFields env requestID query p = .ok p') (hkeys : (query.map Prod.fst).Nodup)
    (v : String) (hv : ("after", v) ∈ query) :
    p'.after = some [toLower v] ∧ isValidUUID v = true := by
  refine verifyFields_present env requestID TraceParams.after "after"
    (checkField_after env) (fun v _ a => a = some [toLower v] ∧ isValidUUID v = true) ?_ query p
    p' h hkeys v hv
  intro p p1 v hc
  rcases checkField_accepted env p p1 "after" v hc with
    ⟨hf, _⟩ | ⟨hf, _⟩ | ⟨hf, _⟩ | ⟨hf, _⟩ | ⟨hf, _⟩ | ⟨_, _, hu, e⟩ | ⟨hf, _⟩
  · simp at hf
  · simp at hf
  · simp at hf
  · simp at hf
  · simp at hf
  · rw [e]; exact ⟨rfl, hu⟩
  · simp at hf

end Routes

namespace Routes
open Muuid Storage

/-- C18: a GET trace request whose fields all pass the parameter loop and
whose time range is not inverted (an otherwise-valid request), and whose
`timestamp__gte` is an instant after `MaxTimestamp` (9223372036854 ms since the
epoch) or whose `timestamp__lte` is supplied and is an instant before the
epoch, is answered with status 200 and a page with object "list", has_more
false, no data and a zero total count, without any call of
`SearchDeviceTrace`.  The page echoes the request: its limit is the parsed
`limit` field (100 without one), its order is "ASC" when the `order` field is
`asc` in any letter case and "DESC" otherwise, and its `after` is the `after`
field in lower case (absent without one). -/
theorem C18_boundary_short_circuit {Doc : Type} (env : GetEnv Doc)
    (requestID accountID : String) (query : List (String × String)) (devices : List String)
    (p : TraceParams)
    (hkeys : (query.map Prod.fst).Nodup)
    (hvalid : verifyFields env requestID query TraceParams.init = .ok p)
    (hrange : ∀ v t w u, ("timestamp__gte", v) ∈ query → env.parseRFC3339 v = some t →
      ("timestamp__lte", w) ∈ query → env.parseRFC3339 w = some u → t.unixNano ≤ u.unixNano)
    (hout : (∃ v t, ("timestamp__gte", v) ∈ query ∧ env.parseRFC3339 v = some t ∧
        MaxTimestamp * 1000000 < t.unixNano) ∨
      (∃ w u, ("timestamp__lte", w) ∈ query ∧ env.parseRFC3339 w = some u ∧ u.unixNano < 0)) :
    ∃ page : TracePage Doc String,
      TraceHandler env requestID accountID query devices =
        { status := 200, body := .page page, searchCalls := [] } ∧
      page.Object = "list" ∧ page.HasMore = false ∧ page.Data = [] ∧ page.TotalCount = 0 ∧
      (hasField query "limit" = false → page.Limit = 100) ∧
      (∀ v, ("limit", v) ∈ query → env.parseUint v = .ok page.Limit) ∧
      (hasField query "order" = false → page.Order = "DESC") ∧
      (∀ v, ("order", v) ∈ query →
        page.Order = if toLower v = "asc" then "ASC" else "DESC") ∧
      (hasField query "after" = false → page.After = none) ∧
      (∀ v, ("after", v) ∈ query → page.After = some (toLower v)) := by
  have h1 : (hasField query "timestamp__gte" && hasField query "timestamp__lte" &&
      timeBefore p.beforeTime p.afterTime) = false := by
    rw [Bool.eq_false_iff]
    intro h
    simp only [Bool.and_eq_true, timeBefore, decide_eq_true_eq] at h
    obtain ⟨⟨hg, hl⟩, hlt⟩ := h
    obtain ⟨v, hv⟩ := mem_of_hasField query _ hg
    obtain ⟨w, hw⟩ := mem_of_hasField query _ hl
    have ev := verifyFields_afterTime env requestID query _ p hvalid hkeys v hv
    have ew := verifyFields_beforeTime env requestID query _ p hvalid hkeys w hw
    have := hrange v _ w _ hv ev hw ew
    omega
  have h2 : (timeAfter p.afterTime MaxTime ||
      (hasField query "timestamp__lte" && timeBefore p.beforeTime MinTime)) = true := by
    rcases hout with ⟨v, t, hv, et, ht⟩ | ⟨w, u, hw, eu, hu⟩
    · have ev := verifyFields_afterTime env requestID query _ p hvalid hkeys v hv
      rw [et] at ev
      cases ev
      have : MaxTimestamp = 9223372036854 := rfl
      simp only [Bool.or_eq_true, timeAfter, decide_eq_true_eq, MaxTime_unixNano]
      left
      omega
    · have ew := verifyFields_beforeTime env requestID query _ p hvalid hkeys w hw
      rw [eu] at ew
      cases ew
      simp only [Bool.or_eq_true, Bool.and_eq_true, timeBefore, decide_eq_true_eq,
        MinTime_unixNano]
      right
      exact ⟨hasField_of_mem query _ w hw, hu⟩
  refine ⟨emptyPage p, ?_, rfl, rfl, rfl, rfl, ?_, ?_, ?_, ?_, ?_, ?_⟩
  · simp only [TraceHandler, hvalid, h1, h2]
    simp
  · intro h
    have := verifyFields_absent env requestID TraceParams.limit "limit" (checkField_limit env)
      query _ p hvalid h
    simp only [emptyPage]
    rw [this]
    rfl
  · intro v hv
    exact verifyFields_limit env requestID query _ p hvalid hkeys v hv
  · intro h
    have := verifyFields_absent env requestID TraceParams.sort "order" (checkField_sort env)
      query _ p hvalid h
    simp only [emptyPage]
    rw [this]
    rfl
  · intro v hv
    have := verifyFields_sort env requestID query _ p hvalid hkeys v hv
    simp only [emptyPage]
    rw [this]
    by_cases ha : toLower v = "asc"
    · simp [ha]
    · simp [ha, TraceParams.init, DefalutSort]
  · intro h
    have := verifyFields_absent env requestID TraceParams.after "after" (checkField_after env)
      query _ p hvalid h
    simp only [emptyPage]
    rw [this]
    rfl
  · intro v hv
    have := (verifyFields_after env requestID query _ p hvalid hkeys v hv).1
    simp only [emptyPage]
    rw [this]

theorem C18_boundary_short_circuit_witness :
    ∃ page : TracePage Unit String,
      TraceHandler exampleGetEnv "r1" "a1"
          [("timestamp__gte", "2262-04-12T00:00:00Z"), ("limit", "7"), ("order", "ASC"),
            ("after", "0123456789ABCDEF0123456789abcdef")] ["d1"] =
        { status := 200, body := .page page, searchCalls := [] } ∧
      page.Object = "list" ∧ page.HasMore = false ∧ page.Data = [] ∧ page.TotalCount = 0 ∧
      (hasField [("timestamp__gte", "2262-04-12T00:00:00Z"), ("limit", "7"), ("order", "ASC"),
            ("after", "0123456789ABCDEF0123456789abcdef")] "limit" = false → page.Limit = 100) ∧
      (∀ v, ("limit", v) ∈ [("timestamp__gte", "2262-04-12T00:00:00Z"), ("limit", "7"),
            ("order", "ASC"), ("after", "0123456789ABCDEF0123456789abcdef")] →
        exampleGetEnv.parseUint v = .ok page.Limit) ∧
      (hasField [("timestamp__gte", "2262-04-12T00:00:00Z"), ("limit", "7"), ("order", "ASC"),
            ("after", "0123456789ABCDEF0123456789abcdef")] "order" = false →
        page.Order = "DESC") ∧
      (∀ v, ("order", v) ∈ [("timestamp__gte", "2262-04-12T00:00:00Z"), ("limit", "7"),
            ("order", "ASC"), ("after", "0123456789ABCDEF0123456789abcdef")] →
        page.Order = if toLower v = "asc" then "ASC" else "DESC") ∧
      (hasField [("timestamp__gte", "2262-04-12T00:00:00Z"), ("limit", "7"), ("order", "ASC"),
            ("after", "0123456789ABCDEF0123456789abcdef")] "after" = false →
        page.After = none) ∧
      (∀ v, ("after", v) ∈ [("timestamp__gte", "2262-04-12T00:00:00Z"), ("limit", "7"),
            ("order", "ASC"), ("after", "0123456789ABCDEF0123456789abcdef")] →
        page.After = some (toLower v)) :=
  C18_boundary_short_circuit exampleGetEnv "r1" "a1"
    [("timestamp__gte", "2262-04-12T00:00:00Z"), ("limit", "7"), ("order", "ASC"),
      ("after", "0123456789ABCDEF0123456789abcdef")] ["d1"]
    { afterTime := Time.Unix 9223372800 0, beforeTime := Time.zero, typ := "",
      after := some ["0123456789abcdef0123456789abcdef"], includeTotal := false, limit := 7,
      sort := true }
    (by decide) (by rfl)
    (by
      intro v t w u _ _ hw
      simp at hw)
    (Or.inl ⟨"2262-04-12T00:00:00Z", Time.Unix 9223372800 0, by simp, by decide, by decide⟩)

end Routes

namespace Httputil

/-! ## The success test of httputil (claim C24) -/

/-- Go `IsSuccessResponse` tests the upper bound only. -/
theorem IsSuccessResponse_eq (resp : Response) :
    IsSuccessResponse resp = decide (resp.StatusCode ≤ 299) := by
  simp [IsSuccessResponse, minSuccessStatusCode, maxSuccessStatusCode]

/-- C24, at the failing input: a response with status 101 (Switching Protocols),
which is below 200, counts as a success, and so does every status up to 299;
the lower bound of the documented interval `[200, 299]` is compared with the
literal 200 and not with the status code. -/
theorem C24_status_below_200_is_success :
    IsSuccessResponse { StatusCode := 101 } = true ∧
    (decide ((200 : Int) ≤ 101 ∧ (101 : Int) ≤ 299) = false) ∧
    IsSuccessResponse { StatusCode := 200 } = true ∧
    IsSuccessResponse { StatusCode := 299 } = true ∧
    IsSuccessResponse { StatusCode := 300 } = false := by
  decide

end Httputil

namespace Storage

/-! ## The backend calls of the store (claims C22, C25, C27, C30) -/

/-- Every return of `SearchDeviceTrace` comes after one search, the request of
`searchRequest`, issued under `context.Background()`. -/
theorem SearchDeviceTrace_calls {Doc Val Source : Type} (esTraceStore : ESTraceStore)
    (searchDo : SearchRequest Val → Context → Except String (SearchResult Source))
    (unmarshal : Source → Option (Trace Doc)) (ctx : Context) (query : TraceQuery Val)
    (includeTotalCount : Bool) (out : SearchOutcome Doc Val)
    (hret : SearchDeviceTrace esTraceStore searchDo unmarshal ctx query includeTotalCount =
      .returns out) :
    out.calls = [(searchRequest esTraceStore query includeTotalCount, Context.Background)] := by
  cases hdo : searchDo (searchRequest esTraceStore query includeTotalCount) Context.Background with
  | error msg =>
    rw [SearchDeviceTrace_query_error esTraceStore searchDo unmarshal ctx query includeTotalCount
      msg hdo] at hret
    injection hret with hret
    rw [← hret]
  | ok result =>
    cases hdata : pageData unmarshal query.Limit result with
    | none =>
      rw [SearchDeviceTrace_decode_error esTraceStore searchDo unmarshal ctx query
        includeTotalCount result hdo hdata] at hret
      injection hret with hret
      rw [← hret]
    | some data =>
      by_cases hc : query.AfterCursor = some []
      · rw [SearchDeviceTrace_panics esTraceStore searchDo unmarshal ctx query includeTotalCount
          result data hdo hdata hc] at hret
        cases hret
      · rw [SearchDeviceTrace_ok esTraceStore searchDo unmarshal ctx query includeTotalCount
          result data hdo hdata hc] at hret
        injection hret with hret
        rw [← hret]

/-- Go `SearchDeviceTrace` returns unless the cursor is an empty slice that is not
nil. -/
theorem SearchDeviceTrace_returns {Doc Val Source : Type} (esTraceStore : ESTraceStore)
    (searchDo : SearchRequest Val → Context → Except String (SearchResult Source))
    (unmarshal : Source → Option (Trace Doc)) (ctx : Context) (query : TraceQuery Val)
    (includeTotalCount : Bool) (hc : query.AfterCursor ≠ some []) :
    ∃ out, SearchDeviceTrace esTraceStore searchDo unmarshal ctx query includeTotalCount =
      .returns out := by
  cases hdo : searchDo (searchRequest esTraceStore query includeTotalCount) Context.Background with
  | error msg =>
    exact ⟨_, SearchDeviceTrace_query_error esTraceStore searchDo unmarshal ctx query
      includeTotalCount msg hdo⟩
  | ok result =>
    cases hdata : pageData unmarshal query.Limit result with
    | none =>
      exact ⟨_, SearchDeviceTrace_decode_error esTraceStore searchDo unmarshal ctx query
        includeTotalCount result hdo hdata⟩
    | some data =>
      exact ⟨_, SearchDeviceTrace_ok esTraceStore searchDo unmarshal ctx query includeTotalCount
        result data hdo hdata hc⟩

/-- C22, at the failing input: `AddDeviceTrace` hands the context of its caller
(here the POST handler's, with its 30 s deadline) to the bulk write, but
`SearchDeviceTrace` hands `context.Background()` to the search, whether it is
called with the context the GET handlers build or with one that carries a
deadline; `context.Background()` is neither. -/
theorem C22_search_runs_under_background :
    (AddDeviceTrace exampleStore (bulkClient (fun _ _ => .ok ⟨false, []⟩))
        (Context.WithTimeout (Routes.buildContextWithValue "r1" "a1") Routes.CtxTimeout)
        [exampleTrace]).calls.map Prod.snd =
      [Context.WithTimeout (Routes.buildContextWithValue "r1" "a1") Routes.CtxTimeout] ∧
    (∃ out, SearchDeviceTrace exampleStore (fun _ _ => .ok ⟨["a"], 1⟩) exampleUnmarshal
        (Routes.buildContextWithValue "r1" "a1") exampleQuery false = .returns out ∧
      out.err = none ∧ out.calls.map Prod.snd = [Context.Background]) ∧
    (∃ out, SearchDeviceTrace exampleStore (fun _ _ => .ok ⟨["a"], 1⟩) exampleUnmarshal
        (Context.WithTimeout (Routes.buildContextWithValue "r1" "a1") Routes.CtxTimeout)
        exampleQuery false = .returns out ∧
      out.err = none ∧ out.calls.map Prod.snd = [Context.Background]) ∧
    Context.Background ≠ Routes.buildContextWithValue "r1" "a1" ∧
    Context.Background ≠
      Context.WithTimeout (Routes.buildContextWithValue "r1" "a1") Routes.CtxTimeout := by
  refine ⟨by decide, ⟨_, rfl, rfl, rfl⟩, ⟨_, rfl, rfl, rfl⟩, by decide, by decide⟩

end Storage

namespace Storage

/-- The request of `searchRequest`, field by field. -/
theorem searchRequest_fields {Val : Type} (esTraceStore : ESTraceStore) (query : TraceQuery Val)
    (includeTotalCount : Bool) :
    (searchRequest esTraceStore query includeTotalCount).size =
      int64 (int64 query.Limit + 1) ∧
    (searchRequest esTraceStore query includeTotalCount).offset = 0 ∧
    (searchRequest esTraceStore query includeTotalCount).sortField = "id" ∧
    (searchRequest esTraceStore query includeTotalCount).sortAscending = query.SortAsc ∧
    (searchRequest esTraceStore query includeTotalCount).searchAfter =
      query.AfterCursor.getD [] := by
  unfold searchRequest
  cases query.AfterCursor <;> cases includeTotalCount <;> simp

/-- C25: for every query whose limit is below `2^63 - 1`, which covers every
limit of the supported range `[2, 1000]`, the request that
`SearchDeviceTrace` issues asks for exactly `limit + 1` hits from offset 0,
sorted by the field `id`, ascending iff `query.Sort` is true; its seek-after
values are the query's cursor when the cursor is present and none when it is
nil.  Every return of `SearchDeviceTrace` comes after exactly this one
request, a successful return carries the order `ASC` when `query.Sort` is
true and `DESC` otherwise, and the call does return when the cursor is nil or
not empty. -/
theorem C25_search_request {Doc Val Source : Type} (esTraceStore : ESTraceStore)
    (searchDo : SearchRequest Val → Context → Except String (SearchResult Source))
    (unmarshal : Source → Option (Trace Doc)) (ctx : Context) (query : TraceQuery Val)
    (includeTotalCount : Bool) (hlimit : query.Limit < 2 ^ 63 - 1) :
    (searchRequest esTraceStore query includeTotalCount).size = (query.Limit : Int) + 1 ∧
    (searchRequest esTraceStore query includeTotalCount).offset = 0 ∧
    (searchRequest esTraceStore query includeTotalCount).sortField = "id" ∧
    (searchRequest esTraceStore query includeTotalCount).sortAscending = query.SortAsc ∧
    (query.AfterCursor = none →
      (searchRequest esTraceStore query includeTotalCount).searchAfter = []) ∧
    (∀ cursor, query.AfterCursor = some cursor →
      (searchRequest esTraceStore query includeTotalCount).searchAfter = cursor) ∧
    (∀ out, SearchDeviceTrace esTraceStore searchDo unmarshal ctx query includeTotalCount =
        .returns out →
      out.calls.map Prod.fst = [searchRequest esTraceStore query includeTotalCount] ∧
      (out.err = none → out.page.Order = if query.SortAsc = true then "ASC" else "DESC")) ∧
    (query.AfterCursor ≠ some [] →
      ∃ out, SearchDeviceTrace esTraceStore searchDo unmarshal ctx query includeTotalCount =
        .returns out) := by
  obtain ⟨hsize, hoff, hfield, hasc, hafter⟩ :=
    searchRequest_fields esTraceStore query includeTotalCount
  refine ⟨?_, hoff, hfield, hasc, ?_, ?_, ?_, ?_⟩
  · rw [hsize, int64_of_lt query.Limit (by omega)]
    unfold int64
    norm_num at hlimit ⊢
    omega
  · intro h
    rw [hafter, h]
    rfl
  · intro cursor h
    rw [hafter, h]
    rfl
  · intro out hret
    refine ⟨?_, ?_⟩
    · rw [SearchDeviceTrace_calls esTraceStore searchDo unmarshal ctx query includeTotalCount out
        hret]
      rfl
    · intro herr
      obtain ⟨result, data, _, _, _, hout⟩ := SearchDeviceTrace_success esTraceStore searchDo
        unmarshal ctx query includeTotalCount out hret herr
      rw [hout]
  · exact SearchDeviceTrace_returns esTraceStore searchDo unmarshal ctx query includeTotalCount

/-- A query with limit 2, ascending order and the cursor `c1` meets the
hypothesis of C25: the request asks for 3 hits from offset 0 by ascending id,
seeking after `c1`. -/
theorem C25_search_request_witness :
    (2 : Nat) < 2 ^ 63 - 1 ∧
    (searchRequest exampleStore
      { exampleQuery with SortAsc := true, AfterCursor := some ["c1"] } false).size = 3 ∧
    (searchRequest exampleStore
      { exampleQuery with SortAsc := true, AfterCursor := some ["c1"] } false).searchAfter =
        ["c1"] :=
  ⟨by decide,
    (C25_search_request exampleStore (fun _ _ => .ok ⟨["a", "b", "c"], 3⟩) exampleUnmarshal
      Context.Background { exampleQuery with SortAsc := true, AfterCursor := some ["c1"] } false
      (by decide)).1,
    (C25_search_request exampleStore (fun _ _ => .ok ⟨["a", "b", "c"], 3⟩) exampleUnmarshal
      Context.Background { exampleQuery with SortAsc := true, AfterCursor := some ["c1"] } false
      (by decide)).2.2.2.2.2.1 ["c1"] rfl⟩

/-- The size of the request at the limit `2^63 - 1`, far outside the supported
range `[2, 1000]`: `int(query.Limit) + 1` wraps to `-2^63`. -/
theorem searchRequest_size_at_max_int :
    (searchRequest exampleStore { exampleQuery with Limit := 2 ^ 63 - 1 } false).size =
      -(2 ^ 63) ∧
    (searchRequest exampleStore { exampleQuery with Limit := 2 ^ 63 - 1 } false).size ≠
      (({ exampleQuery with Limit := 2 ^ 63 - 1 } : TraceQuery String).Limit : Int) + 1 := by
  decide

/-- Go's truncated division by `10^6` in terms of the floor division. -/
theorem tdiv_million (x : Int) :
    Int.tdiv x 1000000 = if 0 ≤ x then x / 1000000 else -((-x) / 1000000) := by
  by_cases h : 0 ≤ x
  · rw [if_pos h, Int.tdiv_eq_ediv h (by norm_num)]
  · rw [if_neg h]
    have e := Int.neg_tdiv (-x) 1000000
    rw [neg_neg] at e
    rw [e, Int.tdiv_eq_ediv (by omega) (by norm_num)]

/-- The millisecond count of an instant whose nanosecond count fits an int64:
the nanosecond count divided by `10^6`, truncated. -/
theorem unixMilliseconds_of_int64 (t : Time) (h0 : -(2 ^ 63) ≤ t.unixNano)
    (h1 : t.unixNano < 2 ^ 63) : unixMilliseconds t = Int.tdiv t.unixNano 1000000 := by
  have e : t.UnixNano = t.unixNano := by
    unfold Time.UnixNano int64
    norm_num at h0 h1 ⊢
    omega
  unfold unixMilliseconds
  rw [e, tdiv_million]
  unfold int64
  norm_num at h0 h1 ⊢
  split_ifs <;> omega

/-- C27: for every query whose `After` and `Before` are both non-zero with
`After` later than `Before`, `buildESBoolQuery` returns a conjunction whose
only time-range criterion is on `timestamp`, with the inclusive lower bound
`unixMilliseconds After` and the inclusive upper bound
`unixMilliseconds Before`: both bounds are kept, each on its own side.  For
instants whose nanosecond count fits an int64 these are the instants in
milliseconds since the epoch (truncated), so the lower bound is not below the
upper one. -/
theorem C27_inverted_range_kept {Val : Type} (query : TraceQuery Val)
    (hafter : query.After.IsZero = false) (hbefore : query.Before.IsZero = false)
    (hinv : query.Before.unixNano < query.After.unixNano) :
    (buildESBoolQuery query).filterClauses =
      [Query.Range
        { name := "timestamp"
          lower := some (unixMilliseconds query.After)
          upper := some (unixMilliseconds query.Before)
          includeLower := true
          includeUpper := true }] ∧
    (∀ r, Query.Range r ∉ (buildESBoolQuery query).mustClauses) ∧
    (-(2 ^ 63) ≤ query.Before.unixNano → query.After.unixNano < 2 ^ 63 →
      unixMilliseconds query.After = Int.tdiv query.After.unixNano 1000000 ∧
      unixMilliseconds query.Before = Int.tdiv query.Before.unixNano 1000000 ∧
      unixMilliseconds query.Before ≤ unixMilliseconds query.After) := by
  refine ⟨?_, ?_, ?_⟩
  · rw [buildESBoolQuery_filterClauses]
    simp [hafter, hbefore]
  · intro r hr
    rw [buildESBoolQuery_mustClauses] at hr
    simp only [List.mem_append] at hr
    rcases hr with ((hr | hr) | hr) | hr <;> split_ifs at hr <;> simp at hr
  · intro h0 h1
    have ea := unixMilliseconds_of_int64 query.After (by omega) h1
    have eb := unixMilliseconds_of_int64 query.Before h0 (by omega)
    refine ⟨ea, eb, ?_⟩
    rw [ea, eb, tdiv_million, tdiv_million]
    split_ifs <;> omega

/-- A query from 2023-01-02 back to 2023-01-01 meets the hypotheses of C27: the
range has the lower bound 1672617600000 and the upper bound 1672531200000. -/
theorem C27_inverted_range_kept_witness :
    (buildESBoolQuery
      { exampleQuery with
        After := Time.Unix 1672617600 0
        Before := Time.Unix 1672531200 0 }).filterClauses =
      [Query.Range
        { name := "timestamp"
          lower := some 1672617600000
          upper := some 1672531200000
          includeLower := true
          includeUpper := true }] :=
  (C27_inverted_range_kept
    { exampleQuery with
      After := Time.Unix 1672617600 0
      Before := Time.Unix 1672531200 0 } (by decide) (by decide) (by decide)).1

/-- C30: for every backend result whose reported total is not positive, in
particular 0: the outcome of `SearchDeviceTrace` is the same whatever the
decoder does, so no hit is decoded; every return is without error, with empty
data and `HasMore` true iff the raw number of hits exceeds the limit; and the
call does return when the cursor is nil or not empty. -/
theorem C30_zero_total_no_data {Doc Val Source : Type} (esTraceStore : ESTraceStore)
    (searchDo : SearchRequest Val → Context → Except String (SearchResult Source))
    (unmarshal : Source → Option (Trace Doc)) (ctx : Context) (query : TraceQuery Val)
    (includeTotalCount : Bool) (result : SearchResult Source)
    (hdo : searchDo (searchRequest esTraceStore query includeTotalCount) Context.Background =
      .ok result)
    (htotal : result.totalHits ≤ 0) :
    (∀ other : Source → Option (Trace Doc),
      SearchDeviceTrace esTraceStore searchDo other ctx query includeTotalCount =
        SearchDeviceTrace esTraceStore searchDo unmarshal ctx query includeTotalCount) ∧
    (∀ out, SearchDeviceTrace esTraceStore searchDo unmarshal ctx query includeTotalCount =
        .returns out →
      out.err = none ∧ out.page.Data = [] ∧
      out.page.HasMore = decide ((result.hits.length : Int) > int64 query.Limit)) ∧
    (query.AfterCursor ≠ some [] →
      ∃ out, SearchDeviceTrace esTraceStore searchDo unmarshal ctx query includeTotalCount =
        .returns out) := by
  have hdata : ∀ u : Source → Option (Trace Doc), pageData u query.Limit result = some [] := by
    intro u
    unfold pageData
    rw [if_neg (by omega)]
  refine ⟨?_, ?_, ?_⟩
  · intro other
    by_cases hc : query.AfterCursor = some []
    · rw [SearchDeviceTrace_panics esTraceStore searchDo other ctx query includeTotalCount
        result [] hdo (hdata other) hc,
        SearchDeviceTrace_panics esTraceStore searchDo unmarshal ctx query includeTotalCount
        result [] hdo (hdata unmarshal) hc]
    · rw [SearchDeviceTrace_ok esTraceStore searchDo other ctx query includeTotalCount
        result [] hdo (hdata other) hc,
        SearchDeviceTrace_ok esTraceStore searchDo unmarshal ctx query includeTotalCount
        result [] hdo (hdata unmarshal) hc]
  · intro out hret
    by_cases hc : query.AfterCursor = some []
    · rw [SearchDeviceTrace_panics esTraceStore searchDo unmarshal ctx query includeTotalCount
        result [] hdo (hdata unmarshal) hc] at hret
      cases hret
    · rw [SearchDeviceTrace_ok esTraceStore searchDo unmarshal ctx query includeTotalCount
        result [] hdo (hdata unmarshal) hc] at hret
      injection hret with hret
      subst hret
      simp only [and_self]
  · exact SearchDeviceTrace_returns esTraceStore searchDo unmarshal ctx query includeTotalCount

/-- A result with three hits, none of which decodes, and the reported total 0
meets the hypotheses of C30: for the limit 2 the page has no data and
`HasMore` is true. -/
theorem C30_zero_total_no_data_witness :
    ∃ out, SearchDeviceTrace exampleStore (fun _ _ => .ok ⟨["bad", "bad", "bad"], 0⟩)
        exampleUnmarshal Context.Background exampleQuery false = .returns out ∧
      out.err = none ∧ out.page.Data = [] ∧ out.page.HasMore = true :=
  ⟨_, rfl,
    (C30_zero_total_no_data exampleStore (fun _ _ => .ok ⟨["bad", "bad", "bad"], 0⟩)
      exampleUnmarshal Context.Background exampleQuery false ⟨["bad", "bad", "bad"], 0⟩ rfl
      (by decide)).2.1 _ rfl⟩

end Storage

namespace Routes

open Muuid Storage

/-! ## The cursor of the GET handlers (claim C21) -/

/-- Lowercasing a hexadecimal digit gives a lowercase hexadecimal digit. -/
theorem isLowerHexChar_toLower (c : Char) (h : isHexChar c = true) :
    isLowerHexChar c.toLower = true := by
  have e : c = Char.ofNat c.toNat := (Char.ofNat_toNat c).symm
  have hb : (48 ≤ c.toNat ∧ c.toNat ≤ 57) ∨ (97 ≤ c.toNat ∧ c.toNat ≤ 102) ∨
      (65 ≤ c.toNat ∧ c.toNat ≤ 70) := by
    simp only [isHexChar, Bool.decide_or, Bool.decide_and, Bool.or_eq_true, Bool.and_eq_true,
      decide_eq_true_eq, Char.le_def, UInt32.le_def] at h
    exact h
  rw [e]
  generalize c.toNat = n at hb
  have : n ≤ 102 := by omega
  interval_cases n <;> first | omega | decide

/-- What `isValidUUID` accepts: exactly 32 characters of `[0-9a-fA-F]`. -/
theorem isValidUUID_iff (v : String) :
    isValidUUID v = true ↔ v.length = 32 ∧ ∀ c ∈ v.data, isHexChar c = true := by
  unfold isValidUUID
  rw [Bool.and_eq_true, decide_eq_true_eq, List.all_eq_true]
  exact Iff.rfl

/-- A valid cursor in lower case: 32 lowercase hexadecimal digits. -/
theorem toLower_of_isValidUUID (v : String) (h : isValidUUID v = true) :
    (toLower v).length = 32 ∧ ∀ c ∈ (toLower v).data, isLowerHexChar c = true := by
  rw [isValidUUID_iff] at h
  refine ⟨?_, ?_⟩
  · show (v.data.map Char.toLower).length = 32
    rw [List.length_map]
    exact h.1
  · intro c hc
    simp only [toLower, List.mem_map] at hc
    obtain ⟨d, hd, rfl⟩ := hc
    exact isLowerHexChar_toLower d (h.2 d hd)

/-- When the `switch` accepts an `after` field. -/
theorem checkField_after_iff {Doc : Type} (env : GetEnv Doc) (p : TraceParams) (v : String) :
    (∃ p1, checkField env p "after" v = .accepted p1) ↔ isValidUUID v = true := by
  constructor
  · rintro ⟨p1, h⟩
    rcases checkField_accepted env p p1 "after" v h with
      ⟨hf, _⟩ | ⟨hf, _⟩ | ⟨hf, _⟩ | ⟨hf, _⟩ | ⟨hf, _⟩ | ⟨_, _, hu, _⟩ | ⟨hf, _⟩
    · simp at hf
    · simp at hf
    · simp at hf
    · simp at hf
    · simp at hf
    · exact hu
    · simp at hf
  · intro h
    have hne : v ≠ "" := by
      intro e
      rw [e] at h
      simp [isValidUUID] at h
    exact ⟨{ p with after := some [toLower v] }, by simp [checkField, hne, h]⟩

/-- A property of the local variables that every accepted field keeps holds
after the parameter loop. -/
theorem verifyFields_invariant {Doc : Type} (env : GetEnv Doc) (requestID : String)
    (I : TraceParams → Prop)
    (hI : ∀ p p1 k v, checkField env p k v = .accepted p1 → I p → I p1) :
    ∀ (query : List (String × String)) (p p' : TraceParams),
    verifyFields env requestID query p = .ok p' → I p → I p' := by
  intro query
  induction query with
  | nil =>
    intro p p' h hp
    simp only [verifyFields, Except.ok.injEq] at h
    rw [← h]
    exact hp
  | cons kv rest ih =>
    obtain ⟨k, v⟩ := kv
    intro p p' h hp
    obtain ⟨p1, hc, hrest⟩ := verifyFields_cons_ok env requestID k v rest p p' h
    exact ih p1 p' hrest (hI p p1 k v hc hp)

/-- The cursor after the parameter loop: nil, or one string of 32 lowercase
hexadecimal digits. -/
theorem verifyFields_cursor {Doc : Type} (env : GetEnv Doc) (requestID : String)
    (query : List (String × String)) (p : TraceParams)
    (h : verifyFields env requestID query TraceParams.init = .ok p) :
    p.after = none ∨ ∃ s, p.after = some [s] ∧ s.length = 32 ∧
      ∀ c ∈ s.data, isLowerHexChar c = true := by
  refine verifyFields_invariant env requestID
    (fun p => p.after = none ∨ ∃ s, p.after = some [s] ∧ s.length = 32 ∧
      ∀ c ∈ s.data, isLowerHexChar c = true) ?_ query _ p h (Or.inl rfl)
  intro p p1 k v hc hp
  by_cases hk : k = "after"
  · subst hk
    rcases checkField_accepted env p p1 "after" v hc with
      ⟨hf, _⟩ | ⟨hf, _⟩ | ⟨hf, _⟩ | ⟨hf, _⟩ | ⟨hf, _⟩ | ⟨_, _, hu, e⟩ | ⟨hf, _⟩
    · simp at hf
    · simp at hf
    · simp at hf
    · simp at hf
    · simp at hf
    · right
      obtain ⟨h1, h2⟩ := toLower_of_isValidUUID v hu
      exact ⟨toLower v, by rw [e], h1, h2⟩
    · simp at hf
  · rw [checkField_after env p p1 k v hc hk]
    exact hp

/-- C21: every cursor that the GET handlers pass to `SearchDeviceTrace` is nil
or a one-element list holding a string of exactly 32 characters of `[0-9a-f]`
(the single-trace route always passes nil); the parameter loop accepts an
`after` value iff it has exactly 32 characters, all of `[0-9a-fA-F]`, and
stores it in lower case; a request with any other `after` value, the empty one
included, is answered 400 without a call of the store. -/
theorem C21_cursor_well_formed {Doc : Type} (env : GetEnv Doc) (requestID accountID : String)
    (query : List (String × String)) (devices : List String) (id : String) :
    (∀ call ∈ (TraceHandler env requestID accountID query devices).searchCalls,
      call.2.1.AfterCursor = none ∨
      ∃ s, call.2.1.AfterCursor = some [s] ∧ s.length = 32 ∧
        ∀ c ∈ s.data, isLowerHexChar c = true) ∧
    (∀ out, singleTraceHandler env requestID accountID query id = .returns out →
      ∀ call ∈ out.searchCalls, call.2.1.AfterCursor = none) ∧
    (∀ p v, (∃ p1, checkField env p "after" v = .accepted p1) ↔
      (v.length = 32 ∧ ∀ c ∈ v.data, isHexChar c = true)) ∧
    (∀ p p1 v, checkField env p "after" v = .accepted p1 → p1.after = some [toLower v]) ∧
    (∀ v, ("after", v) ∈ query → ¬ (v.length = 32 ∧ ∀ c ∈ v.data, isHexChar c = true) →
      (TraceHandler env requestID accountID query devices).status = 400 ∧
      (TraceHandler env requestID accountID query devices).searchCalls = []) := by
  refine ⟨?_, ?_, ?_, ?_, ?_⟩
  · intro call hcall
    cases hv : verifyFields env requestID query TraceParams.init with
    | error e =>
      rw [TraceHandler_error env requestID accountID query devices e hv] at hcall
      simp at hcall
    | ok p =>
      rw [TraceHandler_calls env requestID accountID query devices p hv call hcall]
      exact verifyFields_cursor env requestID query p hv
  · intro out hout call hcall
    rcases singleTraceHandler_calls env requestID accountID query id out hout with h | h
    · rw [h.1] at hcall
      simp at hcall
    · rw [h.1] at hcall
      simp only [List.mem_singleton] at hcall
      subst hcall
      rfl
  · intro p v
    rw [checkField_after_iff, isValidUUID_iff]
  · intro p p1 v hc
    rcases checkField_accepted env p p1 "after" v hc with
      ⟨hf, _⟩ | ⟨hf, _⟩ | ⟨hf, _⟩ | ⟨hf, _⟩ | ⟨hf, _⟩ | ⟨_, _, _, e⟩ | ⟨hf, _⟩
    · simp at hf
    · simp at hf
    · simp at hf
    · simp at hf
    · simp at hf
    · rw [e]
    · simp at hf
  · intro v hv hbad
    rw [← isValidUUID_iff] at hbad
    obtain ⟨e, he, _⟩ := verifyFields_rejects env requestID "after" v
      (fun p p1 hc => hbad ((checkField_after_iff env p v).mp ⟨p1, hc⟩)) query TraceParams.init hv
    rw [TraceHandler_error env requestID accountID query devices e he]
    exact ⟨rfl, rfl⟩

end Routes

namespace Routes

open Muuid Storage

/-! ## The time bounds of the GET handler (claims C26, C29) -/

/-- A search of `TraceHandler` happens only past both guards: the time range
is not inverted and the request is not answered with the empty page. -/
theorem TraceHandler_calls_guard {Doc : Type} (env : GetEnv Doc) (requestID accountID : String)
    (query : List (String × String)) (devices : List String) (p : TraceParams)
    (h : verifyFields env requestID query TraceParams.init = .ok p) :
    ∀ call ∈ (TraceHandler env requestID accountID query devices).searchCalls,
      (hasField query "timestamp__gte" && hasField query "timestamp__lte" &&
        timeBefore p.beforeTime p.afterTime) = false ∧
      (timeAfter p.afterTime MaxTime ||
        (hasField query "timestamp__lte" && timeBefore p.beforeTime MinTime)) = false := by
  intro call hcall
  unfold TraceHandler at hcall
  rw [h] at hcall
  simp only at hcall
  split_ifs at hcall with h1 h2
  · simp at hcall
  · simp at hcall
  · exact ⟨by simpa using h1, by simpa using h2⟩

/-- Past both guards `TraceHandler` searches once, with the query of
`storeQuery`. -/
theorem TraceHandler_searches {Doc : Type} (env : GetEnv Doc) (requestID accountID : String)
    (query : List (String × String)) (devices : List String) (p : TraceParams)
    (h : verifyFields env requestID query TraceParams.init = .ok p)
    (h1 : (hasField query "timestamp__gte" && hasField query "timestamp__lte" &&
      timeBefore p.beforeTime p.afterTime) = false)
    (h2 : (timeAfter p.afterTime MaxTime ||
      (hasField query "timestamp__lte" && timeBefore p.beforeTime MinTime)) = false) :
    (TraceHandler env requestID accountID query devices).searchCalls =
      [(buildContextWithValue requestID accountID, storeQuery query devices accountID p,
        p.includeTotal)] := by
  unfold TraceHandler
  rw [h]
  simp only [h1, h2, Bool.false_eq_true, if_false]
  cases env.SearchDeviceTrace (buildContextWithValue requestID accountID)
    (storeQuery query devices accountID p) p.includeTotal with
  | mk results err =>
    cases err with
    | none => rfl
    | some err => rfl

/-- C26: for every GET trace request whose fields all pass the parameter loop,
whose time range is not inverted and which is not answered with the empty
page (its `timestamp__gte` is not after `MaxTimestamp`, its `timestamp__lte`
not before the epoch), the handler searches once, and the query it passes has:
as `Before` the zero time when `timestamp__lte` is supplied and after
`MaxTimestamp`, and the supplied instant otherwise; as `After` the zero time
when `timestamp__gte` is supplied and before the epoch, and the supplied
instant otherwise; and the zero time for a bound that is not supplied. -/
theorem C26_bounds_clamped {Doc : Type} (env : GetEnv Doc) (requestID accountID : String)
    (query : List (String × String)) (devices : List String) (p : TraceParams)
    (hkeys : (query.map Prod.fst).Nodup)
    (hvalid : verifyFields env requestID query TraceParams.init = .ok p)
    (hrange : ∀ v t w u, ("timestamp__gte", v) ∈ query → env.parseRFC3339 v = some t →
      ("timestamp__lte", w) ∈ query → env.parseRFC3339 w = some u → t.unixNano ≤ u.unixNano)
    (hgte : ∀ v t, ("timestamp__gte", v) ∈ query → env.parseRFC3339 v = some t →
      t.unixNano ≤ MaxTimestamp * 1000000)
    (hlte : ∀ w u, ("timestamp__lte", w) ∈ query → env.parseRFC3339 w = some u →
      0 ≤ u.unixNano) :
    ∃ ctx traceQuery includeTotal,
      (TraceHandler env requestID accountID query devices).searchCalls =
        [(ctx, traceQuery, includeTotal)] ∧
      (∀ w u, ("timestamp__lte", w) ∈ query → env.parseRFC3339 w = some u →
        traceQuery.Before = if MaxTimestamp * 1000000 < u.unixNano then Time.zero else u) ∧
      (∀ v t, ("timestamp__gte", v) ∈ query → env.parseRFC3339 v = some t →
        traceQuery.After = if t.unixNano < 0 then Time.zero else t) ∧
      (hasField query "timestamp__lte" = false → traceQuery.Before = Time.zero) ∧
      (hasField query "timestamp__gte" = false → traceQuery.After = Time.zero) := by
  have hM : MaxTimestamp = 9223372036854 := rfl
  have hzero : Time.zero.unixNano = -62135596800 * 1000000000 := rfl
  have hgabs : hasField query "timestamp__gte" = false → p.afterTime = Time.zero := fun h =>
    verifyFields_absent env requestID TraceParams.afterTime "timestamp__gte"
      (checkField_afterTime env) query _ p hvalid h
  have hlabs : hasField query "timestamp__lte" = false → p.beforeTime = Time.zero := fun h =>
    verifyFields_absent env requestID TraceParams.beforeTime "timestamp__lte"
      (checkField_beforeTime env) query _ p hvalid h
  have h1 : (hasField query "timestamp__gte" && hasField query "timestamp__lte" &&
      timeBefore p.beforeTime p.afterTime) = false := by
    rw [Bool.eq_false_iff]
    intro h
    simp only [Bool.and_eq_true, timeBefore, decide_eq_true_eq] at h
    obtain ⟨⟨hg, hl⟩, hlt⟩ := h
    obtain ⟨v, hv⟩ := mem_of_hasField query _ hg
    obtain ⟨w, hw⟩ := mem_of_hasField query _ hl
    have ev := verifyFields_afterTime env requestID query _ p hvalid hkeys v hv
    have ew := verifyFields_beforeTime env requestID query _ p hvalid hkeys w hw
    have := hrange v _ w _ hv ev hw ew
    omega
  have h2 : (timeAfter p.afterTime MaxTime ||
      (hasField query "timestamp__lte" && timeBefore p.beforeTime MinTime)) = false := by
    rw [Bool.eq_false_iff]
    intro h
    simp only [Bool.or_eq_true, Bool.and_eq_true, timeAfter, timeBefore, decide_eq_true_eq,
      MaxTime_unixNano, MinTime_unixNano] at h
    rcases h with h | ⟨hl, h⟩
    · cases hg : hasField query "timestamp__gte" with
      | false =>
        rw [hgabs hg, hzero] at h
        omega
      | true =>
        obtain ⟨v, hv⟩ := mem_of_hasField query _ hg
        have ev := verifyFields_afterTime env requestID query _ p hvalid hkeys v hv
        have := hgte v _ hv ev
        omega
    · obtain ⟨w, hw⟩ := mem_of_hasField query _ hl
      have ew := verifyFields_beforeTime env requestID query _ p hvalid hkeys w hw
      have := hlte w _ hw ew
      omega
  refine ⟨_, _, _, TraceHandler_searches env requestID accountID query devices p hvalid h1 h2,
    ?_, ?_, ?_, ?_⟩
  · intro w u hw eu
    have ew := verifyFields_beforeTime env requestID query _ p hvalid hkeys w hw
    rw [eu] at ew
    cases ew
    simp only [storeQuery, hasField_of_mem query _ w hw, Bool.true_and, timeAfter,
      decide_eq_true_eq, MaxTime_unixNano, hM, gt_iff_lt]
  · intro v t hv et
    have ev := verifyFields_afterTime env requestID query _ p hvalid hkeys v hv
    rw [et] at ev
    cases ev
    simp only [storeQuery, hasField_of_mem query _ v hv, Bool.true_and, timeBefore,
      decide_eq_true_eq, MinTime_unixNano]
  · intro h
    simp only [storeQuery, h, Bool.false_and, Bool.false_eq_true, if_false]
    exact hlabs h
  · intro h
    simp only [storeQuery, h, Bool.false_and, Bool.false_eq_true, if_false]
    exact hgabs h

/-- A request from 1969-12-31T23:59:59Z to 2262-04-12T00:00:00Z meets the
hypotheses of C26: both bounds are outside the supported range on the side
that is clamped, and the store is searched once with both bounds zero. -/
theorem C26_bounds_clamped_witness :
    (TraceHandler exampleGetEnv "r1" "a1"
      [("timestamp__gte", "1969-12-31T23:59:59Z"), ("timestamp__lte", "2262-04-12T00:00:00Z")]
      ["d1"]).searchCalls.map (fun call => (call.2.1.After, call.2.1.Before)) =
      [(Time.zero, Time.zero)] := by
  obtain ⟨ctx, traceQuery, includeTotal, hcalls, hbefore, hafter, _, _⟩ :=
    C26_bounds_clamped exampleGetEnv "r1" "a1"
      [("timestamp__gte", "1969-12-31T23:59:59Z"), ("timestamp__lte", "2262-04-12T00:00:00Z")]
      ["d1"]
      { afterTime := Time.Unix (-1) 0, beforeTime := Time.Unix 9223372800 0, typ := "",
        after := none, includeTotal := false, limit := 100, sort := false }
      (by decide) (by rfl)
      (by
        intro v t w u hv ht hw hu
        simp at hv hw
        subst hv
        subst hw
        have e1 : t = Time.Unix (-1) 0 := Option.some.inj (ht.symm.trans rfl)
        have e2 : u = Time.Unix 9223372800 0 := Option.some.inj (hu.symm.trans rfl)
        rw [e1, e2]
        decide)
      (by
        intro v t hv ht
        simp at hv
        subst hv
        have e1 : t = Time.Unix (-1) 0 := Option.some.inj (ht.symm.trans rfl)
        rw [e1]
        decide)
      (by
        intro w u hw hu
        simp at hw
        subst hw
        have e2 : u = Time.Unix 9223372800 0 := Option.some.inj (hu.symm.trans rfl)
        rw [e2]
        decide)
  have hB := hbefore "2262-04-12T00:00:00Z" (Time.Unix 9223372800 0) (by simp) rfl
  have hA := hafter "1969-12-31T23:59:59Z" (Time.Unix (-1) 0) (by simp) rfl
  rw [hcalls]
  simp only [List.map_cons, List.map_nil, hA, hB]
  decide

/-- The bound `MaxTimestamp`: the largest count of milliseconds whose count of
nanoseconds fits an int64. -/
theorem MaxTimestamp_largest :
    MaxTimestamp * 10 ^ 6 ≤ 2 ^ 63 - 1 ∧ 2 ^ 63 - 1 < (MaxTimestamp + 1) * 10 ^ 6 := by
  decide

/-- The conversions of an instant between the epoch and `MaxTime`: `UnixNano()`
does not wrap and the millisecond count is in `[0, MaxTimestamp]`. -/
theorem unixMilliseconds_in_range (t : Time) (h0 : MinTime.unixNano ≤ t.unixNano)
    (h1 : t.unixNano ≤ MaxTime.unixNano) :
    t.UnixNano = t.unixNano ∧ unixMilliseconds t = t.unixNano / 1000000 ∧
    0 ≤ unixMilliseconds t ∧ unixMilliseconds t ≤ MaxTimestamp := by
  rw [MinTime_unixNano] at h0
  rw [MaxTime_unixNano] at h1
  have e1 : t.UnixNano = t.unixNano := by
    unfold Time.UnixNano Storage.int64
    omega
  have e2 : unixMilliseconds t = t.unixNano / 1000000 := by
    rw [unixMilliseconds_of_int64 t (by omega) (by omega), Int.tdiv_eq_ediv h0 (by norm_num)]
  rw [e2]
  unfold MaxTimestamp
  refine ⟨e1, rfl, ?_, ?_⟩ <;> omega

/-- C29: `MaxTimestamp = 9223372036854` is the largest count of milliseconds
whose count of nanoseconds fits a signed 64-bit integer; for every instant
from the epoch to `MaxTime`, `UnixNano()` does not wrap and
`UnixNano() / 10^6`, as `unixMilliseconds` and the POST handler compute it, is
the instant in milliseconds, within `[0, 9223372036854]`; and every time bound
that the GET handlers pass to the store is the zero time or such an instant. -/
theorem C29_max_timestamp {Doc : Type} (env : GetEnv Doc) (requestID accountID : String)
    (query : List (String × String)) (devices : List String) (id : String) :
    (MaxTimestamp = 9223372036854 ∧ MaxTimestamp * 10 ^ 6 ≤ 2 ^ 63 - 1 ∧
      2 ^ 63 - 1 < (MaxTimestamp + 1) * 10 ^ 6) ∧
    (∀ t : Time, MinTime.unixNano ≤ t.unixNano → t.unixNano ≤ MaxTime.unixNano →
      t.UnixNano = t.unixNano ∧ unixMilliseconds t = t.unixNano / 1000000 ∧
      0 ≤ unixMilliseconds t ∧ unixMilliseconds t ≤ MaxTimestamp ∧
      ∀ (generator : MUUIDGenerator) (nowMs : Int) (deviceID : String) (log : PostTrace Doc),
        (newTrace generator nowMs deviceID accountID t log).1.Timestamp = t.unixNano / 1000000) ∧
    (∀ call ∈ (TraceHandler env requestID accountID query devices).searchCalls,
      (call.2.1.After.IsZero = false →
        MinTime.unixNano ≤ call.2.1.After.unixNano ∧
        call.2.1.After.unixNano ≤ MaxTime.unixNano) ∧
      (call.2.1.Before.IsZero = false →
        MinTime.unixNano ≤ call.2.1.Before.unixNano ∧
        call.2.1.Before.unixNano ≤ MaxTime.unixNano)) ∧
    (∀ out, singleTraceHandler env requestID accountID query id = .returns out →
      ∀ call ∈ out.searchCalls,
        call.2.1.After.IsZero = true ∧ call.2.1.Before.IsZero = true) := by
  refine ⟨⟨rfl, MaxTimestamp_largest⟩, ?_, ?_, ?_⟩
  · intro t h0 h1
    obtain ⟨e1, e2, e3, e4⟩ := unixMilliseconds_in_range t h0 h1
    refine ⟨e1, e2, e3, e4, ?_⟩
    intro generator nowMs deviceID log
    rw [MinTime_unixNano] at h0
    rw [MaxTime_unixNano] at h1
    exact (newTrace_Timestamp generator nowMs deviceID accountID t log h0 h1).1
  · intro call hcall
    cases hv : verifyFields env requestID query TraceParams.init with
    | error e =>
      rw [TraceHandler_error env requestID accountID query devices e hv] at hcall
      simp at hcall
    | ok p =>
      obtain ⟨_, h2⟩ := TraceHandler_calls_guard env requestID accountID query devices p hv
        call hcall
      rw [TraceHandler_calls env requestID accountID query devices p hv call hcall]
      simp only [Bool.or_eq_false_iff, Bool.and_eq_false_iff, timeAfter, timeBefore,
        decide_eq_false_iff_not, not_lt, gt_iff_lt] at h2
      obtain ⟨hmax, hmin⟩ := h2
      have hgabs : hasField query "timestamp__gte" = false → p.afterTime = Time.zero := fun h =>
        verifyFields_absent env requestID TraceParams.afterTime "timestamp__gte"
          (checkField_afterTime env) query _ p hv h
      have hlabs : hasField query "timestamp__lte" = false → p.beforeTime = Time.zero := fun h =>
        verifyFields_absent env requestID TraceParams.beforeTime "timestamp__lte"
          (checkField_beforeTime env) query _ p hv h
      refine ⟨?_, ?_⟩
      · intro hnz
        simp only [storeQuery] at hnz ⊢
        cases hg : hasField query "timestamp__gte" with
        | false =>
          simp only [hg, Bool.false_and, Bool.false_eq_true, if_false, hgabs hg] at hnz
          exact absurd hnz (by decide)
        | true =>
          simp only [hg, Bool.true_and, timeBefore, decide_eq_true_eq] at hnz ⊢
          by_cases hlt : p.afterTime.unixNano < MinTime.unixNano
          · rw [if_pos hlt] at hnz
            exact absurd hnz (by decide)
          · rw [if_neg hlt]
            exact ⟨by omega, hmax⟩
      · intro hnz
        simp only [storeQuery] at hnz ⊢
        cases hl : hasField query "timestamp__lte" with
        | false =>
          simp only [hl, Bool.false_and, Bool.false_eq_true, if_false, hlabs hl] at hnz
          exact absurd hnz (by decide)
        | true =>
          simp only [hl, Bool.true_and, timeAfter, decide_eq_true_eq, gt_iff_lt] at hnz ⊢
          by_cases hgt : MaxTime.unixNano < p.beforeTime.unixNano
          · rw [if_pos hgt] at hnz
            exact absurd hnz (by decide)
          · rw [if_neg hgt]
            rcases hmin with h | h
            · rw [hl] at h
              exact absurd h (by decide)
            · exact ⟨h, by omega⟩
  · intro out hout call hcall
    rcases singleTraceHandler_calls env requestID accountID query id out hout with h | h
    · rw [h.1] at hcall
      simp at hcall
    · rw [h.1] at hcall
      simp only [List.mem_singleton] at hcall
      subst hcall
      simp [singleTraceQuery, Time.IsZero]

end Routes

namespace Routes

open Muuid Storage

/-! ## The identifier string and its order (claim C28) -/

theorem lex_cons_cons_char (a b : Char) (l₁ l₂ : List Char) :
    (a :: l₁ < b :: l₂) ↔ a < b ∨ (a = b ∧ l₁ < l₂) := by
  constructor
  · intro h
    cases h with
    | cons h => exact Or.inr ⟨rfl, h⟩
    | rel h => exact Or.inl h
  · rintro (h | ⟨rfl, h⟩)
    · exact List.Lex.rel h
    · exact List.Lex.cons h

/-- The digits of `encoding/hex`: lowercase, in the order of their values. -/
theorem hexDigit_facts : ∀ n < 16, isLowerHexChar (hexDigit n) = true ∧
    (hexDigit n).toLower = hexDigit n ∧
    ∀ m < 16, (hexDigit n < hexDigit m ↔ n < m) ∧ (hexDigit n = hexDigit m ↔ n = m) := by
  decide

/-- The characters of an identifier string. -/
theorem String_data (a : MUUID) :
    (MUUID.String a).data = a.flatMap (fun b => [hexDigit (b / 16), hexDigit (b % 16)]) := rfl

theorem String_data_cons (x : Nat) (a : MUUID) :
    (MUUID.String (x :: a)).data =
      hexDigit (x / 16) :: hexDigit (x % 16) :: (MUUID.String a).data := rfl

theorem String_length (a : MUUID) : (MUUID.String a).length = 2 * a.length := by
  show (MUUID.String a).data.length = _
  induction a with
  | nil => rfl
  | cons x a ih =>
    rw [String_data_cons]
    simp only [List.length_cons, ih]
    omega

theorem String_chars (a : MUUID) (ha : ∀ x ∈ a, x < 256) :
    ∀ c ∈ (MUUID.String a).data, isLowerHexChar c = true ∧ c.toLower = c := by
  induction a with
  | nil => intro c hc; simp [String_data] at hc
  | cons x a ih =>
    intro c hc
    have hx : x < 256 := ha x (by simp)
    rw [String_data_cons] at hc
    simp only [List.mem_cons] at hc
    rcases hc with rfl | rfl | hc
    · exact ⟨(hexDigit_facts (x / 16) (by omega)).1, (hexDigit_facts (x / 16) (by omega)).2.1⟩
    · exact ⟨(hexDigit_facts (x % 16) (by omega)).1, (hexDigit_facts (x % 16) (by omega)).2.1⟩
    · exact ih (fun y hy => ha y (by simp [hy])) c hc

/-- The order of the identifier strings' characters is the order of the
bytes. -/
theorem String_data_lt_iff : ∀ (a b : MUUID), a.length = b.length → (∀ x ∈ a, x < 256) →
    (∀ x ∈ b, x < 256) → ((MUUID.String a).data < (MUUID.String b).data ↔ a < b) := by
  intro a
  induction a with
  | nil =>
    intro b hlen _ _
    cases b with
    | nil => simp [String_data]
    | cons y b => simp at hlen
  | cons x a ih =>
    intro b hlen ha hb
    cases b with
    | nil => simp at hlen
    | cons y b =>
      simp only [List.length_cons, add_left_inj] at hlen
      have hx : x < 256 := ha x (by simp)
      have hy : y < 256 := hb y (by simp)
      have h1 := (hexDigit_facts (x / 16) (by omega)).2.2 (y / 16) (by omega)
      have h2 := (hexDigit_facts (x % 16) (by omega)).2.2 (y % 16) (by omega)
      have hrec := ih b hlen (fun z hz => ha z (by simp [hz])) (fun z hz => hb z (by simp [hz]))
      rw [String_data_cons, String_data_cons, lex_cons_cons_char, lex_cons_cons_char,
        lex_cons_cons, h1.1, h1.2, h2.1, h2.2, hrec]
      constructor
      · rintro (h | ⟨h, h' | ⟨h', h''⟩⟩)
        · left; omega
        · left; omega
        · right; exact ⟨by omega, h''⟩
      · rintro (h | ⟨h, h'⟩)
        · by_cases hq : x / 16 < y / 16
          · left; exact hq
          · right; exact ⟨by omega, Or.inl (by omega)⟩
        · right; exact ⟨by omega, Or.inr ⟨by omega, h'⟩⟩

theorem String_lt_iff (a b : MUUID) (hlen : a.length = b.length) (ha : ∀ x ∈ a, x < 256)
    (hb : ∀ x ∈ b, x < 256) : MUUID.String a < MUUID.String b ↔ a < b := by
  rw [String.lt_iff_toList_lt]
  exact String_data_lt_iff a b hlen ha hb

/-- C28: for all identifiers `a` and `b` (16 bytes each), `String a` has 32
characters, all of `[0-9a-f]`, so `isValidUUID` accepts it and lowercasing
leaves it unchanged; `String a ≤ String b` in the lexicographic order of
strings iff `a ≤ b` in the lexicographic order of byte strings, and likewise
for `<`; and `String` is injective. -/
theorem C28_string_order (a b : MUUID) (ha : a.length = 16) (hb : b.length = 16)
    (ha' : ∀ x ∈ a, x < 256) (hb' : ∀ x ∈ b, x < 256) :
    (MUUID.String a).length = 32 ∧
    (∀ c ∈ (MUUID.String a).data, isLowerHexChar c = true) ∧
    isValidUUID (MUUID.String a) = true ∧
    toLower (MUUID.String a) = MUUID.String a ∧
    (MUUID.String a ≤ MUUID.String b ↔ a ≤ b) ∧
    (MUUID.String a < MUUID.String b ↔ a < b) ∧
    (MUUID.String a = MUUID.String b ↔ a = b) := by
  have hlen : (MUUID.String a).length = 32 := by rw [String_length, ha]
  have hchars := String_chars a ha'
  have hlt := String_lt_iff a b (by rw [ha, hb]) ha' hb'
  have hgt := String_lt_iff b a (by rw [ha, hb]) hb' ha'
  refine ⟨hlen, fun c hc => (hchars c hc).1, ?_, ?_, ?_, hlt, ?_⟩
  · rw [isValidUUID_iff]
    refine ⟨hlen, ?_⟩
    intro c hc
    have := (hchars c hc).1
    simp only [isLowerHexChar, Bool.decide_or, Bool.decide_and, Bool.or_eq_true,
      Bool.and_eq_true, decide_eq_true_eq] at this
    simp only [isHexChar, Bool.decide_or, Bool.decide_and, Bool.or_eq_true,
      Bool.and_eq_true, decide_eq_true_eq]
    tauto
  · have e : (MUUID.String a).data.map Char.toLower = (MUUID.String a).data.map id :=
      List.map_congr_left (fun c hc => (hchars c hc).2)
    unfold toLower
    rw [e, List.map_id]
  · rw [← not_lt, ← not_lt, hgt]
  · constructor
    · intro h
      by_contra hne
      rcases lt_or_gt_of_ne hne with h' | h'
      · have := hlt.mpr h'
        rw [h] at this
        exact lt_irrefl _ this
      · have := hgt.mpr h'
        rw [h] at this
        exact lt_irrefl _ this
    · intro h
      rw [h]

/-- Two identifiers of the generator of the worked examples meet the
hypotheses of C28. -/
theorem C28_string_order_witness :
    MUUID.String (UUID (newGenerator exampleMAC 1) 1672531200000).1 <
        MUUID.String (UUID (newGenerator exampleMAC 1) 1672531200001).1 ↔
      (UUID (newGenerator exampleMAC 1) 1672531200000).1 <
        (UUID (newGenerator exampleMAC 1) 1672531200001).1 :=
  (C28_string_order (UUID (newGenerator exampleMAC 1) 1672531200000).1
    (UUID (newGenerator exampleMAC 1) 1672531200001).1 (by decide) (by decide) (by decide)
    (by decide)).2.2.2.2.2.1

end Routes

namespace Storage

/-! ## The display string of a timestamp (claim C23) -/

/-- The days before year `y` in closed form. -/
theorem daysBeforeYear_eq (n : Nat) :
    ((List.range n).map (fun k => daysInYear (1970 + k))).sum =
      365 * (n : Int) + ((1969 + (n : Int)) / 4 - (1969 + (n : Int)) / 100 +
        (1969 + (n : Int)) / 400) - 477 := by
  induction n with
  | zero => decide
  | succ n ih =>
    rw [List.range_succ, List.map_append, List.sum_append, ih]
    simp only [List.map_cons, List.map_nil, List.sum_cons, List.sum_nil, daysInYear,
      isLeapYear, decide_eq_true_eq]
    push_cast
    split_ifs with h <;> omega

/-- The days before month `m` of year `y`. -/
theorem daysBeforeMonth_eq (y m : Nat) (h1 : 1 ≤ m) (h2 : m ≤ 12) :
    ((List.range (m - 1)).map (fun k => daysInMonth y (k + 1))).sum =
      (if m = 1 then 0 else if m = 2 then 31 else
        (if m = 3 then 59 else if m = 4 then 90 else if m = 5 then 120 else if m = 6 then 151
          else if m = 7 then 181 else if m = 8 then 212 else if m = 9 then 243
          else if m = 10 then 273 else if m = 11 then 304 else 334) +
        (if isLeapYear y then 1 else 0)) := by
  interval_cases m <;> simp [List.range_succ, daysInMonth] <;> split_ifs <;> rfl

/-- A day of a 400-year era, counted from March 1 of the first year: the
century `k`, the four-year cycle `q` of the century, the year `j` of the cycle
and the day `x` of that year.  A year has a 366th day only when it is the last
of a cycle, and the last cycle of a century has one only in the last
century. -/
theorem era_split (doe : Int) (h0 : 0 ≤ doe) (h1 : doe ≤ 146096) :
    ∃ k q j x : Int, 0 ≤ k ∧ k ≤ 3 ∧ 0 ≤ q ∧ q ≤ 24 ∧ 0 ≤ j ∧ j ≤ 3 ∧ 0 ≤ x ∧
      doe = 36524 * k + 1461 * q + 365 * j + x ∧
      (x ≤ 364 ∨ (x = 365 ∧ j = 3 ∧ (q < 24 ∨ k = 3))) := by
  by_cases hlast : doe = 146096
  · exact ⟨3, 24, 3, 365, by omega⟩
  · by_cases hc : (doe % 36524) % 1461 = 1460
    · exact ⟨doe / 36524, (doe % 36524) / 1461, 3, 365, by omega⟩
    · exact ⟨doe / 36524, (doe % 36524) / 1461, ((doe % 36524) % 1461) / 365,
        ((doe % 36524) % 1461) % 365, by omega⟩

theorem era_split_centuries (doe k q j x : Int) (hk0 : 0 ≤ k) (hk1 : k ≤ 3) (hq0 : 0 ≤ q)
    (hq1 : q ≤ 24) (hj0 : 0 ≤ j) (hj1 : j ≤ 3) (hx0 : 0 ≤ x)
    (hdoe : doe = 36524 * k + 1461 * q + 365 * j + x)
    (hx : x ≤ 364 ∨ (x = 365 ∧ j = 3 ∧ (q < 24 ∨ k = 3))) :
    (doe / 146096 = 0 ∧ doe / 36524 = k) ∨
      (doe / 146096 = 1 ∧ doe / 36524 = 4 ∧ k = 3 ∧ q = 24 ∧ j = 3 ∧ x = 365) := by
  omega

theorem era_split_cycles (doe k q j x : Int) (hk0 : 0 ≤ k) (hk1 : k ≤ 3) (hq0 : 0 ≤ q)
    (hq1 : q ≤ 24) (hj0 : 0 ≤ j) (hj1 : j ≤ 3) (hx0 : 0 ≤ x)
    (hdoe : doe = 36524 * k + 1461 * q + 365 * j + x)
    (hx : x ≤ 364 ∨ (x = 365 ∧ j = 3 ∧ (q < 24 ∨ k = 3))) :
    (doe / 1460 = 25 * k + q ∧ 24 * k + q + 365 * j + x ≤ 1459) ∨
      (doe / 1460 = 25 * k + q + 1 ∧ 1460 ≤ 24 * k + q + 365 * j + x) := by
  omega

/-- The year of the era that `civilFromDays` computes is the year of
`era_split`. -/
theorem era_split_yoe (doe k q j x : Int) (hj0 : 0 ≤ j) (hj1 : j ≤ 3) (hx0 : 0 ≤ x)
    (hdoe : doe = 36524 * k + 1461 * q + 365 * j + x)
    (hx : x ≤ 364 ∨ (x = 365 ∧ j = 3 ∧ (q < 24 ∨ k = 3)))
    (hd : (doe / 146096 = 0 ∧ doe / 36524 = k) ∨
      (doe / 146096 = 1 ∧ doe / 36524 = 4 ∧ k = 3 ∧ q = 24 ∧ j = 3 ∧ x = 365))
    (hb : (doe / 1460 = 25 * k + q ∧ 24 * k + q + 365 * j + x ≤ 1459) ∨
      (doe / 1460 = 25 * k + q + 1 ∧ 1460 ≤ 24 * k + q + 365 * j + x)) :
    (doe - doe / 1460 + doe / 36524 - doe / 146096) / 365 = 100 * k + 4 * q + j := by
  rcases hd with hd | hd <;> rcases hb with hb | hb <;> omega

/-- The first day of a year of the era. -/
theorem era_split_start (yoe k q j : Int) (hq0 : 0 ≤ q) (hq1 : q ≤ 24)
    (hj0 : 0 ≤ j) (hj1 : j ≤ 3) (hyoe : yoe = 100 * k + 4 * q + j) :
    365 * yoe + yoe / 4 - yoe / 100 = 36524 * k + 1461 * q + 365 * j := by
  omega

/-- The year of the era and the day of the year that `civilFromDays` computes
from the day of the era. -/
theorem doy_range (doe : Int) (h0 : 0 ≤ doe) (h1 : doe ≤ 146096) :
    ∃ k q j x : Int, 0 ≤ k ∧ k ≤ 3 ∧ 0 ≤ q ∧ q ≤ 24 ∧ 0 ≤ j ∧ j ≤ 3 ∧ 0 ≤ x ∧
      (x ≤ 364 ∨ (x = 365 ∧ j = 3 ∧ (q < 24 ∨ k = 3))) ∧
      doe = 36524 * k + 1461 * q + 365 * j + x ∧
      (doe - doe / 1460 + doe / 36524 - doe / 146096) / 365 = 100 * k + 4 * q + j ∧
      doe - (365 * (100 * k + 4 * q + j) + (100 * k + 4 * q + j) / 4 -
        (100 * k + 4 * q + j) / 100) = x := by
  obtain ⟨k, q, j, x, hk0, hk1, hq0, hq1, hj0, hj1, hx0, hdoe, hx⟩ := era_split doe h0 h1
  have hd := era_split_centuries doe k q j x hk0 hk1 hq0 hq1 hj0 hj1 hx0 hdoe hx
  have hb := era_split_cycles doe k q j x hk0 hk1 hq0 hq1 hj0 hj1 hx0 hdoe hx
  have hyoe := era_split_yoe doe k q j x hj0 hj1 hx0 hdoe hx hd hb
  have hstart := era_split_start (100 * k + 4 * q + j) k q j hq0 hq1 hj0 hj1 rfl
  refine ⟨k, q, j, x, hk0, hk1, hq0, hq1, hj0, hj1, hx0, hx, hdoe, hyoe, ?_⟩
  rw [hstart, hdoe]
  ring

theorem year_floors (era k q j Y : Int) (hk0 : 0 ≤ k) (hk1 : k ≤ 3) (hq0 : 0 ≤ q) (hq1 : q ≤ 24)
    (hj0 : 0 ≤ j) (hj1 : j ≤ 3) (hY : Y = 400 * era + 100 * k + 4 * q + j) :
    Y / 4 = 100 * era + 25 * k + q ∧ Y / 100 = 4 * era + k ∧ Y / 400 = era ∧
    Y % 4 = j ∧ Y % 100 = 4 * q + j ∧ Y % 400 = 100 * k + 4 * q + j := by
  omega

theorem floors_pred (Y : Int) :
    (Y - 1) / 4 = Y / 4 - (if Y % 4 = 0 then 1 else 0) ∧
    (Y - 1) / 100 = Y / 100 - (if Y % 100 = 0 then 1 else 0) ∧
    (Y - 1) / 400 = Y / 400 - (if Y % 400 = 0 then 1 else 0) := by
  refine ⟨?_, ?_, ?_⟩ <;> split_ifs <;> omega

theorem mods_succ (Y : Int) :
    (Y + 1) % 4 = (if Y % 4 = 3 then 0 else Y % 4 + 1) ∧
    (Y + 1) % 100 = (if Y % 100 = 99 then 0 else Y % 100 + 1) ∧
    (Y + 1) % 400 = (if Y % 400 = 399 then 0 else Y % 400 + 1) := by
  refine ⟨?_, ?_, ?_⟩ <;> split_ifs <;> omega

theorem isLeapYear_iff (y : Nat) :
    isLeapYear y = true ↔
      (y : Int) % 4 = 0 ∧ ((y : Int) % 100 ≠ 0 ∨ (y : Int) % 400 = 0) := by
  unfold isLeapYear
  rw [decide_eq_true_eq]
  omega

/-- The days before March 1 of a year `y ≥ 1970`, counted from 1970-01-01. -/
theorem year_late (era k q j : Int) (y : Nat) (hk0 : 0 ≤ k) (hk1 : k ≤ 3) (hq0 : 0 ≤ q)
    (hq1 : q ≤ 24) (hj0 : 0 ≤ j) (hj1 : j ≤ 3)
    (hy : (y : Int) = 400 * era + 100 * k + 4 * q + j) :
    365 * ((y - 1970 : Nat) : Int) + ((1969 + ((y - 1970 : Nat) : Int)) / 4 -
        (1969 + ((y - 1970 : Nat) : Int)) / 100 + (1969 + ((y - 1970 : Nat) : Int)) / 400) - 477 +
      (59 + if isLeapYear y then 1 else 0) =
    146097 * era + 36524 * k + 1461 * q + 365 * j - 719468 ∨ y < 1970 := by
  by_cases hy0 : y < 1970
  · exact Or.inr hy0
  · left
    have e : (1969 : Int) + ((y - 1970 : Nat) : Int) = (y : Int) - 1 := by omega
    have en : ((y - 1970 : Nat) : Int) = (y : Int) - 1970 := by omega
    obtain ⟨f4, f100, f400, m4, m100, m400⟩ := year_floors era k q j y hk0 hk1 hq0 hq1 hj0 hj1 hy
    obtain ⟨p4, p100, p400⟩ := floors_pred y
    have hleap := isLeapYear_iff y
    rw [e, en, p4, p100, p400, f4, f100, f400, m4, m100, m400]
    rw [m4, m100, m400] at hleap
    clear e en f4 f100 f400 m4 m100 m400 p4 p100 p400
    by_cases hl : isLeapYear y = true
    · rw [if_pos hl]
      rw [hleap] at hl
      split_ifs <;> omega
    · rw [if_neg hl]
      rw [hleap] at hl
      split_ifs <;> omega

/-- The days before January 1 of a year, counted from 1970-01-01, and when the
year is a leap year. -/
theorem year_early (era k q j : Int) (y : Nat) (hk0 : 0 ≤ k) (hk1 : k ≤ 3) (hq0 : 0 ≤ q)
    (hq1 : q ≤ 24) (hj0 : 0 ≤ j) (hj1 : j ≤ 3)
    (hy : (y : Int) = 400 * era + 100 * k + 4 * q + j + 1) (hy0 : 1970 ≤ y) :
    365 * ((y - 1970 : Nat) : Int) + ((1969 + ((y - 1970 : Nat) : Int)) / 4 -
        (1969 + ((y - 1970 : Nat) : Int)) / 100 + (1969 + ((y - 1970 : Nat) : Int)) / 400) - 477 =
      146097 * era + 36524 * k + 1461 * q + 365 * j - 719468 + 306 ∧
    (isLeapYear y = true ↔ j = 3 ∧ (q < 24 ∨ k = 3)) := by
  have e : (1969 : Int) + ((y - 1970 : Nat) : Int) = (y : Int) - 1 := by omega
  have en : ((y - 1970 : Nat) : Int) = (y : Int) - 1970 := by omega
  obtain ⟨f4, f100, f400, m4, m100, m400⟩ :=
    year_floors era k q j ((y : Int) - 1) hk0 hk1 hq0 hq1 hj0 hj1 (by omega)
  obtain ⟨s4, s100, s400⟩ := mods_succ ((y : Int) - 1)
  rw [sub_add_cancel, m4] at s4
  rw [sub_add_cancel, m100] at s100
  rw [sub_add_cancel, m400] at s400
  refine ⟨?_, ?_⟩
  · rw [e, en, f4, f100, f400]
    omega
  · rw [isLeapYear_iff, s4, s100, s400]
    clear e en f4 f100 f400 m4 m100 m400 s4 s100 s400 hy hy0
    split_ifs <;> omega

/-- The date that `civilFromDays` computes, with the intermediate values named. -/
theorem civilFromDays_eq (days : Int) :
    civilFromDays days =
      let doe := days + 719468 - (days + 719468) / 146097 * 146097
      let yoe := (doe - doe / 1460 + doe / 36524 - doe / 146096) / 365
      let doy := doe - (365 * yoe + yoe / 4 - yoe / 100)
      let mp := (5 * doy + 2) / 153
      ((if (if mp < 10 then mp + 3 else mp - 9) ≤ 2 then yoe + (days + 719468) / 146097 * 400 + 1
        else yoe + (days + 719468) / 146097 * 400),
        (if mp < 10 then mp + 3 else mp - 9), doy - (153 * mp + 2) / 5 + 1) := rfl

/-- The arithmetic of the date of a day between 1970-01-01 and 2262-04-11. -/
theorem civil_arith (days era k q j x mp : Int) (h0 : 0 ≤ days) (h1 : days ≤ 106751)
    (hera : era = (days + 719468) / 146097)
    (hk0 : 0 ≤ k) (hk1 : k ≤ 3) (hq0 : 0 ≤ q) (hq1 : q ≤ 24) (hj0 : 0 ≤ j) (hj1 : j ≤ 3)
    (hx0 : 0 ≤ x) (hx : x ≤ 364 ∨ (x = 365 ∧ j = 3 ∧ (q < 24 ∨ k = 3)))
    (hdoe : days + 719468 - era * 146097 = 36524 * k + 1461 * q + 365 * j + x)
    (hmp : mp = (5 * x + 2) / 153) :
    0 ≤ mp ∧ mp ≤ 11 ∧ 4 ≤ era ∧ era ≤ 5 ∧
    1969 ≤ 100 * k + 4 * q + j + era * 400 ∧ 100 * k + 4 * q + j + era * 400 ≤ 2262 ∧
    (100 * k + 4 * q + j + era * 400 = 2262 → mp ≤ 9) ∧
    (100 * k + 4 * q + j + era * 400 = 1969 → 10 ≤ mp) := by
  omega

/-- The month and the first day of the month for a day `x` of a year that
starts on March 1. -/
theorem month_of (x : Int) (h0 : 0 ≤ x) (h1 : x ≤ 365) :
    ∃ (m : Nat) (c : Int),
      (if (5 * x + 2) / 153 < 10 then (5 * x + 2) / 153 + 3 else (5 * x + 2) / 153 - 9) =
        (m : Int) ∧
      (153 * ((5 * x + 2) / 153) + 2) / 5 = c ∧ c ≤ x ∧ 1 ≤ m ∧ m ≤ 12 ∧
      (m ≤ 2 ↔ 10 ≤ (5 * x + 2) / 153) ∧
      ((m = 3 ∧ c = 0 ∧ x ≤ 30) ∨ (m = 4 ∧ c = 31 ∧ x ≤ 60) ∨ (m = 5 ∧ c = 61 ∧ x ≤ 91) ∨
        (m = 6 ∧ c = 92 ∧ x ≤ 121) ∨ (m = 7 ∧ c = 122 ∧ x ≤ 152) ∨
        (m = 8 ∧ c = 153 ∧ x ≤ 183) ∨ (m = 9 ∧ c = 184 ∧ x ≤ 213) ∨
        (m = 10 ∧ c = 214 ∧ x ≤ 244) ∨ (m = 11 ∧ c = 245 ∧ x ≤ 274) ∨
        (m = 12 ∧ c = 275 ∧ x ≤ 305) ∨ (m = 1 ∧ c = 306 ∧ x ≤ 336) ∨
        (m = 2 ∧ c = 337 ∧ x ≤ 365)) := by
  have hlo : 0 ≤ (5 * x + 2) / 153 := by omega
  have hhi : (5 * x + 2) / 153 ≤ 11 := by omega
  generalize hmp : (5 * x + 2) / 153 = mp at hlo hhi ⊢
  interval_cases mp
  · exact ⟨3, 0, by norm_num, by norm_num, by omega, by norm_num, by norm_num, by norm_num,
      Or.inl ⟨rfl, rfl, by omega⟩⟩
  · exact ⟨4, 31, by norm_num, by norm_num, by omega, by norm_num, by norm_num, by norm_num,
      Or.inr (Or.inl ⟨rfl, rfl, by omega⟩)⟩
  · exact ⟨5, 61, by norm_num, by norm_num, by omega, by norm_num, by norm_num, by norm_num,
      Or.inr (Or.inr (Or.inl ⟨rfl, rfl, by omega⟩))⟩
  · exact ⟨6, 92, by norm_num, by norm_num, by omega, by norm_num, by norm_num, by norm_num,
      Or.inr (Or.inr (Or.inr (Or.inl ⟨rfl, rfl, by omega⟩)))⟩
  · exact ⟨7, 122, by norm_num, by norm_num, by omega, by norm_num, by norm_num, by norm_num,
      Or.inr (Or.inr (Or.inr (Or.inr (Or.inl ⟨rfl, rfl, by omega⟩))))⟩
  · exact ⟨8, 153, by norm_num, by norm_num, by omega, by norm_num, by norm_num, by norm_num,
      Or.inr (Or.inr (Or.inr (Or.inr (Or.inr (Or.inl ⟨rfl, rfl, by omega⟩)))))⟩
  · exact ⟨9, 184, by norm_num, by norm_num, by omega, by norm_num, by norm_num, by norm_num,
      Or.inr (Or.inr (Or.inr (Or.inr (Or.inr (Or.inr (Or.inl ⟨rfl, rfl, by omega⟩))))))⟩
  · exact ⟨10, 214, by norm_num, by norm_num, by omega, by norm_num, by norm_num, by norm_num,
      Or.inr (Or.inr (Or.inr (Or.inr (Or.inr (Or.inr (Or.inr (Or.inl ⟨rfl, rfl, by omega⟩)))))))⟩
  · exact ⟨11, 245, by norm_num, by norm_num, by omega, by norm_num, by norm_num, by norm_num,
      Or.inr (Or.inr (Or.inr (Or.inr (Or.inr (Or.inr (Or.inr (Or.inr (Or.inl ⟨rfl, rfl, by omega⟩))))))))⟩
  · exact ⟨12, 275, by norm_num, by norm_num, by omega, by norm_num, by norm_num, by norm_num,
      Or.inr (Or.inr (Or.inr (Or.inr (Or.inr (Or.inr (Or.inr (Or.inr (Or.inr (Or.inl ⟨rfl, rfl, by omega⟩)))))))))⟩
  · exact ⟨1, 306, by norm_num, by norm_num, by omega, by norm_num, by norm_num, by norm_num,
      Or.inr (Or.inr (Or.inr (Or.inr (Or.inr (Or.inr (Or.inr (Or.inr (Or.inr (Or.inr (Or.inl ⟨rfl, rfl, by omega⟩))))))))))⟩
  · exact ⟨2, 337, by norm_num, by norm_num, by omega, by norm_num, by norm_num, by norm_num,
      Or.inr (Or.inr (Or.inr (Or.inr (Or.inr (Or.inr (Or.inr (Or.inr (Or.inr (Or.inr (Or.inr (⟨rfl, rfl, by omega⟩)))))))))))⟩

/-- The day number and the validity of a date, from the day number `base` of
March 1 of the year that holds the day and the day `x` of that year. -/
theorem civil_month (days base x c : Int) (y m d : Nat)
    (hdays : days = base + x) (hd : (d : Int) = x - c + 1) (hcx : c ≤ x)
    (hlate : 3 ≤ m →
      365 * ((y - 1970 : Nat) : Int) + ((1969 + ((y - 1970 : Nat) : Int)) / 4 -
        (1969 + ((y - 1970 : Nat) : Int)) / 100 + (1969 + ((y - 1970 : Nat) : Int)) / 400) -
        477 + (59 + if isLeapYear y then 1 else 0) = base)
    (hearly : m ≤ 2 →
      365 * ((y - 1970 : Nat) : Int) + ((1969 + ((y - 1970 : Nat) : Int)) / 4 -
        (1969 + ((y - 1970 : Nat) : Int)) / 100 + (1969 + ((y - 1970 : Nat) : Int)) / 400) -
        477 = base + 306 ∧ (x ≤ 364 ∨ isLeapYear y = true))
    (htable : (m = 3 ∧ c = 0 ∧ x ≤ 30) ∨ (m = 4 ∧ c = 31 ∧ x ≤ 60) ∨
      (m = 5 ∧ c = 61 ∧ x ≤ 91) ∨ (m = 6 ∧ c = 92 ∧ x ≤ 121) ∨ (m = 7 ∧ c = 122 ∧ x ≤ 152) ∨
      (m = 8 ∧ c = 153 ∧ x ≤ 183) ∨ (m = 9 ∧ c = 184 ∧ x ≤ 213) ∨
      (m = 10 ∧ c = 214 ∧ x ≤ 244) ∨ (m = 11 ∧ c = 245 ∧ x ≤ 274) ∨
      (m = 12 ∧ c = 275 ∧ x ≤ 305) ∨ (m = 1 ∧ c = 306 ∧ x ≤ 336) ∨
      (m = 2 ∧ c = 337 ∧ x ≤ 365)) :
    daysFromCivil y m d = days ∧ 1 ≤ d ∧ (d : Int) ≤ daysInMonth y m := by
  have hm1 : 1 ≤ m := by omega
  have hm2 : m ≤ 12 := by omega
  unfold daysFromCivil
  rw [daysBeforeYear_eq, daysBeforeMonth_eq y m hm1 hm2]
  generalize 365 * ((y - 1970 : Nat) : Int) + ((1969 + ((y - 1970 : Nat) : Int)) / 4 -
    (1969 + ((y - 1970 : Nat) : Int)) / 100 + (1969 + ((y - 1970 : Nat) : Int)) / 400) -
    477 = C at hlate hearly ⊢
  unfold daysInMonth
  by_cases hl : isLeapYear y = true
  · simp only [hl, if_true, or_true, and_true] at hlate hearly ⊢
    rcases htable with ⟨rfl, rfl, hx⟩ | ⟨rfl, rfl, hx⟩ | ⟨rfl, rfl, hx⟩ | ⟨rfl, rfl, hx⟩ |
      ⟨rfl, rfl, hx⟩ | ⟨rfl, rfl, hx⟩ | ⟨rfl, rfl, hx⟩ | ⟨rfl, rfl, hx⟩ | ⟨rfl, rfl, hx⟩ |
      ⟨rfl, rfl, hx⟩ | ⟨rfl, rfl, hx⟩ | ⟨rfl, rfl, hx⟩ <;>
    norm_num at hlate hearly ⊢ <;> omega
  · simp only [hl, Bool.false_eq_true, if_false, or_false] at hlate hearly ⊢
    rcases htable with ⟨rfl, rfl, hx⟩ | ⟨rfl, rfl, hx⟩ | ⟨rfl, rfl, hx⟩ | ⟨rfl, rfl, hx⟩ |
      ⟨rfl, rfl, hx⟩ | ⟨rfl, rfl, hx⟩ | ⟨rfl, rfl, hx⟩ | ⟨rfl, rfl, hx⟩ | ⟨rfl, rfl, hx⟩ |
      ⟨rfl, rfl, hx⟩ | ⟨rfl, rfl, hx⟩ | ⟨rfl, rfl, hx⟩ <;>
    norm_num at hlate hearly ⊢ <;> omega

/-- For every day from 1970-01-01 to 2262-04-11, `civilFromDays` gives a valid
date of the Gregorian calendar, and the date that is that many days after
1970-01-01. -/
theorem civilFromDays_spec (days : Int) (h0 : 0 ≤ days) (h1 : days ≤ 106751) :
    ∃ y m d : Nat, civilFromDays days = ((y : Int), (m : Int), (d : Int)) ∧
      1970 ≤ y ∧ y ≤ 2262 ∧ 1 ≤ m ∧ m ≤ 12 ∧ 1 ≤ d ∧ (d : Int) ≤ daysInMonth y m ∧
      daysFromCivil y m d = days := by
  have hd0 : 0 ≤ days + 719468 - (days + 719468) / 146097 * 146097 := by omega
  have hd1 : days + 719468 - (days + 719468) / 146097 * 146097 ≤ 146096 := by omega
  obtain ⟨k, q, j, x, hk0, hk1, hq0, hq1, hj0, hj1, hx0, hx, hdoe, hyoe, hdoy⟩ :=
    doy_range _ hd0 hd1
  obtain ⟨_, _, hera0, hera1, hy0, hy1, hylast, hyfirst⟩ :=
    civil_arith days ((days + 719468) / 146097) k q j x _ h0 h1 rfl hk0 hk1 hq0 hq1 hj0 hj1 hx0
      hx hdoe rfl
  have hx365 : x ≤ 365 := by omega
  obtain ⟨m, c, hm, hc, hcx, hm1, hm2, hmp, htable⟩ := month_of x hx0 hx365
  rw [civilFromDays_eq]
  simp only []
  rw [hyoe, hdoy, hm, hc]
  clear hyoe hdoy hm hc
  revert htable
  have hdpos : 0 ≤ x - c + 1 := by omega
  obtain ⟨d, hd⟩ := Int.eq_ofNat_of_zero_le hdpos
  have hbase : days = 146097 * ((days + 719468) / 146097) + 36524 * k + 1461 * q + 365 * j -
      719468 + x := by omega
  by_cases hearly : m ≤ 2
  · have hcond : (m : Int) ≤ 2 := by exact_mod_cast hearly
    rw [if_pos hcond]
    have hypos : 0 ≤ 100 * k + 4 * q + j + (days + 719468) / 146097 * 400 + 1 := by omega
    obtain ⟨y, hy⟩ := Int.eq_ofNat_of_zero_le hypos
    have hmp10 : 10 ≤ (5 * x + 2) / 153 := hmp.mp hearly
    have hy1970 : 1970 ≤ y := by omega
    have hy2262 : y ≤ 2262 := by
      by_contra hcon
      have := hylast (by omega)
      omega
    obtain ⟨hclosed, hleap⟩ := year_early ((days + 719468) / 146097) k q j y hk0 hk1 hq0 hq1
      hj0 hj1 (by omega) hy1970
    have hfeb : x ≤ 364 ∨ isLeapYear y = true := by
      rcases hx with hx | hx
      · exact Or.inl hx
      · exact Or.inr (hleap.mpr hx.2)
    have hdeq : (d : Int) = x - c + 1 := hd.symm
    intro htable
    obtain ⟨h1', h2', h3'⟩ := civil_month days
      (146097 * ((days + 719468) / 146097) + 36524 * k + 1461 * q + 365 * j - 719468) x c y m d
      hbase hdeq hcx (fun h => absurd hearly (Nat.not_le.mpr h))
      (fun _ => ⟨hclosed, hfeb⟩) htable
    exact ⟨y, m, d, by rw [hy, hd], hy1970, hy2262, hm1, hm2, h2', h3', h1'⟩
  · have hcond : ¬ (m : Int) ≤ 2 := by
      intro h
      exact hearly (by exact_mod_cast h)
    rw [if_neg hcond]
    have hypos : 0 ≤ 100 * k + 4 * q + j + (days + 719468) / 146097 * 400 := by omega
    obtain ⟨y, hy⟩ := Int.eq_ofNat_of_zero_le hypos
    have hmp9 : (5 * x + 2) / 153 ≤ 9 := by
      by_contra hcon
      exact hearly (hmp.mpr (by omega))
    have hy1970 : 1970 ≤ y := by
      by_contra hcon
      have := hyfirst (by omega)
      omega
    have hy2262 : y ≤ 2262 := by omega
    have hlate := (year_late ((days + 719468) / 146097) k q j y hk0 hk1 hq0 hq1 hj0 hj1
      (by omega)).resolve_right (Nat.not_lt.mpr hy1970)
    have hdeq : (d : Int) = x - c + 1 := hd.symm
    intro htable
    obtain ⟨h1', h2', h3'⟩ := civil_month days
      (146097 * ((days + 719468) / 146097) + 36524 * k + 1461 * q + 365 * j - 719468) x c y m d
      hbase hdeq hcx (fun _ => hlate) (fun h => absurd h hearly) htable
    exact ⟨y, m, d, by rw [hy, hd], hy1970, hy2262, hm1, hm2, h2', h3', h1'⟩

end Storage

namespace Storage

/-- The display string of a timestamp that is not negative, in terms of the
timestamp's seconds and milliseconds. -/
theorem Date_eq (ms : Int) (h0 : 0 ≤ ms) :
    Date ms =
      String.mk (yearChars (civilFromDays (ms / 1000 / 86400)).1 ++ ['-'] ++
        pad2 (civilFromDays (ms / 1000 / 86400)).2.1.toNat ++ ['-'] ++
        pad2 (civilFromDays (ms / 1000 / 86400)).2.2.toNat ++ ['T'] ++
        pad2 ((ms / 1000 % 86400).toNat / 3600) ++ [':'] ++
        pad2 ((ms / 1000 % 86400).toNat % 3600 / 60) ++ [':'] ++
        pad2 ((ms / 1000 % 86400).toNat % 60) ++ ['.'] ++ pad3 (ms % 1000).toNat ++ ['Z']) := by
  have e1 : Int.tdiv ms 1000 = ms / 1000 := Int.tdiv_eq_ediv h0 (by norm_num)
  have e2 : Int.tmod ms 1000 = ms % 1000 := Int.tmod_eq_emod h0 (by norm_num)
  have e3 : (ms / 1000 * 1000000000 + ms % 1000 * 1000000) / 1000000000 = ms / 1000 := by omega
  have e4 : (ms / 1000 * 1000000000 + ms % 1000 * 1000000) % 1000000000 / 1000000 =
      ms % 1000 := by omega
  unfold Date Time.FormatMillisUTC Time.Unix
  simp only [e1, e2, e3, e4]

/-- The display string of a timestamp from 0 to 9223372036854 ms: a valid date
and time of day, and the ones that are `ms` milliseconds after
1970-01-01T00:00:00.000Z. -/
theorem Date_spec (ms : Int) (h0 : 0 ≤ ms) (h1 : ms ≤ 9223372036854) :
    ∃ y mo d h mi s f : Nat, Date ms = isoMillisUTC y mo d h mi s f ∧
      1970 ≤ y ∧ y ≤ 2262 ∧ 1 ≤ mo ∧ mo ≤ 12 ∧ 1 ≤ d ∧ (d : Int) ≤ daysInMonth y mo ∧
      h < 24 ∧ mi < 60 ∧ s < 60 ∧ f < 1000 ∧
      (((daysFromCivil y mo d * 24 + h) * 60 + mi) * 60 + s) * 1000 + f = ms := by
  obtain ⟨y, m, d, hciv, hy0, hy1, hm0, hm1, hd0, hd1, hdays⟩ :=
    civilFromDays_spec (ms / 1000 / 86400) (by omega) (by omega)
  obtain ⟨r, hr⟩ := Int.eq_ofNat_of_zero_le (show 0 ≤ ms / 1000 % 86400 by omega)
  obtain ⟨f, hf⟩ := Int.eq_ofNat_of_zero_le (show 0 ≤ ms % 1000 by omega)
  refine ⟨y, m, d, r / 3600, r % 3600 / 60, r % 60, f, ?_, hy0, hy1, hm0, hm1, hd0, hd1,
    by omega, by omega, by omega, by omega, ?_⟩
  · rw [Date_eq ms h0, hciv, hr, hf]
    have hyc : yearChars (y : Int) = pad4 y := by
      unfold yearChars pad4
      rw [if_pos ⟨by omega, by omega⟩]
      rfl
    simp only [Int.toNat_ofNat, hyc]
    rfl
  · rw [hdays]
    push_cast
    omega

/-- Two decimal digits are the same character only if they are the same
digit. -/
theorem digitChar_inj (a b : Nat) (h : digitChar a = digitChar b) : a % 10 = b % 10 := by
  have key : ∀ i < 10, ∀ j < 10, Char.ofNat (48 + i) = Char.ofNat (48 + j) → i = j := by
    decide
  exact key (a % 10) (Nat.mod_lt _ (by norm_num)) (b % 10) (Nat.mod_lt _ (by norm_num)) h

theorem pad2_inj (a b : Nat) (ha : a < 100) (hb : b < 100) (h : pad2 a = pad2 b) : a = b := by
  simp only [pad2, List.cons.injEq, and_true] at h
  have h1 := digitChar_inj _ _ h.1
  have h2 := digitChar_inj _ _ h.2
  omega

theorem pad3_inj (a b : Nat) (ha : a < 1000) (hb : b < 1000) (h : pad3 a = pad3 b) : a = b := by
  simp only [pad3, List.cons.injEq, and_true] at h
  have h1 := digitChar_inj _ _ h.1
  have h2 := digitChar_inj _ _ h.2.1
  have h3 := digitChar_inj _ _ h.2.2
  omega

theorem pad4_inj (a b : Nat) (ha : a < 10000) (hb : b < 10000) (h : pad4 a = pad4 b) :
    a = b := by
  simp only [pad4, List.cons.injEq, and_true] at h
  have h1 := digitChar_inj _ _ h.1
  have h2 := digitChar_inj _ _ h.2.1
  have h3 := digitChar_inj _ _ h.2.2.1
  have h4 := digitChar_inj _ _ h.2.2.2
  omega

/-- The fields of an ISO-8601 display string. -/
theorem isoMillisUTC_data (y mo d h mi s f : Nat) :
    (isoMillisUTC y mo d h mi s f).data =
      pad4 y ++ ('-' :: (pad2 mo ++ ('-' :: (pad2 d ++ ('T' :: (pad2 h ++ (':' :: (pad2 mi ++
      (':' :: (pad2 s ++ ('.' :: (pad3 f ++ ['Z'])))))))))))) := rfl

theorem isoMillisUTC_length (y mo d h mi s f : Nat) :
    (isoMillisUTC y mo d h mi s f).length = 24 := rfl

/-- Two ISO-8601 display strings are equal only if their fields are. -/
theorem isoMillisUTC_inj (y mo d h mi s f y' mo' d' h' mi' s' f' : Nat)
    (hy : y < 10000) (hmo : mo < 100) (hd : d < 100) (hh : h < 100) (hmi : mi < 100)
    (hs : s < 100) (hf : f < 1000) (hy' : y' < 10000) (hmo' : mo' < 100) (hd' : d' < 100)
    (hh' : h' < 100) (hmi' : mi' < 100) (hs' : s' < 100) (hf' : f' < 1000)
    (heq : isoMillisUTC y mo d h mi s f = isoMillisUTC y' mo' d' h' mi' s' f') :
    y = y' ∧ mo = mo' ∧ d = d' ∧ h = h' ∧ mi = mi' ∧ s = s' ∧ f = f' := by
  have hdata := congrArg String.data heq
  rw [isoMillisUTC_data, isoMillisUTC_data] at hdata
  have l4 : ∀ n, (pad4 n).length = 4 := fun _ => rfl
  have l2 : ∀ n, (pad2 n).length = 2 := fun _ => rfl
  have l3 : ∀ n, (pad3 n).length = 3 := fun _ => rfl
  obtain ⟨e1, hdata⟩ := List.append_inj hdata (by rw [l4, l4])
  obtain ⟨e2, hdata⟩ := List.append_inj (List.cons.inj hdata).2 (by rw [l2, l2])
  obtain ⟨e3, hdata⟩ := List.append_inj (List.cons.inj hdata).2 (by rw [l2, l2])
  obtain ⟨e4, hdata⟩ := List.append_inj (List.cons.inj hdata).2 (by rw [l2, l2])
  obtain ⟨e5, hdata⟩ := List.append_inj (List.cons.inj hdata).2 (by rw [l2, l2])
  obtain ⟨e6, hdata⟩ := List.append_inj (List.cons.inj hdata).2 (by rw [l2, l2])
  obtain ⟨e7, _⟩ := List.append_inj (List.cons.inj hdata).2 (by rw [l3, l3])
  exact ⟨pad4_inj _ _ hy hy' e1, pad2_inj _ _ hmo hmo' e2, pad2_inj _ _ hd hd' e3,
    pad2_inj _ _ hh hh' e4, pad2_inj _ _ hmi hmi' e5, pad2_inj _ _ hs hs' e6,
    pad3_inj _ _ hf hf' e7⟩

theorem daysInMonth_le (y m : Nat) : daysInMonth y m ≤ 31 := by
  unfold daysInMonth
  split_ifs <;> norm_num

/-- C23: for every integer `ms` with `0 ≤ ms ≤ 9223372036854`, `Date ms` (a
function of `ms` alone) has 24 characters and is the ISO-8601 UTC display
string `YYYY-MM-DDTHH:MM:SS.mmmZ` of a valid date of the Gregorian calendar
and a time of day that are together `ms` milliseconds after
1970-01-01T00:00:00.000Z; `Date` is injective on that range; and
`Date 1672531200000` is `2023-01-01T00:00:00.000Z`. -/
theorem C23_date_rendering (ms : Int) (h0 : 0 ≤ ms) (h1 : ms ≤ 9223372036854) :
    (Date ms).length = 24 ∧
    (∃ y mo d h mi s f : Nat, Date ms = isoMillisUTC y mo d h mi s f ∧
      1970 ≤ y ∧ y ≤ 2262 ∧ 1 ≤ mo ∧ mo ≤ 12 ∧ 1 ≤ d ∧ (d : Int) ≤ daysInMonth y mo ∧
      h < 24 ∧ mi < 60 ∧ s < 60 ∧ f < 1000 ∧
      (((daysFromCivil y mo d * 24 + h) * 60 + mi) * 60 + s) * 1000 + f = ms) ∧
    (∀ other : Int, 0 ≤ other → other ≤ 9223372036854 → Date other = Date ms → other = ms) ∧
    Date 1672531200000 = "2023-01-01T00:00:00.000Z" := by
  obtain ⟨y, mo, d, h, mi, s, f, hdate, hy0, hy1, hmo0, hmo1, hd0, hd1, hh, hmi, hs, hf, heq⟩ :=
    Date_spec ms h0 h1
  have hd31 := daysInMonth_le y mo
  refine ⟨?_, ⟨y, mo, d, h, mi, s, f, hdate, hy0, hy1, hmo0, hmo1, hd0, hd1, hh, hmi, hs, hf,
    heq⟩, ?_, by decide⟩
  · rw [hdate]
    exact isoMillisUTC_length y mo d h mi s f
  · intro other ho0 ho1 hsame
    obtain ⟨y', mo', d', h', mi', s', f', hdate', _, hy1', _, hmo1', _, hd1', hh', hmi', hs',
      hf', heq'⟩ := Date_spec other ho0 ho1
    have hd31' := daysInMonth_le y' mo'
    rw [hdate, hdate'] at hsame
    obtain ⟨rfl, rfl, rfl, rfl, rfl, rfl, rfl⟩ := isoMillisUTC_inj y' mo' d' h' mi' s' f' y mo d
      h mi s f (by omega) (by omega) (by omega) (by omega) (by omega) (by omega) hf'
      (by omega) (by omega) (by omega) (by omega) (by omega) (by omega) hf hsame
    rw [← heq, ← heq']

/-- The timestamp 1672531200000 meets the hypotheses of C23: its display string
has 24 characters. -/
theorem C23_date_rendering_witness :
    (0 : Int) ≤ 1672531200000 ∧ (1672531200000 : Int) ≤ 9223372036854 ∧
    (Date 1672531200000).length = 24 :=
  ⟨by decide, by decide, (C23_date_rendering 1672531200000 (by decide) (by decide)).1⟩

end Storage
